import Mathlib

/-!
Herb traceability contract.

A shallow embedding of `smart-contracts/herb-traceability.go` and the properties of its
transaction surface.

Modelling conventions.

* `float64` is a type parameter `F` carrying the arithmetic, the order and the functions of
  `Float64Ops`; the statements about distances are made at `F = ℝ`.
* The world state is the pair of tables stored under the key prefixes `batch_` and `user_`;
  a table is an association list with at most one entry per key.  Stored values are the
  records themselves: where `json.Unmarshal` accepts the text `json.Marshal` wrote, it is taken
  to return the record that was written; it refuses a batch nested deeper than its limit (see
  `batchReadable`).  `GetState` / `PutState` are taken not to fail.
* Every call of `time.Now()` inside a transaction is a separate reading of a `Clock`: the
  `i`-th call of the transaction returns `clk i`.
* `json.Unmarshal` of the quality-data argument is a parameter of `AddEvent`.
* `json.Marshal` of a batch fails exactly when one of the `float64` arguments of the
  transaction is a NaN or an infinity: the other numbers of the batch were read from JSON.
* A transaction returns a `TxResult`: the error it returns, if any, and the world state it
  leaves behind.
-/

namespace HerbTraceability

/-! ## Data model -/

/-- What the contract and the libraries it calls do with a `float64` beside arithmetic and
comparison: `math.Cos`, `math.Asin`, `math.Sqrt`, the rendering of the verb `%f`, and the test
of `json.Marshal` for a value it can write. -/
class Float64Ops (F : Type) where
  /-- The function `math.Cos`. -/
  cos : F → F
  /-- The function `math.Asin`. -/
  asin : F → F
  /-- The function `math.Sqrt`. -/
  sqrt : F → F
  /-- The text `fmt.Sprintf` writes for the verb `%f`. -/
  fmtF : F → String
  /-- Whether the value is neither a NaN nor an infinity; `json.Marshal` returns an error on
  the others. -/
  isFinite : F → Bool

/-- The type `GeoLocation` of the source. -/
structure GeoLocation (F : Type) where
  Latitude : F
  Longitude : F
  Address : String
  Zone : String

/-- The type `ComplianceStatus` of the source. -/
structure ComplianceStatus where
  GeoFencing : Bool
  Seasonal : Bool
  Quality : Bool
  Species : Bool
  Overall : Bool
  LastChecked : String
  Violations : List String

/-- The type `QualityMetrics` of the source; a Go map is an association list. -/
structure QualityMetrics (F : Type) where
  Purity : F
  Moisture : F
  AshContent : F
  HeavyMetals : List (String × F)
  Pesticides : List (String × F)
  Microbial : List (String × F)
  LabTested : Bool
  TestDate : String
  LabID : String
  CertificateID : String

/-- The type `ComplianceCheck` of the source. -/
structure ComplianceCheck where
  Passed : Bool
  Rules : List String
  Violations : List String
  CheckedAt : String
  CheckedBy : String

/-- The values `json.Unmarshal` stores in an `interface{}`. -/
inductive JSONValue (F : Type) where
  | null : JSONValue F
  | bool (b : Bool) : JSONValue F
  | number (x : F) : JSONValue F
  | string (s : String) : JSONValue F
  | array (items : List (JSONValue F)) : JSONValue F
  | object (fields : List (String × JSONValue F)) : JSONValue F

/-- A value of type `map[string]interface{}`; `none` is the nil map. -/
abbrev JSONMap (F : Type) : Type := Option (List (String × JSONValue F))

/-- The type `HerbEvent` of the source. -/
structure HerbEvent (F : Type) where
  EventID : String
  EventType : String
  Timestamp : String
  Location : GeoLocation F
  ActorID : String
  ActorRole : String
  Description : String
  IPFSHash : String
  Certificates : List String
  QualityData : JSONMap F
  Compliance : ComplianceCheck
  Metadata : JSONMap F

/-- The type `HerbBatch` of the source. -/
structure HerbBatch (F : Type) where
  BatchID : String
  Species : String
  HarvestDate : String
  HarvestLocation : GeoLocation F
  FarmerID : String
  Quantity : F
  Unit : String
  Status : String
  Events : List (HerbEvent F)
  CreatedAt : String
  UpdatedAt : String
  ComplianceStatus : ComplianceStatus
  QualityMetrics : QualityMetrics F
  IPFSHashes : List (String × String)
  QRCodeGenerated : Bool
  QRCodeHash : String
  Metadata : JSONMap F

/-- The type `User` of the source. -/
structure User where
  UserID : String
  Username : String
  Email : String
  Role : String
  Organization : String
  Permissions : List String
  CreatedAt : String
  IsActive : Bool

/-! ## Reading a stored batch back

`json.Marshal` writes a value however deep its maps and slices are nested, while
`json.Unmarshal` returns the error `exceeded max depth` on a text that opens more than
`maxNestingDepth` arrays and objects inside one another. -/

/-- The constant `maxNestingDepth` of `encoding/json`. -/
def maxNestingDepth : Nat := 10000

mutual

/-- How deep arrays and objects are nested in the text `json.Marshal` writes for a value: none
for `null`, a boolean, a number or a string, one more than its deepest element for an array or
an object. -/
def jsonDepth {F : Type} : JSONValue F → Nat
  | JSONValue.array items => itemsDepth items + 1
  | JSONValue.object fields => fieldsDepth fields + 1
  | _ => 0

/-- The depth of the deepest element of an array. -/
def itemsDepth {F : Type} : List (JSONValue F) → Nat
  | [] => 0
  | v :: rest => max (jsonDepth v) (itemsDepth rest)

/-- The depth of the deepest member of an object. -/
def fieldsDepth {F : Type} : List (String × JSONValue F) → Nat
  | [] => 0
  | (_, v) :: rest => max (jsonDepth v) (fieldsDepth rest)

end

/-- The depth of the text of a `map[string]interface{}`: a nil map is written `null`. -/
def mapDepth {F : Type} (m : JSONMap F) : Nat :=
  match m with
  | none => 0
  | some fields => fieldsDepth fields + 1

/-- Whether `json.Unmarshal` accepts the text `json.Marshal` wrote for the batch.  The fields
of fixed shape nest at most five deep (batch, `events`, event, `compliance`, `rules`); the
quality data and the metadata of an event are written inside three enclosing values (the
batch, the array `events`, the event) and the metadata of the batch inside one, and with them
the text has to stay within `maxNestingDepth`. -/
def batchReadable {F : Type} (batch : HerbBatch F) : Bool :=
  batch.Events.all (fun event =>
    decide (mapDepth event.QualityData + 3 ≤ maxNestingDepth) &&
    decide (mapDepth event.Metadata + 3 ≤ maxNestingDepth)) &&
  decide (mapDepth batch.Metadata + 1 ≤ maxNestingDepth)

/-! ## World state, clock and results -/

/-- A table of the world state: the values stored under one key prefix, by the rest of the
key. -/
abbrev Table (α : Type) : Type := List (String × α)

/-- The call `GetState` on a table: the value under `key`, if there is one. -/
def getState {α : Type} (tbl : Table α) (key : String) : Option α :=
  match tbl with
  | [] => none
  | (k, v) :: rest => if k = key then some v else getState rest key

/-- The call `PutState` on a table: `key` holds `v` afterwards, the other keys are untouched. -/
def putState {α : Type} (tbl : Table α) (key : String) (v : α) : Table α :=
  match tbl with
  | [] => [(key, v)]
  | (k, w) :: rest => if k = key then (key, v) :: rest else (k, w) :: putState rest key v

/-- The world state: the batches under `batch_<id>` and the users under `user_<id>`. -/
structure WorldState (F : Type) where
  batches : Table (HerbBatch F)
  users : Table User

/-- One reading of `time.Now()`: its `Unix()` seconds and its `Format(time.RFC3339)` text. -/
structure Instant where
  unix : Int
  rfc3339 : String

/-- The readings of `time.Now()` during one transaction, in the order of the calls. -/
abbrev Clock : Type := Nat → Instant

/-- The errors the transactions return. -/
inductive TxError where
  /-- The text `batch %s already exists`. -/
  | batchExists (batchID : String)
  /-- The text `batch %s does not exist`. -/
  | batchMissing (batchID : String)
  /-- The text `user %s does not exist`. -/
  | userMissing (userID : String)
  /-- The text `user %s is not a farmer`. -/
  | notFarmer (farmerID : String)
  /-- The text `user %s does not have permission to perform %s`. -/
  | noPermission (actorID eventType : String)
  /-- The error of `json.Unmarshal` on the quality data. -/
  | badQualityData (qualityDataJSON : String)
  /-- The error of `json.Marshal` on a NaN or an infinity. -/
  | unsupportedValue
  /-- The text `batch %s is not ready for QR code generation. Current status: %s`. -/
  | notReady (batchID status : String)
  /-- The error of `json.Unmarshal` on a stored batch: `exceeded max depth`. -/
  | unreadable
  deriving DecidableEq, Repr

/-- What a transaction leaves behind: the error it returned, if any, and the world state. -/
structure TxResult (F : Type) where
  err : Option TxError
  state : WorldState F

/-! ## Authorization gate and lifecycle state machine -/

/-- The map literal `permissionMap` of `hasPermission`. -/
def permissionMap : List (String × List String) :=
  [("harvest", ["create_batch", "add_harvest_event"]),
   ("processing", ["add_processing_event"]),
   ("quality_test", ["add_quality_test"]),
   ("packaging", ["add_packaging_event"]),
   ("transport", ["add_transport_event"]),
   ("retail", ["add_retail_event"])]

/-- The function `hasPermission`: the action is in the table and the user holds one of the
permissions listed for it. -/
def hasPermission (user : User) (action : String) : Bool :=
  match getState permissionMap action with
  | none => false
  | some requiredPermissions =>
    requiredPermissions.any (fun permission =>
      user.Permissions.any (fun userPermission => decide (userPermission = permission)))

/-- The map literal `statusFlow` of `updateStatus`. -/
def statusFlow : List (String × String) :=
  [("harvest", "harvested"),
   ("processing", "processed"),
   ("quality_test", "tested"),
   ("packaging", "packaged"),
   ("transport", "in_transit"),
   ("retail", "retailed")]

/-- The function `updateStatus`. -/
def updateStatus (currentStatus eventType : String) : String :=
  match getState statusFlow eventType with
  | some newStatus => newStatus
  | none => currentStatus

/-! ## Compliance evaluator -/

section Evaluator

variable {F : Type} [OfScientific F] [Add F] [Sub F] [Mul F] [Div F] [LE F]
  [DecidableRel (LE.le : F → F → Prop)] [Float64Ops F]

/-- The function `calculateDistance`. -/
def calculateDistance (lat1 lon1 lat2 lon2 : F) : F :=
  let dLat := (lat2 - lat1) * 3.14159265359 / 180.0
  let dLon := (lon2 - lon1) * 3.14159265359 / 180.0
  let a := 0.5 - 0.5 * Float64Ops.cos dLat +
    0.5 * Float64Ops.cos (lat1 * 3.14159265359 / 180.0) *
      Float64Ops.cos (lat2 * 3.14159265359 / 180.0) * (1.0 - Float64Ops.cos dLon)
  6371000.0 * Float64Ops.asin (Float64Ops.sqrt a)

/-- The literal `allowedZones` of `checkGeoFencing`: latitude, longitude, radius in metres. -/
def allowedZones : List (F × F × F) :=
  [(12.9716, 77.5946, 1000.0), (19.0760, 72.8777, 1000.0), (28.7041, 77.1025, 1000.0)]

/-- The function `checkGeoFencing`. -/
def checkGeoFencing (location : GeoLocation F) : Bool :=
  (allowedZones : List (F × F × F)).any (fun zone =>
    decide (calculateDistance location.Latitude location.Longitude zone.1 zone.2.1 ≤ zone.2.2))

/-- The function `checkQualityStandards`. -/
def checkQualityStandards (event : HerbEvent F) : Bool :=
  if event.EventType = "harvest" then true
  else if event.EventType = "quality_test" then
    match event.QualityData with
    | none => false
    | some fields =>
      match getState fields "purity" with
      | some (JSONValue.number purityFloat) => decide ((95.0 : F) ≤ purityFloat)
      | _ => false
  else true

/-- The function `checkSpeciesConservation`. -/
def checkSpeciesConservation (_event : HerbEvent F) : Bool :=
  true

end Evaluator

/-! ### Parsing a timestamp

`time.Parse(time.RFC3339, value)` of the Go library, on the layout
`2006-01-02T15:04:05Z07:00`: a four-digit year, a two-digit month and day, an hour of one or two
digits, two-digit minutes and seconds, an optional fraction of a second after `.` or `,`, and a
zone that is `Z` or a signed `hh:mm`.  Every byte the parser accepts is ASCII, so the text is
read character by character. -/

/-- The civil date and time written in a timestamp. -/
structure CivilTime where
  year : Nat
  month : Nat
  day : Nat
  hour : Nat
  minute : Nat
  second : Nat
  deriving DecidableEq, Repr

/-- The value of a decimal digit. -/
def digitValue (c : Char) : Nat :=
  c.toNat - 48

/-- The helper `getnum` of package `time`: a number of two digits, or of one digit when `fixed`
is false and no second digit follows. -/
def getnum (s : List Char) (fixed : Bool) : Option (Nat × List Char) :=
  match s with
  | [] => none
  | c0 :: rest =>
    if c0.isDigit then
      match rest with
      | c1 :: rest1 =>
        if c1.isDigit then some (digitValue c0 * 10 + digitValue c1, rest1)
        else if fixed then none else some (digitValue c0, rest)
      | [] => if fixed then none else some (digitValue c0, rest)
    else none

/-- The helper `skip` of package `time` for a one-byte prefix other than a blank. -/
def skip (value : List Char) (sep : Char) : Option (List Char) :=
  match value with
  | c :: rest => if c = sep then some rest else none
  | [] => none

/-- The four-digit year of the layout element `2006`. -/
def parseLongYear (value : List Char) : Option (Nat × List Char) :=
  match value with
  | c0 :: c1 :: c2 :: c3 :: rest =>
    if c0.isDigit && c1.isDigit && c2.isDigit && c3.isDigit then
      some (digitValue c0 * 1000 + digitValue c1 * 100 + digitValue c2 * 10 + digitValue c3, rest)
    else none
  | _ => none

/-- The fraction of a second the parser accepts after the seconds although the layout has
none: `.` or `,` and at least one digit, with the digits that follow. -/
def skipFraction (value : List Char) : List Char :=
  match value with
  | c0 :: c1 :: rest =>
    if (c0 = '.' || c0 = ',') && c1.isDigit then rest.dropWhile Char.isDigit else value
  | _ => value

/-- The layout element `Z07:00`: `Z`, or a sign, two digits, a colon and two digits, with an
hour of at most 24 and minutes of at most 60.  The result is the rest of the text. -/
def parseZone (value : List Char) : Option (List Char) :=
  match value with
  | 'Z' :: rest => some rest
  | sign :: h0 :: h1 :: colon :: m0 :: m1 :: rest =>
    if colon = ':' then
      match getnum [h0, h1] true, getnum [m0, m1] true with
      | some (hr, _), some (mm, _) =>
        if hr > 24 || mm > 60 then none
        else if sign = '+' || sign = '-' then some rest else none
      | _, _ => none
    else none
  | _ => none

/-- The function `isLeap` of package `time`. -/
def isLeap (year : Nat) : Bool :=
  year % 4 == 0 && (year % 100 != 0 || year % 400 == 0)

/-- The function `daysIn` of package `time`. -/
def daysIn (month year : Nat) : Nat :=
  if month = 2 then (if isLeap year then 29 else 28)
  else if month = 4 || month = 6 || month = 9 || month = 11 then 30
  else 31

/-- The call `time.Parse(time.RFC3339, value)`: the civil time written in `value`, which is the
civil time of the result in its own zone, or `none` when the call returns an error. -/
def timeParseRFC3339 (value : String) : Option CivilTime := do
  let (year, v) ← parseLongYear value.data
  let v ← skip v '-'
  let (month, v) ← getnum v true
  if month = 0 || 12 < month then none
  let v ← skip v '-'
  let (day, v) ← getnum v true
  let v ← skip v 'T'
  let (hour, v) ← getnum v false
  if 24 ≤ hour then none
  let v ← skip v ':'
  let (minute, v) ← getnum v true
  if 60 ≤ minute then none
  let v ← skip v ':'
  let (second, v) ← getnum v true
  if 60 ≤ second then none
  let v ← parseZone (skipFraction v)
  if !v.isEmpty then none
  if day < 1 || daysIn month year < day then none
  some { year := year, month := month, day := day, hour := hour, minute := minute,
         second := second }

section Evaluator

variable {F : Type} [OfScientific F] [Add F] [Sub F] [Mul F] [Div F] [LE F]
  [DecidableRel (LE.le : F → F → Prop)] [Float64Ops F]

/-- The function `checkSeasonalRestrictions`. -/
def checkSeasonalRestrictions (event : HerbEvent F) : Bool :=
  match timeParseRFC3339 event.Timestamp with
  | none => false
  | some eventTime => decide (eventTime.month ≥ 3) && decide (eventTime.month ≤ 11)

/-- The function `checkCompliance`; `now` is its reading of `time.Now()`.  The error it
returns is always nil. -/
def checkCompliance (now : Instant) (event : HerbEvent F) : ComplianceStatus :=
  let geoFencing := checkGeoFencing event.Location
  let seasonal := checkSeasonalRestrictions event
  let quality := checkQualityStandards event
  let species := checkSpeciesConservation event
  { GeoFencing := geoFencing
    Seasonal := seasonal
    Quality := quality
    Species := species
    Overall := geoFencing && seasonal && quality && species
    LastChecked := now.rfc3339
    Violations := [] }

end Evaluator

/-! ## The QR digest

`GenerateQRCode` marshals a map of five strings with `json.Marshal` and stores the bytes in
hexadecimal (`%x`).  `json.Marshal` writes the keys of a map in sorted order and escapes the
strings as Go's encoder does with HTML escaping on. -/

/-- The hexadecimal digit of a number below 16, in lower case. -/
def hexDigit (n : Nat) : Char :=
  if n < 10 then Char.ofNat (48 + n) else Char.ofNat (87 + n)

/-- The two hexadecimal digits of a byte. -/
def hexByte (b : Nat) : List Char :=
  [hexDigit (b / 16), hexDigit (b % 16)]

/-- The verb `%x` on a byte string: the bytes of the UTF-8 encoding, two digits each. -/
def hexEncode (s : String) : String :=
  String.mk ((s.data.flatMap String.utf8EncodeChar).flatMap (fun b => hexByte b.toNat))

/-- The double quote. -/
def quoteChar : Char := Char.ofNat 34

/-- The backslash. -/
def backslashChar : Char := Char.ofNat 92

/-- One character of a string as `json.Marshal` writes it: the quote and the backslash behind a
backslash; backspace, form feed, line feed, carriage return and tab as a backslash and `b`,
`f`, `n`, `r`, `t`; the other control characters and `<`, `>`, `&` as a backslash, `u00` and
two hexadecimal digits; the separators U+2028 and U+2029 as a backslash, `u202` and `8` or
`9`. -/
def jsonEscapeChar (c : Char) : List Char :=
  if c = quoteChar || c = backslashChar then [backslashChar, c]
  else if c.toNat = 8 then [backslashChar, 'b']
  else if c.toNat = 12 then [backslashChar, 'f']
  else if c.toNat = 10 then [backslashChar, 'n']
  else if c.toNat = 13 then [backslashChar, 'r']
  else if c.toNat = 9 then [backslashChar, 't']
  else if c.toNat < 32 || c = '<' || c = '>' || c = '&' then
    [backslashChar, 'u', '0', '0'] ++ hexByte c.toNat
  else if c.toNat = 8232 || c.toNat = 8233 then
    [backslashChar, 'u', '2', '0', '2', hexDigit (c.toNat % 16)]
  else [c]

/-- A string as `json.Marshal` writes it. -/
def jsonString (s : String) : String :=
  String.mk (quoteChar :: s.data.flatMap jsonEscapeChar ++ [quoteChar])

/-- The result of `json.Marshal(qrData)` for the map built in `GenerateQRCode`. -/
def marshalQRData (batchId species status url timestamp : String) : String :=
  "\x7b" ++ jsonString "batchId" ++ ":" ++ jsonString batchId ++ "," ++
  jsonString "species" ++ ":" ++ jsonString species ++ "," ++
  jsonString "status" ++ ":" ++ jsonString status ++ "," ++
  jsonString "timestamp" ++ ":" ++ jsonString timestamp ++ "," ++
  jsonString "url" ++ ":" ++ jsonString url ++ "\x7d"

/-! ## Transactions -/

/-- The user records written by `InitLedger`; `clk 0 .. clk 3` are the readings of
`time.Now()` for the four `CreatedAt` fields. -/
def seedUsers (clk : Clock) : List User :=
  [{ UserID := "farmer001", Username := "john_farmer", Email := "john@farm.com",
     Role := "farmer", Organization := "Green Valley Farms",
     Permissions := ["create_batch", "add_harvest_event"],
     CreatedAt := (clk 0).rfc3339, IsActive := true },
   { UserID := "processor001", Username := "mary_processor", Email := "mary@process.com",
     Role := "processor", Organization := "Herb Processing Co",
     Permissions := ["add_processing_event", "add_quality_test"],
     CreatedAt := (clk 1).rfc3339, IsActive := true },
   { UserID := "lab001", Username := "dr_smith", Email := "smith@lab.com",
     Role := "laboratory", Organization := "Quality Lab Services",
     Permissions := ["add_lab_test", "upload_certificate"],
     CreatedAt := (clk 2).rfc3339, IsActive := true },
   { UserID := "regulator001", Username := "regulator_jane", Email := "jane@gov.com",
     Role := "regulator", Organization := "Ministry of AYUSH",
     Permissions := ["view_all", "audit", "compliance_check"],
     CreatedAt := (clk 3).rfc3339, IsActive := true }]

section Transactions

variable {F : Type} [OfScientific F] [Add F] [Sub F] [Mul F] [Div F] [LE F]
  [DecidableRel (LE.le : F → F → Prop)] [Float64Ops F]

/-- The function `InitLedger`: every seed user is put under `user_<UserID>`. -/
def InitLedger (clk : Clock) (st : WorldState F) : TxResult F :=
  { err := none
    state := (seedUsers clk).foldl
      (fun s user => { s with users := putState s.users user.UserID user }) st }

/-- The function `GetHerbBatch`: the error for a missing batch, the error of `json.Unmarshal`
for a stored batch it refuses, the batch otherwise. -/
def GetHerbBatch (st : WorldState F) (batchID : String) : Except TxError (HerbBatch F) :=
  match getState st.batches batchID with
  | none => Except.error (TxError.batchMissing batchID)
  | some batch =>
    if batchReadable batch then Except.ok batch else Except.error TxError.unreadable

/-- The function `GetUser`. -/
def GetUser (st : WorldState F) (userID : String) : Except TxError User :=
  match getState st.users userID with
  | none => Except.error (TxError.userMissing userID)
  | some user => Except.ok user

/-- The function `CreateHerbBatch`; the readings of `time.Now()` are `clk 0 .. clk 6`, the
fourth of them (`clk 3`) inside `checkCompliance`.  The last test is the error of
`json.Marshal(herbBatch)`. -/
def CreateHerbBatch (clk : Clock) (batchID species farmerID : String) (quantity : F)
    (unit : String) (latitude longitude : F) (address : String) (st : WorldState F) :
    TxResult F :=
  match getState st.batches batchID with
  | some _ => { err := some (TxError.batchExists batchID), state := st }
  | none =>
    match GetUser st farmerID with
    | Except.error e => { err := some e, state := st }
    | Except.ok farmer =>
      if farmer.Role ≠ "farmer" then { err := some (TxError.notFarmer farmerID), state := st }
      else
        let harvestEvent : HerbEvent F :=
          { EventID := "event_" ++ batchID ++ "_" ++ toString (clk 0).unix
            EventType := "harvest"
            Timestamp := (clk 1).rfc3339
            Location := { Latitude := latitude, Longitude := longitude, Address := address,
                          Zone := "" }
            ActorID := farmerID
            ActorRole := "farmer"
            Description := "Harvested " ++ Float64Ops.fmtF quantity ++ " " ++ unit ++ " of " ++
              species
            IPFSHash := ""
            Certificates := []
            QualityData := none
            Compliance := { Passed := false, Rules := [], Violations := [],
                            CheckedAt := (clk 2).rfc3339, CheckedBy := "" }
            Metadata := none }
        let complianceStatus := checkCompliance (clk 3) harvestEvent
        let herbBatch : HerbBatch F :=
          { BatchID := batchID
            Species := species
            HarvestDate := (clk 4).rfc3339
            HarvestLocation := { Latitude := latitude, Longitude := longitude,
                                 Address := address, Zone := "" }
            FarmerID := farmerID
            Quantity := quantity
            Unit := unit
            Status := "harvested"
            Events := [harvestEvent]
            CreatedAt := (clk 5).rfc3339
            UpdatedAt := (clk 6).rfc3339
            ComplianceStatus := complianceStatus
            QualityMetrics := { Purity := 0.0, Moisture := 0.0, AshContent := 0.0,
                                HeavyMetals := [], Pesticides := [], Microbial := [],
                                LabTested := false, TestDate := "", LabID := "",
                                CertificateID := "" }
            IPFSHashes := []
            QRCodeGenerated := false
            QRCodeHash := ""
            Metadata := some [] }
        if !(Float64Ops.isFinite quantity && Float64Ops.isFinite latitude &&
            Float64Ops.isFinite longitude) then
          { err := some TxError.unsupportedValue, state := st }
        else
          { err := none, state := { st with batches := putState st.batches batchID herbBatch } }

/-- The function `AddEvent`; `jsonUnmarshal` is `json.Unmarshal` into a
`map[string]interface{}` (`none` when it returns an error), and the readings of `time.Now()`
are `clk 0 .. clk 4`, the fourth of them (`clk 3`) inside `checkCompliance`.  The last
test is the error of `json.Marshal(batch)`. -/
def AddEvent (jsonUnmarshal : String → Option (JSONMap F)) (clk : Clock)
    (batchID eventType actorID description : String) (latitude longitude : F)
    (ipfsHash qualityDataJSON : String) (st : WorldState F) : TxResult F :=
  match GetHerbBatch st batchID with
  | Except.error e => { err := some e, state := st }
  | Except.ok batch =>
    match GetUser st actorID with
    | Except.error e => { err := some e, state := st }
    | Except.ok actor =>
      if !hasPermission actor eventType then
        { err := some (TxError.noPermission actorID eventType), state := st }
      else
        match (if qualityDataJSON ≠ "" then jsonUnmarshal qualityDataJSON else some none) with
        | none => { err := some (TxError.badQualityData qualityDataJSON), state := st }
        | some qualityData =>
          let newEvent : HerbEvent F :=
            { EventID := "event_" ++ batchID ++ "_" ++ toString (clk 0).unix
              EventType := eventType
              Timestamp := (clk 1).rfc3339
              Location := { Latitude := latitude, Longitude := longitude, Address := "",
                            Zone := "" }
              ActorID := actorID
              ActorRole := actor.Role
              Description := description
              IPFSHash := ipfsHash
              Certificates := []
              QualityData := qualityData
              Compliance := { Passed := false, Rules := [], Violations := [],
                              CheckedAt := (clk 2).rfc3339, CheckedBy := "" }
              Metadata := none }
          let complianceStatus := checkCompliance (clk 3) newEvent
          let batch1 : HerbBatch F :=
            { batch with
              Events := batch.Events ++ [newEvent]
              UpdatedAt := (clk 4).rfc3339
              ComplianceStatus := complianceStatus
              Status := updateStatus batch.Status eventType }
          if !(Float64Ops.isFinite latitude && Float64Ops.isFinite longitude) then
            { err := some TxError.unsupportedValue, state := st }
          else
            { err := none, state := { st with batches := putState st.batches batchID batch1 } }

/-- The function `GenerateQRCode`; the readings of `time.Now()` are `clk 0` and `clk 1`. -/
def GenerateQRCode (clk : Clock) (batchID : String) (st : WorldState F) : TxResult F :=
  match GetHerbBatch st batchID with
  | Except.error e => { err := some e, state := st }
  | Except.ok batch =>
    if batch.Status ≠ "packaged" then
      { err := some (TxError.notReady batchID batch.Status), state := st }
    else
      let qrDataJSON := marshalQRData batchID batch.Species batch.Status
        ("https://traceability.ayurvedic-herbs.com/batch/" ++ batchID) (clk 0).rfc3339
      let batch1 : HerbBatch F :=
        { batch with
          QRCodeGenerated := true
          QRCodeHash := hexEncode qrDataJSON
          UpdatedAt := (clk 1).rfc3339 }
      { err := none, state := { st with batches := putState st.batches batchID batch1 } }

/-- One transaction of the contract: the world state before and the world state it leaves,
whether it returned an error or not. -/
inductive Step (jsonUnmarshal : String → Option (JSONMap F)) :
    WorldState F → WorldState F → Prop where
  | initLedger (clk : Clock) (st : WorldState F) :
      Step jsonUnmarshal st (InitLedger clk st).state
  | createHerbBatch (clk : Clock) (batchID species farmerID : String) (quantity : F)
      (unit : String) (latitude longitude : F) (address : String) (st : WorldState F) :
      Step jsonUnmarshal st
        (CreateHerbBatch clk batchID species farmerID quantity unit latitude longitude address
          st).state
  | addEvent (clk : Clock) (batchID eventType actorID description : String)
      (latitude longitude : F) (ipfsHash qualityDataJSON : String) (st : WorldState F) :
      Step jsonUnmarshal st
        (AddEvent jsonUnmarshal clk batchID eventType actorID description latitude longitude
          ipfsHash qualityDataJSON st).state
  | generateQRCode (clk : Clock) (batchID : String) (st : WorldState F) :
      Step jsonUnmarshal st (GenerateQRCode clk batchID st).state

/-- The world states that sequences of transactions lead to from `st`. -/
inductive Steps (jsonUnmarshal : String → Option (JSONMap F)) :
    WorldState F → WorldState F → Prop where
  | refl (st : WorldState F) : Steps jsonUnmarshal st st
  | tail {st mid st1 : WorldState F} :
      Steps jsonUnmarshal st mid → Step jsonUnmarshal mid st1 → Steps jsonUnmarshal st st1

/-- The reachable world states: those the transactions lead to from a ledger that holds no
batch, whatever users it holds. -/
def Reachable (jsonUnmarshal : String → Option (JSONMap F)) (st : WorldState F) : Prop :=
  ∃ users : Table User, Steps jsonUnmarshal { batches := [], users := users } st

end Transactions

/-! ## The real-number reading of `float64` -/

/-- The natural number nearest to a non-negative real, a tie going to the even one. -/
noncomputable def roundHalfEven (y : ℝ) : ℕ :=
  if y - ⌊y⌋₊ < 1 / 2 then ⌊y⌋₊
  else if 1 / 2 < y - ⌊y⌋₊ then ⌊y⌋₊ + 1
  else if ⌊y⌋₊ % 2 = 0 then ⌊y⌋₊ else ⌊y⌋₊ + 1

/-- A number below one million in six digits. -/
def pad6 (n : Nat) : String :=
  String.mk (List.replicate (6 - (toString n).length) '0') ++ toString n

/-- The verb `%f` on a real number: sign, integer part, a point and six decimals. -/
noncomputable def sprintfReal (x : ℝ) : String :=
  (if x < 0 then "-" else "") ++ toString (roundHalfEven (|x| * 1000000) / 1000000) ++ "." ++
    pad6 (roundHalfEven (|x| * 1000000) % 1000000)

/-- The contract over the real numbers: `math.Cos`, `math.Asin` and `math.Sqrt` are the real
cosine, arcsine and square root, and every number is finite. -/
noncomputable instance instFloat64OpsReal : Float64Ops ℝ where
  cos := Real.cos
  asin := Real.arcsin
  sqrt := Real.sqrt
  fmtF := sprintfReal
  isFinite := fun _ => true

/-! ## Shapes of the change a transaction makes to one batch -/

section Shapes

variable {F : Type} [OfScientific F] [Add F] [Sub F] [Mul F] [Div F] [LE F]
  [DecidableRel (LE.le : F → F → Prop)] [Float64Ops F]

/-- The batch `CreateHerbBatch` stores: one `harvest` event by the farmer, whose embedded
verdict is left empty, the verdict of `checkCompliance` on that event on the batch, status
`harvested`, no QR code. -/
def Fresh (farmerID : String) (b : HerbBatch F) : Prop :=
  b.Status = "harvested" ∧ b.QRCodeGenerated = false ∧ b.QRCodeHash = "" ∧
  ∃ (e : HerbEvent F) (now : Instant),
    b.Events = [e] ∧ e.EventType = "harvest" ∧ e.ActorID = farmerID ∧ e.ActorRole = "farmer" ∧
    e.Compliance.Passed = false ∧ e.Compliance.Rules = [] ∧ e.Compliance.Violations = [] ∧
    b.ComplianceStatus = checkCompliance now e

/-- The change a successful `AddEvent` of kind `eventType` makes to the batch `b`: one event
more at the end of the log, whose embedded verdict is left empty, the verdict of
`checkCompliance` on that event on the batch, the status of `updateStatus`, a new `UpdatedAt`. -/
def Appended (eventType : String) (b b1 : HerbBatch F) : Prop :=
  ∃ (e : HerbEvent F) (now : Instant) (updatedAt : String),
    e.EventType = eventType ∧
    e.Compliance.Passed = false ∧ e.Compliance.Rules = [] ∧ e.Compliance.Violations = [] ∧
    b1 = { b with
           Events := b.Events ++ [e]
           UpdatedAt := updatedAt
           ComplianceStatus := checkCompliance now e
           Status := updateStatus b.Status eventType }

/-- The change a successful `GenerateQRCode` at clock `clk` makes to the batch `b` stored
under `batchID`. -/
def Finalized (clk : Clock) (batchID : String) (b b1 : HerbBatch F) : Prop :=
  b.Status = "packaged" ∧
  b1 = { b with
         QRCodeGenerated := true
         QRCodeHash := hexEncode (marshalQRData batchID b.Species b.Status
           ("https://traceability.ayurvedic-herbs.com/batch/" ++ batchID) (clk 0).rfc3339)
         UpdatedAt := (clk 1).rfc3339 }

/-- The verdict on the batch is the one `checkCompliance` returns for the last event of the
log, and the verdict embedded in that event is empty: not passed, no rules, no violations, so
that the two lists of violations agree. -/
def VerdictOfLastEvent (b : HerbBatch F) : Prop :=
  ∃ (e : HerbEvent F) (now : Instant),
    b.Events.getLast? = some e ∧ b.ComplianceStatus = checkCompliance now e ∧
    e.Compliance.Passed = false ∧ e.Compliance.Rules = [] ∧ e.Compliance.Violations = [] ∧
    b.ComplianceStatus.Violations = e.Compliance.Violations

end Shapes

/-! ## Invariants -/

section Invariants

variable {F : Type}

/-- The status of every stored batch is the fold of `updateStatus` over the kinds of its
events, in order, from the empty status. -/
def StatusIsFold (st : WorldState F) : Prop :=
  ∀ (batchID : String) (b : HerbBatch F), getState st.batches batchID = some b →
    b.Status = (b.Events.map (fun e => e.EventType)).foldl updateStatus ""

/-- Every batch stored in `st` is stored in `st1` with a log that starts with its log
in `st`. -/
def LogsGrow (st st1 : WorldState F) : Prop :=
  ∀ (batchID : String) (b : HerbBatch F), getState st.batches batchID = some b →
    ∃ b1 : HerbBatch F, getState st1.batches batchID = some b1 ∧ b.Events <+: b1.Events

/-- The claim that the verdict on every stored batch agrees with the verdict embedded in the
last event of its log: the same result and the same violations. -/
def VerdictMatchesLastEvent (st : WorldState F) : Prop :=
  ∀ (batchID : String) (b : HerbBatch F) (e : HerbEvent F),
    getState st.batches batchID = some b → b.Events.getLast? = some e →
    b.ComplianceStatus.Overall = e.Compliance.Passed ∧
    b.ComplianceStatus.Violations = e.Compliance.Violations

end Invariants

/-! ## A sample run

A ledger whose registry holds the seed farmer and two users entered out of band, and the
states a harvest, a packaging event and two QR code issues lead to.  The quality-data text of
the sample calls is empty, so `AddEvent` does not call the decoder. -/

/-- A decoder that rejects every text. -/
def rejectingUnmarshal {F : Type} : String → Option (JSONMap F) :=
  fun _ => none

/-- A clock whose readings within one transaction coincide. -/
def clockAt (unix : Int) (rfc3339 : String) : Clock :=
  fun _ => { unix := unix, rfc3339 := rfc3339 }

/-- The seed user `farmer001`. -/
def farmer001 : User :=
  { UserID := "farmer001", Username := "john_farmer", Email := "john@farm.com",
    Role := "farmer", Organization := "Green Valley Farms",
    Permissions := ["create_batch", "add_harvest_event"],
    CreatedAt := "2025-06-01T08:00:00Z", IsActive := true }

/-- A user holding the packaging permission. -/
def packager001 : User :=
  { UserID := "packager001", Username := "pat_packager", Email := "pat@pack.com",
    Role := "packager", Organization := "Herb Packaging Co",
    Permissions := ["add_packaging_event"],
    CreatedAt := "2025-06-01T08:00:00Z", IsActive := true }

/-- A user holding the processing permission whose record is inactive. -/
def suspended001 : User :=
  { UserID := "suspended001", Username := "sam_suspended", Email := "sam@process.com",
    Role := "processor", Organization := "Herb Processing Co",
    Permissions := ["add_processing_event"],
    CreatedAt := "2025-06-01T08:00:00Z", IsActive := false }

section Sample

variable {F : Type} [OfScientific F] [Add F] [Sub F] [Mul F] [Div F] [LE F]
  [DecidableRel (LE.le : F → F → Prop)] [Float64Ops F]

/-- The zero value of `HerbBatch`. -/
def zeroBatch : HerbBatch F :=
  { BatchID := "", Species := "", HarvestDate := "",
    HarvestLocation := { Latitude := 0.0, Longitude := 0.0, Address := "", Zone := "" },
    FarmerID := "", Quantity := 0.0, Unit := "", Status := "", Events := [],
    CreatedAt := "", UpdatedAt := "",
    ComplianceStatus := { GeoFencing := false, Seasonal := false, Quality := false,
                          Species := false, Overall := false, LastChecked := "",
                          Violations := [] },
    QualityMetrics := { Purity := 0.0, Moisture := 0.0, AshContent := 0.0, HeavyMetals := [],
                        Pesticides := [], Microbial := [], LabTested := false, TestDate := "",
                        LabID := "", CertificateID := "" },
    IPFSHashes := [], QRCodeGenerated := false, QRCodeHash := "", Metadata := none }

/-- The batch stored under `batchID`, or the zero value. -/
def batchAt (st : WorldState F) (batchID : String) : HerbBatch F :=
  (getState st.batches batchID).getD zeroBatch

/-- The ledger before the first batch. -/
def sampleGenesis : WorldState F :=
  { batches := []
    users := [("farmer001", farmer001), ("packager001", packager001),
              ("suspended001", suspended001)] }

/-- The ledger after `farmer001` harvested batch `B1` at the centre of the first zone on
15 June 2025. -/
def sampleCreated : WorldState F :=
  (CreateHerbBatch (clockAt 1750000000 "2025-06-15T15:06:40Z") "B1" "Ashwagandha" "farmer001"
    10.0 "kg" 12.9716 77.5946 "Bangalore" sampleGenesis).state

/-- The ledger after `packager001` added a `packaging` event to `B1`. -/
def samplePackaged : WorldState F :=
  (AddEvent rejectingUnmarshal (clockAt 1750003600 "2025-06-15T16:06:40Z") "B1" "packaging"
    "packager001" "packed in jars" 12.9716 77.5946 "" "" sampleCreated).state

/-- The ledger after the QR code of `B1` was generated. -/
def sampleFinalized : WorldState F :=
  (GenerateQRCode (clockAt 1750007200 "2025-06-15T17:06:40Z") "B1" samplePackaged).state

/-- The ledger after the QR code of `B1` was generated a second time, an hour later. -/
def sampleRefinalized : WorldState F :=
  (GenerateQRCode (clockAt 1750010800 "2025-06-15T18:06:40Z") "B1" sampleFinalized).state

end Sample

/-- The great-circle distance as the specification states it:
`d = 2R · asin(√(sin²(Δφ/2) + cos φ₁ · cos φ₂ · sin²(Δλ/2)))` with `R = 6371000` and degrees
turned into radians with `π = 3.14159265359`, over the real numbers. -/
noncomputable def haversineSpec (lat1 lon1 lat2 lon2 : ℝ) : ℝ :=
  2 * 6371000 *
    Real.arcsin (Real.sqrt
      (Real.sin ((lat2 - lat1) * 3.14159265359 / 180 / 2) ^ 2 +
        Real.cos (lat1 * 3.14159265359 / 180) * Real.cos (lat2 * 3.14159265359 / 180) *
          Real.sin ((lon2 - lon1) * 3.14159265359 / 180 / 2) ^ 2))

/-! ## Frame of a batch and sample events -/

section Frame

variable {F : Type}

/-- The attributes of a batch that are set at creation: `b1` has those of `b`. -/
def SameOrigin (b b1 : HerbBatch F) : Prop :=
  b1.BatchID = b.BatchID ∧ b1.Species = b.Species ∧ b1.HarvestDate = b.HarvestDate ∧
  b1.HarvestLocation = b.HarvestLocation ∧ b1.FarmerID = b.FarmerID ∧
  b1.Quantity = b.Quantity ∧ b1.Unit = b.Unit ∧ b1.CreatedAt = b.CreatedAt ∧
  b1.QualityMetrics = b.QualityMetrics ∧ b1.IPFSHashes = b.IPFSHashes ∧
  b1.Metadata = b.Metadata

/-- The equation `overall = geo ∧ seasonal ∧ quality ∧ species` of a verdict. -/
def OverallIsConjunction (v : ComplianceStatus) : Prop :=
  v.Overall = (v.GeoFencing && v.Seasonal && v.Quality && v.Species)

end Frame

section SampleEvents

variable {F : Type} [OfScientific F]

/-- An event of the given kind, timestamp and quality data at the centre of the first zone. -/
def sampleEvent (eventType timestamp : String) (qualityData : JSONMap F) : HerbEvent F :=
  { EventID := "event_B1_1750000000", EventType := eventType, Timestamp := timestamp,
    Location := { Latitude := 12.9716, Longitude := 77.5946, Address := "", Zone := "" },
    ActorID := "processor001", ActorRole := "processor", Description := "", IPFSHash := "",
    Certificates := [], QualityData := qualityData,
    Compliance := { Passed := false, Rules := [], Violations := [], CheckedAt := timestamp,
                    CheckedBy := "" },
    Metadata := none }

end SampleEvents

/-! ## A reading of `float64` with a value that is no number -/

/-- The real numbers with one more value, which stands for the `float64` values that are no
finite numbers: every operation on it returns it, no comparison with it holds, and
`json.Marshal` returns an error on it. -/
inductive RealOrNaN where
  | nan : RealOrNaN
  | real (x : ℝ) : RealOrNaN

/-- A unary operation on the real numbers, on `RealOrNaN`. -/
noncomputable def RealOrNaN.map (f : ℝ → ℝ) : RealOrNaN → RealOrNaN
  | RealOrNaN.real x => RealOrNaN.real (f x)
  | RealOrNaN.nan => RealOrNaN.nan

/-- A binary operation on the real numbers, on `RealOrNaN`. -/
noncomputable def RealOrNaN.map2 (f : ℝ → ℝ → ℝ) : RealOrNaN → RealOrNaN → RealOrNaN
  | RealOrNaN.real x, RealOrNaN.real y => RealOrNaN.real (f x y)
  | _, _ => RealOrNaN.nan

/-- The order of `RealOrNaN`: that of the real numbers, and nothing is related to `nan`. -/
def RealOrNaN.le : RealOrNaN → RealOrNaN → Prop
  | RealOrNaN.real x, RealOrNaN.real y => x ≤ y
  | _, _ => False

noncomputable instance : OfScientific RealOrNaN where
  ofScientific m s e := RealOrNaN.real (OfScientific.ofScientific m s e)

noncomputable instance : Add RealOrNaN := ⟨RealOrNaN.map2 (fun x y => x + y)⟩

noncomputable instance : Sub RealOrNaN := ⟨RealOrNaN.map2 (fun x y => x - y)⟩

noncomputable instance : Mul RealOrNaN := ⟨RealOrNaN.map2 (fun x y => x * y)⟩

noncomputable instance : Div RealOrNaN := ⟨RealOrNaN.map2 (fun x y => x / y)⟩

instance : LE RealOrNaN := ⟨RealOrNaN.le⟩

noncomputable instance : DecidableRel (LE.le : RealOrNaN → RealOrNaN → Prop) :=
  fun _ _ => Classical.propDecidable _

/-- The contract over `RealOrNaN`. -/
noncomputable instance instFloat64OpsRealOrNaN : Float64Ops RealOrNaN where
  cos := RealOrNaN.map Real.cos
  asin := RealOrNaN.map Real.arcsin
  sqrt := RealOrNaN.map Real.sqrt
  fmtF := fun v => match v with
    | RealOrNaN.real x => sprintfReal x
    | RealOrNaN.nan => "NaN"
  isFinite := fun v => match v with
    | RealOrNaN.real _ => true
    | RealOrNaN.nan => false

/-- The claim that no stored batch has a negative quantity. -/
def QuantitiesNonNegative (st : WorldState ℝ) : Prop :=
  ∀ (batchID : String) (b : HerbBatch ℝ), getState st.batches batchID = some b →
    0 ≤ b.Quantity

/-- The latitude, in degrees, of the point that lies `metres` metres north of the centre
(12.9716, 77.5946) of the first zone on its meridian, for the radius and the `π` of the
specification. -/
noncomputable def northOfCentre (metres : ℝ) : ℝ :=
  12.9716 + metres * 180 / (6371000 * 3.14159265359)

/-! ## The range scan

`GetStateByRange(startKey, endKey)` returns the entries of the world state whose key `k`
satisfies `startKey ≤ k < endKey`, in the order of the keys, which is the lexicographic order
of their bytes; on UTF-8 text that is the lexicographic order of the code points. -/

/-- The order of the keys: `a < b`. -/
def keyLt : List Char → List Char → Bool
  | _, [] => false
  | [], _ :: _ => true
  | a :: as, b :: bs =>
    if a.toNat < b.toNat then true
    else if b.toNat < a.toNat then false
    else keyLt as bs

/-- The key of the batch `batchID`. -/
def batchKey (batchID : String) : String :=
  "batch_" ++ batchID

/-- The key of the user `userID`. -/
def userKey (userID : String) : String :=
  "user_" ++ userID

/-- The order of two entries by their keys: the first is not after the second. -/
def entryLe {α : Type} (a b : String × α) : Prop :=
  keyLt b.1.data a.1.data = false

instance {α : Type} : DecidableRel (entryLe : String × α → String × α → Prop) :=
  fun a b => inferInstanceAs (Decidable (keyLt b.1.data a.1.data = false))

section RangeScan

variable {F : Type} [OfScientific F]

/-- The entries of the world state with their keys. -/
def worldEntries (st : WorldState F) : List (String × (HerbBatch F ⊕ User)) :=
  st.batches.map (fun p => (batchKey p.1, Sum.inl p.2)) ++
    st.users.map (fun p => (userKey p.1, Sum.inr p.2))

/-- The call `GetStateByRange` with the iteration over its result. -/
def GetStateByRange (st : WorldState F) (startKey endKey : String) :
    List (String × (HerbBatch F ⊕ User)) :=
  ((worldEntries st).filter
    (fun p => !keyLt p.1.data startKey.data && keyLt p.1.data endKey.data)).insertionSort
      entryLe

/-- The call `json.Unmarshal(queryResponse.Value, &batch)`: a stored batch is read back, unless
it is nested too deep; of a stored user only `createdAt` names a field of `HerbBatch`. -/
def unmarshalBatch : HerbBatch F ⊕ User → Except TxError (HerbBatch F)
  | Sum.inl b => if batchReadable b then Except.ok b else Except.error TxError.unreadable
  | Sum.inr u => Except.ok
    { BatchID := "", Species := "", HarvestDate := "",
      HarvestLocation := { Latitude := 0.0, Longitude := 0.0, Address := "", Zone := "" },
      FarmerID := "", Quantity := 0.0, Unit := "", Status := "", Events := [],
      CreatedAt := u.CreatedAt, UpdatedAt := "",
      ComplianceStatus := { GeoFencing := false, Seasonal := false, Quality := false,
                            Species := false, Overall := false, LastChecked := "",
                            Violations := [] },
      QualityMetrics := { Purity := 0.0, Moisture := 0.0, AshContent := 0.0,
                          HeavyMetals := [], Pesticides := [], Microbial := [],
                          LabTested := false, TestDate := "", LabID := "",
                          CertificateID := "" },
      IPFSHashes := [], QRCodeGenerated := false, QRCodeHash := "", Metadata := none }

/-- The loop of `QueryAllBatches` over the entries of the range: the batches read, in the
order of the entries, or the first error of `json.Unmarshal`. -/
def unmarshalAll : List (String × (HerbBatch F ⊕ User)) → Except TxError (List (HerbBatch F))
  | [] => Except.ok []
  | entry :: rest =>
    match unmarshalBatch entry.2 with
    | Except.error e => Except.error e
    | Except.ok batch =>
      match unmarshalAll rest with
      | Except.error e => Except.error e
      | Except.ok batches => Except.ok (batch :: batches)

/-- The function `QueryAllBatches`. -/
def QueryAllBatches (st : WorldState F) : Except TxError (List (HerbBatch F)) :=
  unmarshalAll (GetStateByRange st "batch_" "batch_zzzzzzzzzz")

end RangeScan

section SampleScan

variable {F : Type} [OfScientific F] [Add F] [Sub F] [Mul F] [Div F] [LE F]
  [DecidableRel (LE.le : F → F → Prop)] [Float64Ops F]

/-- The sample ledger after `farmer001` harvested two more batches, one with an id in
Devanagari script and one with an id of eleven letters `z`. -/
def sampleThreeBatches : WorldState F :=
  (CreateHerbBatch (clockAt 1750007200 "2025-06-15T17:06:40Z") "zzzzzzzzzzz" "Tulsi"
    "farmer001" 3.0 "kg" 12.9716 77.5946 "Bangalore"
    (CreateHerbBatch (clockAt 1750003600 "2025-06-15T16:06:40Z") "अश्वगंधा-001" "Ashwagandha"
      "farmer001" 5.0 "kg" 12.9716 77.5946 "Bangalore" sampleCreated).state).state

end SampleScan

/-! ## Decoding the quality data

`json.Unmarshal(data, &qualityData)` of the Go library for a `map[string]interface{}`: the text
has to be one JSON value between white space, nested at most 10000 deep; `null` leaves the map
nil, an object fills it, a later member replacing an earlier one of the same key, and every
other value is an error, as is a number out of the range of `float64`. -/

/-- The white space of JSON: space, tab, line feed, carriage return. -/
def isJSONSpace (c : Char) : Bool :=
  c.toNat = 32 || c.toNat = 9 || c.toNat = 10 || c.toNat = 13

/-- The text after its leading white space. -/
def skipSpace (cs : List Char) : List Char :=
  cs.dropWhile isJSONSpace

/-- The value of a hexadecimal digit, of either case. -/
def hexValue (c : Char) : Option Nat :=
  if c.isDigit then some (c.toNat - 48)
  else if 97 ≤ c.toNat ∧ c.toNat ≤ 102 then some (c.toNat - 87)
  else if 65 ≤ c.toNat ∧ c.toNat ≤ 70 then some (c.toNat - 55)
  else none

/-- One unit of a string literal: a character written as such or by a short escape, or the
16-bit unit written as a backslash, `u` and four hexadecimal digits. -/
inductive StringUnit where
  | char (c : Char)
  | escaped (unit : Nat)

/-- The character a short escape stands for. -/
def shortEscape (e : Char) : Option Char :=
  if e = quoteChar || e = backslashChar || e = '/' then some e
  else if e = 'b' then some (Char.ofNat 8)
  else if e = 'f' then some (Char.ofNat 12)
  else if e = 'n' then some (Char.ofNat 10)
  else if e = 'r' then some (Char.ofNat 13)
  else if e = 't' then some (Char.ofNat 9)
  else none

/-- The units of a string literal after its opening quote, up to the closing quote, and the
text after it; a control character in the literal is an error. -/
def parseStringUnits : List Char → Option (List StringUnit × List Char)
  | [] => none
  | c :: rest =>
    if c = quoteChar then some ([], rest)
    else if c = backslashChar then
      match rest with
      | [] => none
      | e :: rest1 =>
        if e = 'u' then
          match rest1 with
          | h0 :: h1 :: h2 :: h3 :: rest2 =>
            match hexValue h0, hexValue h1, hexValue h2, hexValue h3 with
            | some a, some b, some c, some d =>
              match parseStringUnits rest2 with
              | some (units, after) =>
                some (StringUnit.escaped (((a * 16 + b) * 16 + c) * 16 + d) :: units, after)
              | none => none
            | _, _, _, _ => none
          | _ => none
        else
          match shortEscape e with
          | some ch =>
            match parseStringUnits rest1 with
            | some (units, after) => some (StringUnit.char ch :: units, after)
            | none => none
          | none => none
    else if c.toNat < 32 then none
    else
      match parseStringUnits rest with
      | some (units, after) => some (StringUnit.char c :: units, after)
      | none => none

/-- The replacement character U+FFFD. -/
def replacementChar : Char := Char.ofNat 65533

/-- What an escaped 16-bit unit that follows no pending high surrogate gives: a high
surrogate is kept pending, a low surrogate is the replacement character, every other unit is
its character. -/
def decodeEscaped (decodeRest : Option Nat → List Char) (u : Nat) : List Char :=
  if 55296 ≤ u ∧ u < 56320 then decodeRest (some u)
  else if 56320 ≤ u ∧ u < 57344 then replacementChar :: decodeRest none
  else Char.ofNat u :: decodeRest none

/-- The characters of a string literal: an escaped high surrogate followed at once by an
escaped low surrogate is one character, every other escaped surrogate is the replacement
character.  `pending` is the escaped high surrogate just read, if any. -/
def decodeUnitsFrom : Option Nat → List StringUnit → List Char
  | none, [] => []
  | some _, [] => [replacementChar]
  | none, StringUnit.char c :: rest => c :: decodeUnitsFrom none rest
  | some _, StringUnit.char c :: rest => replacementChar :: c :: decodeUnitsFrom none rest
  | none, StringUnit.escaped u :: rest =>
    decodeEscaped (fun pending => decodeUnitsFrom pending rest) u
  | some hi, StringUnit.escaped u :: rest =>
    if 56320 ≤ u ∧ u < 57344 then
      Char.ofNat (65536 + (hi - 55296) * 1024 + (u - 56320)) :: decodeUnitsFrom none rest
    else replacementChar :: decodeEscaped (fun pending => decodeUnitsFrom pending rest) u

/-- The characters of a string literal. -/
def decodeUnits (units : List StringUnit) : List Char :=
  decodeUnitsFrom none units

/-- A number literal: its sign, and its digits with the exponent of ten they are scaled
by. -/
structure NumberLiteral where
  negative : Bool
  mantissa : Nat
  exponentNegative : Bool
  exponent : Nat

/-- The number written by a run of decimal digits. -/
def digitsValue (ds : List Char) : Nat :=
  ds.foldl (fun n c => n * 10 + digitValue c) 0

/-- The sign of a number literal and the text after it. -/
def parseSign (cs : List Char) : Bool × List Char :=
  match cs with
  | '-' :: rest => (true, rest)
  | _ => (false, cs)

/-- The integer part of a number literal: a zero, or a digit other than zero and the digits
that follow. -/
def parseIntegerPart (cs : List Char) : Option (List Char × List Char) :=
  match cs with
  | [] => none
  | d :: rest =>
    if !d.isDigit then none
    else if d = '0' then some ([d], rest)
    else some (d :: rest.takeWhile Char.isDigit, rest.dropWhile Char.isDigit)

/-- The fraction of a number literal, if there is one: a point and at least one digit. -/
def parseFraction (cs : List Char) : Option (List Char × List Char) :=
  match cs with
  | '.' :: rest =>
    if (rest.takeWhile Char.isDigit).isEmpty then none
    else some (rest.takeWhile Char.isDigit, rest.dropWhile Char.isDigit)
  | _ => some ([], cs)

/-- The exponent of a number literal, if there is one: `e` or `E`, a sign or none, and at
least one digit. -/
def parseExponent (cs : List Char) : Option (Int × List Char) :=
  match cs with
  | e :: rest =>
    if e = 'e' || e = 'E' then
      match rest with
      | '+' :: ds =>
        if (ds.takeWhile Char.isDigit).isEmpty then none
        else some ((digitsValue (ds.takeWhile Char.isDigit) : Int), ds.dropWhile Char.isDigit)
      | '-' :: ds =>
        if (ds.takeWhile Char.isDigit).isEmpty then none
        else some (-(digitsValue (ds.takeWhile Char.isDigit) : Int), ds.dropWhile Char.isDigit)
      | ds =>
        if (ds.takeWhile Char.isDigit).isEmpty then none
        else some ((digitsValue (ds.takeWhile Char.isDigit) : Int), ds.dropWhile Char.isDigit)
    else some (0, cs)
  | [] => some (0, cs)

/-- A number literal at the start of the text, and the text after it. -/
def parseNumber (cs : List Char) : Option (NumberLiteral × List Char) :=
  match parseIntegerPart (parseSign cs).2 with
  | none => none
  | some (intDigits, cs1) =>
    match parseFraction cs1 with
    | none => none
    | some (fracDigits, cs2) =>
      match parseExponent cs2 with
      | none => none
      | some (exp, cs3) =>
        some ({ negative := (parseSign cs).1
                mantissa := digitsValue (intDigits ++ fracDigits)
                exponentNegative := decide (exp - (fracDigits.length : Int) < 0)
                exponent := (exp - (fracDigits.length : Int)).natAbs }, cs3)

/-- The opening brace. -/
def openBrace : Char := Char.ofNat 123

/-- The closing brace. -/
def closeBrace : Char := Char.ofNat 125

section Decoder

variable {F : Type}

/-- The members of an object with one more member in front: a later member of the same key
replaces it. -/
def addMember (key : String) (v : JSONValue F) (later : List (String × JSONValue F)) :
    List (String × JSONValue F) :=
  if (getState later key).isSome then later else (key, v) :: later

/-- A value that is no array and no object, at the start of the text: `null`, `true`, `false`,
a string or a number, which `number` turns into a `float64` or refuses. -/
def parseScalar (number : NumberLiteral → Option F) (cs : List Char) :
    Option (JSONValue F × List Char) :=
  match cs with
  | 'n' :: 'u' :: 'l' :: 'l' :: rest => some (JSONValue.null, rest)
  | 't' :: 'r' :: 'u' :: 'e' :: rest => some (JSONValue.bool true, rest)
  | 'f' :: 'a' :: 'l' :: 's' :: 'e' :: rest => some (JSONValue.bool false, rest)
  | c :: rest =>
    if c = quoteChar then
      match parseStringUnits rest with
      | some (units, after) => some (JSONValue.string (String.mk (decodeUnits units)), after)
      | none => none
    else
      match parseNumber cs with
      | some (literal, after) =>
        match number literal with
        | some x => some (JSONValue.number x, after)
        | none => none
      | none => none
  | [] => none

/-- The elements of an array after the first has been found to be there, up to the closing
bracket, and the text after it; `parseValue` reads one value and `fuel` bounds the number of
elements, which is at most the length of the text. -/
def parseElements (parseValue : List Char → Option (JSONValue F × List Char)) :
    Nat → List Char → Option (List (JSONValue F) × List Char)
  | 0, _ => none
  | fuel + 1, cs =>
    match parseValue cs with
    | none => none
    | some (v, rest) =>
      match skipSpace rest with
      | c :: rest1 =>
        if c = ',' then
          match parseElements parseValue fuel (skipSpace rest1) with
          | some (vs, after) => some (v :: vs, after)
          | none => none
        else if c = ']' then some ([v], rest1)
        else none
      | [] => none

/-- The members of an object after the first has been found to be there, up to the closing
brace, and the text after it. -/
def parseMembers (parseValue : List Char → Option (JSONValue F × List Char)) :
    Nat → List Char → Option (List (String × JSONValue F) × List Char)
  | 0, _ => none
  | fuel + 1, cs =>
    match cs with
    | [] => none
    | q :: rest =>
      if q = quoteChar then
        match parseStringUnits rest with
        | none => none
        | some (units, rest1) =>
          match skipSpace rest1 with
          | colon :: rest2 =>
            if colon = ':' then
              match parseValue (skipSpace rest2) with
              | none => none
              | some (v, rest3) =>
                match skipSpace rest3 with
                | c :: rest4 =>
                  if c = ',' then
                    match parseMembers parseValue fuel (skipSpace rest4) with
                    | some (later, after) =>
                      some (addMember (String.mk (decodeUnits units)) v later, after)
                    | none => none
                  else if c = closeBrace then
                    some ([(String.mk (decodeUnits units), v)], rest4)
                  else none
                | [] => none
            else none
          | [] => none
      else none

/-- A value at the start of the text and the text after it; `depth` is the number of arrays
and objects that may still be opened. -/
def parseValue (number : NumberLiteral → Option F) :
    Nat → List Char → Option (JSONValue F × List Char)
  | 0, cs =>
    match cs with
    | c :: _ => if c = '[' || c = openBrace then none else parseScalar number cs
    | [] => none
  | depth + 1, cs =>
    match cs with
    | c :: rest =>
      if c = '[' then
        match skipSpace rest with
        | d :: rest1 =>
          if d = ']' then some (JSONValue.array [], rest1)
          else
            match parseElements (parseValue number depth) rest.length (d :: rest1) with
            | some (vs, after) => some (JSONValue.array vs, after)
            | none => none
        | [] => none
      else if c = openBrace then
        match skipSpace rest with
        | d :: rest1 =>
          if d = closeBrace then some (JSONValue.object [], rest1)
          else
            match parseMembers (parseValue number depth) rest.length (d :: rest1) with
            | some (fields, after) => some (JSONValue.object fields, after)
            | none => none
        | [] => none
      else parseScalar number cs
    | [] => none

/-- The one value of a JSON text, with white space before and after it and nothing else. -/
def jsonParse (number : NumberLiteral → Option F) (s : String) : Option (JSONValue F) :=
  match parseValue number 10000 (skipSpace s.data) with
  | some (v, rest) => if (skipSpace rest).isEmpty then some v else none
  | none => none

end Decoder

/-- Whether the text is well-formed JSON: it is one value, whatever its numbers are. -/
def jsonValid (s : String) : Bool :=
  (jsonParse (fun _ => some ()) s : Option (JSONValue Unit)).isSome

/-! ### The number of a literal

`json.Unmarshal` turns a number literal into a `float64` with `strconv.ParseFloat(s, 64)`: the
`float64` nearest to the number written, a tie going to the even significand, and an error
when that rounding leaves the range of `float64`.  A `float64` is a whole multiple of a power
of two, the multiple below `2 ^ 53` and the power at least `2 ^ (-1074)`. -/

/-- The number of binary digits of `n`; `fuel` bounds the recursion and is at least that
number. -/
def bitLength : Nat → Nat → Nat
  | 0, _ => 0
  | fuel + 1, n => if n = 0 then 0 else bitLength fuel (n / 2) + 1

/-- The exponent of the greatest power of two that is at most `n`, for a positive `n`. -/
def log2Floor (n : Nat) : Nat :=
  bitLength n n - 1

/-- The natural number nearest to `num / den`, a tie going to the even one. -/
def divRoundHalfEven (num den : Nat) : Nat :=
  if 2 * (num % den) < den then num / den
  else if den < 2 * (num % den) then num / den + 1
  else if (num / den) % 2 = 0 then num / den else num / den + 1

/-- The exponent of the greatest power of two that is at most `num / den`, both positive. -/
def binaryExponent (num den : Nat) : Int :=
  if log2Floor den ≤ log2Floor num then
    if den * 2 ^ (log2Floor num - log2Floor den) ≤ num then
      ((log2Floor num - log2Floor den : Nat) : Int)
    else ((log2Floor num - log2Floor den : Nat) : Int) - 1
  else
    if den ≤ num * 2 ^ (log2Floor den - log2Floor num) then
      -((log2Floor den - log2Floor num : Nat) : Int)
    else -((log2Floor den - log2Floor num : Nat) : Int) - 1

/-- The exponent of the power of two of which the `float64` nearest to `num / den` is a
multiple: 52 below the binary exponent, and `-1074` for the subnormal numbers. -/
def ulpExponent (num den : Nat) : Int :=
  max (binaryExponent num den - 52) (-1074)

/-- The multiple of that power of two nearest to `num / den`, a tie going to the even one. -/
def significand (num den : Nat) : Nat :=
  if 0 ≤ ulpExponent num den then
    divRoundHalfEven num (den * 2 ^ (ulpExponent num den).toNat)
  else divRoundHalfEven (num * 2 ^ (-ulpExponent num den).toNat) den

section Unmarshal

variable {F : Type} [OfScientific F] [Neg F]

/-- The number `n / 2 ^ j` as a `float64`: the fraction in lowest terms, written in decimal. -/
def dyadic (n j : Nat) : F :=
  OfScientific.ofScientific
    (n / Nat.gcd n (2 ^ j) * 5 ^ log2Floor (2 ^ j / Nat.gcd n (2 ^ j))) true
    (log2Floor (2 ^ j / Nat.gcd n (2 ^ j)))

/-- The call `strconv.ParseFloat` on the digits of a number without sign, `num / den`: the
nearest `float64`, or `none` when that rounds to `2 ^ 1024` or more. -/
def parseFloat (num den : Nat) : Option F :=
  if num = 0 then some (OfScientific.ofScientific 0 false 0)
  else if 0 ≤ ulpExponent num den then
    if 2 ^ 1024 ≤ significand num den * 2 ^ (ulpExponent num den).toNat then none
    else
      some (OfScientific.ofScientific
        (significand num den * 2 ^ (ulpExponent num den).toNat) false 0)
  else some (dyadic (significand num den) (-ulpExponent num den).toNat)

/-- The `float64` of a number literal, or `none` when it is out of range. -/
def decodeNumber (literal : NumberLiteral) : Option F :=
  match (parseFloat
      (if literal.exponentNegative then literal.mantissa
        else literal.mantissa * 10 ^ literal.exponent)
      (if literal.exponentNegative then 10 ^ literal.exponent else 1) : Option F) with
  | none => none
  | some x => some (if literal.negative then -x else x)

/-- The call `json.Unmarshal(data, &qualityData)` for a nil `map[string]interface{}`: the map
it leaves, or `none` when it returns an error. -/
def jsonUnmarshalMap (s : String) : Option (JSONMap F) :=
  match jsonParse decodeNumber s with
  | some (JSONValue.object fields) => some (some fields)
  | some JSONValue.null => some none
  | _ => none

end Unmarshal

/-! ## The ledger that starts empty -/

/-- The permissions that the table of `hasPermission` lists for the kinds `packaging`,
`transport` and `retail`. -/
def lateStagePermissions : List String :=
  ["add_packaging_event", "add_transport_event", "add_retail_event"]

section FromEmpty

variable {F : Type}

/-- The world state without any entry. -/
def emptyLedger : WorldState F :=
  { batches := [], users := [] }

/-- No stored user holds a permission for the kinds `packaging`, `transport` or `retail`. -/
def NoLateStagePermission (st : WorldState F) : Prop :=
  ∀ (userID : String) (u : User), getState st.users userID = some u →
    ∀ p ∈ lateStagePermissions, p ∉ u.Permissions

/-- Every stored batch has one of the statuses `harvested`, `processed`, `tested` and no QR
code. -/
def EarlyStagesOnly (st : WorldState F) : Prop :=
  ∀ (batchID : String) (b : HerbBatch F), getState st.batches batchID = some b →
    (b.Status = "harvested" ∨ b.Status = "processed" ∨ b.Status = "tested") ∧
    b.QRCodeGenerated = false

end FromEmpty

section FromEmptySample

variable {F : Type} [OfScientific F] [Add F] [Sub F] [Mul F] [Div F] [LE F]
  [DecidableRel (LE.le : F → F → Prop)] [Float64Ops F]

/-- What the claim on the ledger that starts empty says of a world state: no user holds a
permission for the late stages, every batch is in an early stage without QR code, and every
`GenerateQRCode` call returns an error. -/
def NeverPackaged (st : WorldState F) : Prop :=
  NoLateStagePermission st ∧ EarlyStagesOnly st ∧
  ∀ (clk : Clock) (batchID : String), (GenerateQRCode clk batchID st).err ≠ none

/-- The empty ledger after `InitLedger`. -/
def ledgerSeeded : WorldState F :=
  (InitLedger (clockAt 1748764800 "2025-06-01T08:00:00Z") emptyLedger).state

/-- The seeded ledger after `farmer001` harvested batch `B1`. -/
def ledgerHarvested : WorldState F :=
  (CreateHerbBatch (clockAt 1750000000 "2025-06-15T15:06:40Z") "B1" "Ashwagandha" "farmer001"
    10.0 "kg" 12.9716 77.5946 "Bangalore" ledgerSeeded).state

/-- The seeded ledger after `processor001` added a `processing` event to `B1`. -/
def ledgerProcessed : WorldState F :=
  (AddEvent rejectingUnmarshal (clockAt 1750003600 "2025-06-15T16:06:40Z") "B1" "processing"
    "processor001" "dried and milled" 12.9716 77.5946 "" "" ledgerHarvested).state

end FromEmptySample

/-! ## A batch that is stored and not read back -/

/-- The text of `n + 1` objects inside one another, each but the innermost with the one member
`a`: the text of a brace, `"a":`, the text for `n - 1`, and a brace. -/
def nestedObjectText : Nat → List Char
  | 0 => [openBrace, closeBrace]
  | n + 1 => openBrace :: quoteChar :: 'a' :: quoteChar :: ':' ::
      (nestedObjectText n ++ [closeBrace])

/-- The value of the text `nestedObjectText n`. -/
def nestedObject {F : Type} : Nat → JSONValue F
  | 0 => JSONValue.object []
  | n + 1 => JSONValue.object [("a", nestedObject n)]

/-- Quality data of 9998 objects inside one another. -/
def deepQualityData : String :=
  String.mk (nestedObjectText 9997)

/-- The kinds of the permission table. -/
def tableKinds : List String :=
  ["harvest", "processing", "quality_test", "packaging", "transport", "retail"]

/-! ## Theorems -/

/-! ### Tables -/

theorem getState_putState_same {α : Type} (tbl : Table α) (key : String) (v : α) :
    getState (putState tbl key v) key = some v := by
  induction tbl with
  | nil => simp [putState, getState]
  | cons p rest ih =>
    obtain ⟨k, w⟩ := p
    by_cases hk : k = key
    · simp [putState, getState, hk]
    · simp [putState, getState, hk, ih]

theorem getState_putState_other {α : Type} (tbl : Table α) (key other : String) (v : α)
    (h : other ≠ key) : getState (putState tbl key v) other = getState tbl other := by
  induction tbl with
  | nil => simp [putState, getState, Ne.symm h]
  | cons p rest ih =>
    obtain ⟨k, w⟩ := p
    by_cases hk : k = key
    · subst hk
      simp [putState, getState, Ne.symm h]
    · by_cases ho : k = other
      · subst ho
        simp [putState, getState, hk]
      · simp [putState, getState, hk, ho, ih]

/-! ### What each transaction does -/

section Effects

variable {F : Type} [OfScientific F] [Add F] [Sub F] [Mul F] [Div F] [LE F]
  [DecidableRel (LE.le : F → F → Prop)] [Float64Ops F]

omit [OfScientific F] [Add F] [Sub F] [Mul F] [Div F] [LE F]
  [DecidableRel (LE.le : F → F → Prop)] [Float64Ops F] in
theorem InitLedger_batches (clk : Clock) (st : WorldState F) :
    (InitLedger clk st).err = none ∧ (InitLedger clk st).state.batches = st.batches := by
  simp [InitLedger, seedUsers]

theorem CreateHerbBatch_effect (clk : Clock) (batchID species farmerID : String) (quantity : F)
    (unit : String) (latitude longitude : F) (address : String) (st : WorldState F) :
    ((CreateHerbBatch clk batchID species farmerID quantity unit latitude longitude address
        st).err ≠ none ∧
      (CreateHerbBatch clk batchID species farmerID quantity unit latitude longitude address
        st).state = st) ∨
    ((CreateHerbBatch clk batchID species farmerID quantity unit latitude longitude address
        st).err = none ∧
      getState st.batches batchID = none ∧
      ∃ b1 : HerbBatch F, Fresh farmerID b1 ∧
        (CreateHerbBatch clk batchID species farmerID quantity unit latitude longitude address
          st).state = { st with batches := putState st.batches batchID b1 }) := by
  cases hb : getState st.batches batchID with
  | some b => left; simp [CreateHerbBatch, hb]
  | none =>
    cases hu : getState st.users farmerID with
    | none => left; simp [CreateHerbBatch, hb, GetUser, hu]
    | some farmer =>
      by_cases hr : farmer.Role = "farmer"
      · cases hfin : (Float64Ops.isFinite quantity && Float64Ops.isFinite latitude &&
            Float64Ops.isFinite longitude) with
        | false => left; simp [CreateHerbBatch, hb, GetUser, hu, hr, hfin]
        | true =>
          right
          refine ⟨by simp [CreateHerbBatch, hb, GetUser, hu, hr, hfin], rfl, ?_⟩
          simp only [CreateHerbBatch, hb, GetUser, hu, hr, hfin, ne_eq, not_true_eq_false,
            if_false, Bool.not_true, Bool.false_eq_true]
          refine ⟨_, ?_, rfl⟩
          exact ⟨rfl, rfl, rfl, _, clk 3, rfl, rfl, rfl, rfl, rfl, rfl, rfl, rfl⟩
      · left; simp [CreateHerbBatch, hb, GetUser, hu, hr]

theorem AddEvent_effect (jsonUnmarshal : String → Option (JSONMap F)) (clk : Clock)
    (batchID eventType actorID description : String) (latitude longitude : F)
    (ipfsHash qualityDataJSON : String) (st : WorldState F) :
    ((AddEvent jsonUnmarshal clk batchID eventType actorID description latitude longitude
        ipfsHash qualityDataJSON st).err ≠ none ∧
      (AddEvent jsonUnmarshal clk batchID eventType actorID description latitude longitude
        ipfsHash qualityDataJSON st).state = st) ∨
    ((AddEvent jsonUnmarshal clk batchID eventType actorID description latitude longitude
        ipfsHash qualityDataJSON st).err = none ∧
      ∃ b b1 : HerbBatch F, getState st.batches batchID = some b ∧ Appended eventType b b1 ∧
        (AddEvent jsonUnmarshal clk batchID eventType actorID description latitude longitude
          ipfsHash qualityDataJSON st).state =
            { st with batches := putState st.batches batchID b1 }) := by
  cases hb : getState st.batches batchID with
  | none => left; simp [AddEvent, GetHerbBatch, hb]
  | some b =>
    cases hr : batchReadable b with
    | false => left; simp [AddEvent, GetHerbBatch, hb, hr]
    | true =>
      cases hu : getState st.users actorID with
      | none => left; simp [AddEvent, GetHerbBatch, hb, hr, GetUser, hu]
      | some actor =>
        cases hp : hasPermission actor eventType with
        | false => left; simp [AddEvent, GetHerbBatch, hb, hr, GetUser, hu, hp]
        | true =>
          cases hq : (if qualityDataJSON ≠ "" then jsonUnmarshal qualityDataJSON
            else some none) with
          | none => left; simp [AddEvent, GetHerbBatch, hb, hr, GetUser, hu, hp, hq]
          | some qualityData =>
            cases hfin : (Float64Ops.isFinite latitude && Float64Ops.isFinite longitude) with
            | false => left; simp [AddEvent, GetHerbBatch, hb, hr, GetUser, hu, hp, hq, hfin]
            | true =>
              right
              refine ⟨by simp [AddEvent, GetHerbBatch, hb, hr, GetUser, hu, hp, hq, hfin],
                b, ?_⟩
              simp only [AddEvent, GetHerbBatch, hb, hr, GetUser, hu, hp, hq, hfin,
                Bool.not_true, Bool.false_eq_true, if_false, if_true]
              refine ⟨_, trivial, ?_, rfl⟩
              exact ⟨_, clk 3, _, rfl, rfl, rfl, rfl, rfl⟩

omit [OfScientific F] [Add F] [Sub F] [Mul F] [Div F] [LE F]
  [DecidableRel (LE.le : F → F → Prop)] [Float64Ops F] in
theorem GenerateQRCode_effect (clk : Clock) (batchID : String) (st : WorldState F) :
    ((GenerateQRCode clk batchID st).err ≠ none ∧ (GenerateQRCode clk batchID st).state = st) ∨
    ((GenerateQRCode clk batchID st).err = none ∧
      ∃ b b1 : HerbBatch F, getState st.batches batchID = some b ∧ Finalized clk batchID b b1 ∧
        (GenerateQRCode clk batchID st).state =
          { st with batches := putState st.batches batchID b1 }) := by
  cases hb : getState st.batches batchID with
  | none => left; simp [GenerateQRCode, GetHerbBatch, hb]
  | some b =>
    cases hr : batchReadable b with
    | false => left; simp [GenerateQRCode, GetHerbBatch, hb, hr]
    | true =>
      by_cases hs : b.Status = "packaged"
      · right
        refine ⟨by simp [GenerateQRCode, GetHerbBatch, hb, hr, hs], b, ?_⟩
        simp only [GenerateQRCode, GetHerbBatch, hb, hr, hs, ne_eq, not_true_eq_false,
          if_false, if_true]
        refine ⟨_, trivial, ?_, rfl⟩
        exact ⟨hs, by rw [hs]⟩
      · left; simp [GenerateQRCode, GetHerbBatch, hb, hr, hs]

/-- What one transaction does to the entry of one batch id: nothing, or it stores a fresh
batch where there was none, or it appends an event, or it issues the QR code. -/
theorem Step_batch {jsonUnmarshal : String → Option (JSONMap F)} {st st1 : WorldState F}
    (h : Step jsonUnmarshal st st1) (batchID : String) :
    getState st1.batches batchID = getState st.batches batchID ∨
    (getState st.batches batchID = none ∧
      ∃ (farmerID : String) (b1 : HerbBatch F),
        getState st1.batches batchID = some b1 ∧ Fresh farmerID b1) ∨
    (∃ b b1 : HerbBatch F, getState st.batches batchID = some b ∧
      getState st1.batches batchID = some b1 ∧
      ((∃ eventType, Appended eventType b b1) ∨ ∃ clk, Finalized clk batchID b b1)) := by
  cases h with
  | initLedger clk =>
    left; rw [(InitLedger_batches clk st).2]
  | createHerbBatch clk id species farmerID quantity unit latitude longitude address =>
    rcases CreateHerbBatch_effect clk id species farmerID quantity unit latitude longitude
      address st with ⟨_, hst⟩ | ⟨_, hnone, b1, hfresh, hst⟩
    · left; rw [hst]
    · rw [hst]
      by_cases hid : batchID = id
      · subst hid
        right; left
        exact ⟨hnone, farmerID, b1, getState_putState_same _ _ _, hfresh⟩
      · left
        exact getState_putState_other _ _ _ _ hid
  | addEvent clk id eventType actorID description latitude longitude ipfsHash qualityDataJSON =>
    rcases AddEvent_effect jsonUnmarshal clk id eventType actorID description latitude
      longitude ipfsHash qualityDataJSON st with ⟨_, hst⟩ | ⟨_, b, b1, hb, happ, hst⟩
    · left; rw [hst]
    · rw [hst]
      by_cases hid : batchID = id
      · subst hid
        right; right
        exact ⟨b, b1, hb, getState_putState_same _ _ _, Or.inl ⟨eventType, happ⟩⟩
      · left
        exact getState_putState_other _ _ _ _ hid
  | generateQRCode clk id =>
    rcases GenerateQRCode_effect clk id st with ⟨_, hst⟩ | ⟨_, b, b1, hb, hfin, hst⟩
    · left; rw [hst]
    · rw [hst]
      by_cases hid : batchID = id
      · subst hid
        right; right
        exact ⟨b, b1, hb, getState_putState_same _ _ _, Or.inr ⟨clk, hfin⟩⟩
      · left
        exact getState_putState_other _ _ _ _ hid

theorem StatusIsFold_step {jsonUnmarshal : String → Option (JSONMap F)} {st st1 : WorldState F}
    (h : Step jsonUnmarshal st st1) (inv : StatusIsFold st) : StatusIsFold st1 := by
  intro batchID b1 hb1
  rcases Step_batch h batchID with hsame | ⟨_, farmerID, c, hc, hfresh⟩ |
    ⟨b, c, hb, hc, hchange⟩
  · exact inv batchID b1 (hsame ▸ hb1)
  · obtain rfl : c = b1 := Option.some.inj (hc.symm.trans hb1)
    obtain ⟨hstatus, _, _, e, _, hevents, hkind, _⟩ := hfresh
    rw [hstatus, hevents]
    simp [hkind, updateStatus, statusFlow, getState]
  · obtain rfl : c = b1 := Option.some.inj (hc.symm.trans hb1)
    have hold := inv batchID b hb
    rcases hchange with ⟨eventType, e, _, _, hkind, _, _, _, rfl⟩ | ⟨clk, _, rfl⟩
    · simp [hkind, List.foldl_append, ← hold]
    · exact hold

theorem StatusIsFold_steps {jsonUnmarshal : String → Option (JSONMap F)}
    {st st1 : WorldState F} (h : Steps jsonUnmarshal st st1) (inv : StatusIsFold st) :
    StatusIsFold st1 := by
  induction h with
  | refl => exact inv
  | tail _ hstep ih => exact StatusIsFold_step hstep ih

theorem LogsGrow_step {jsonUnmarshal : String → Option (JSONMap F)} {st st1 : WorldState F}
    (h : Step jsonUnmarshal st st1) : LogsGrow st st1 := by
  intro batchID b hb
  rcases Step_batch h batchID with hsame | ⟨hnone, _⟩ | ⟨b0, b1, hb0, hb1, hchange⟩
  · exact ⟨b, hsame.trans hb, List.prefix_refl _⟩
  · rw [hnone] at hb; cases hb
  · obtain rfl : b0 = b := Option.some.inj (hb0.symm.trans hb)
    refine ⟨b1, hb1, ?_⟩
    rcases hchange with ⟨eventType, e, _, _, _, _, _, _, rfl⟩ | ⟨clk, _, rfl⟩
    · exact List.prefix_append _ _
    · exact List.prefix_refl _

omit [OfScientific F] [Add F] [Sub F] [Mul F] [Div F] [LE F]
  [DecidableRel (LE.le : F → F → Prop)] [Float64Ops F] in
theorem LogsGrow_trans {st mid st1 : WorldState F} (h1 : LogsGrow st mid)
    (h2 : LogsGrow mid st1) : LogsGrow st st1 := by
  intro batchID b hb
  obtain ⟨b1, hb1, hp1⟩ := h1 batchID b hb
  obtain ⟨b2, hb2, hp2⟩ := h2 batchID b1 hb1
  exact ⟨b2, hb2, hp1.trans hp2⟩

theorem VerdictOfLastEvent_step {jsonUnmarshal : String → Option (JSONMap F)}
    {st st1 : WorldState F} (h : Step jsonUnmarshal st st1)
    (inv : ∀ (batchID : String) (b : HerbBatch F), getState st.batches batchID = some b →
      VerdictOfLastEvent b) :
    ∀ (batchID : String) (b : HerbBatch F), getState st1.batches batchID = some b →
      VerdictOfLastEvent b := by
  intro batchID b1 hb1
  rcases Step_batch h batchID with hsame | ⟨_, farmerID, c, hc, hfresh⟩ |
    ⟨b, c, hb, hc, hchange⟩
  · exact inv batchID b1 (hsame ▸ hb1)
  · obtain rfl : c = b1 := Option.some.inj (hc.symm.trans hb1)
    obtain ⟨_, _, _, e, now, hevents, _, _, _, hpassed, hrules, hviol, hverdict⟩ := hfresh
    exact ⟨e, now, by rw [hevents]; rfl, hverdict, hpassed, hrules, hviol,
      by rw [hverdict, hviol]; rfl⟩
  · obtain rfl : c = b1 := Option.some.inj (hc.symm.trans hb1)
    rcases hchange with ⟨eventType, e, now, _, _, hpassed, hrules, hviol, rfl⟩ | ⟨clk, _, rfl⟩
    · exact ⟨e, now, List.getLast?_concat _, rfl, hpassed, hrules, hviol, hviol.symm⟩
    · exact inv batchID b hb

theorem QRFlag_step {jsonUnmarshal : String → Option (JSONMap F)} {st st1 : WorldState F}
    (h : Step jsonUnmarshal st st1) (batchID : String) (b : HerbBatch F)
    (hb : getState st.batches batchID = some b) (hflag : b.QRCodeGenerated = true) :
    ∃ b1 : HerbBatch F, getState st1.batches batchID = some b1 ∧ b1.QRCodeGenerated = true := by
  rcases Step_batch h batchID with hsame | ⟨hnone, _⟩ | ⟨b0, b1, hb0, hb1, hchange⟩
  · exact ⟨b, hsame.trans hb, hflag⟩
  · rw [hnone] at hb; cases hb
  · obtain rfl : b0 = b := Option.some.inj (hb0.symm.trans hb)
    refine ⟨b1, hb1, ?_⟩
    rcases hchange with ⟨eventType, e, _, _, _, _, _, _, rfl⟩ | ⟨clk, _, rfl⟩
    · exact hflag
    · rfl

theorem VerdictOfLastEvent_of_reachable {jsonUnmarshal : String → Option (JSONMap F)}
    {st : WorldState F} (h : Reachable jsonUnmarshal st) (batchID : String) (b : HerbBatch F)
    (hb : getState st.batches batchID = some b) : VerdictOfLastEvent b := by
  obtain ⟨users, hsteps⟩ := h
  revert batchID b
  induction hsteps with
  | refl =>
    intro batchID b hb
    simp [getState] at hb
  | tail _ hstep ih => exact VerdictOfLastEvent_step hstep ih

theorem SameOrigin_step {jsonUnmarshal : String → Option (JSONMap F)} {st st1 : WorldState F}
    (h : Step jsonUnmarshal st st1) (batchID : String) (b : HerbBatch F)
    (hb : getState st.batches batchID = some b) :
    ∃ b1 : HerbBatch F, getState st1.batches batchID = some b1 ∧ SameOrigin b b1 := by
  rcases Step_batch h batchID with hsame | ⟨hnone, _⟩ | ⟨b0, b1, hb0, hb1, hchange⟩
  · exact ⟨b, hsame.trans hb, rfl, rfl, rfl, rfl, rfl, rfl, rfl, rfl, rfl, rfl, rfl⟩
  · rw [hnone] at hb; cases hb
  · obtain rfl : b0 = b := Option.some.inj (hb0.symm.trans hb)
    refine ⟨b1, hb1, ?_⟩
    rcases hchange with ⟨eventType, e, _, _, _, _, _, _, rfl⟩ | ⟨clk, _, rfl⟩
    · exact ⟨rfl, rfl, rfl, rfl, rfl, rfl, rfl, rfl, rfl, rfl, rfl⟩
    · exact ⟨rfl, rfl, rfl, rfl, rfl, rfl, rfl, rfl, rfl, rfl, rfl⟩

end Effects


theorem getState_permissionMap_of_not_mem (kind : String) (h : kind ∉ tableKinds) :
    getState permissionMap kind = none := by
  simp only [tableKinds, List.mem_cons, List.mem_singleton, not_or, List.not_mem_nil,
    or_false] at h
  obtain ⟨h1, h2, h3, h4, h5, h6⟩ := h
  simp [getState, permissionMap, Ne.symm h1, Ne.symm h2, Ne.symm h3, Ne.symm h4, Ne.symm h5,
    Ne.symm h6]

/-- C3: `hasPermission user kind` holds exactly when `kind` is a row of the permission table and
the user holds one of the permissions of that row; for a kind outside the table it is false; a
user holding only `add_harvest_event` may post `harvest` and may not post `processing`. -/
theorem hasPermission_iff (user : User) (kind : String) :
    (hasPermission user kind = true ↔
      (kind = "harvest" ∧
        ("create_batch" ∈ user.Permissions ∨ "add_harvest_event" ∈ user.Permissions)) ∨
      (kind = "processing" ∧ "add_processing_event" ∈ user.Permissions) ∨
      (kind = "quality_test" ∧ "add_quality_test" ∈ user.Permissions) ∨
      (kind = "packaging" ∧ "add_packaging_event" ∈ user.Permissions) ∨
      (kind = "transport" ∧ "add_transport_event" ∈ user.Permissions) ∨
      (kind = "retail" ∧ "add_retail_event" ∈ user.Permissions)) ∧
    (kind ∉ ["harvest", "processing", "quality_test", "packaging", "transport", "retail"] →
      hasPermission user kind = false) ∧
    (user.Permissions = ["add_harvest_event"] →
      hasPermission user "harvest" = true ∧ hasPermission user "processing" = false) := by
  refine ⟨?_, ?_, ?_⟩
  · by_cases hk : kind ∈ tableKinds
    · simp only [tableKinds, List.mem_cons, List.mem_singleton, List.not_mem_nil,
        or_false] at hk
      rcases hk with h | h | h | h | h | h <;> subst h <;>
        simp [hasPermission, permissionMap, getState]
    · have hnone := getState_permissionMap_of_not_mem kind hk
      simp only [tableKinds, List.mem_cons, List.mem_singleton, not_or, List.not_mem_nil,
        or_false] at hk
      obtain ⟨h1, h2, h3, h4, h5, h6⟩ := hk
      simp [hasPermission, hnone, h1, h2, h3, h4, h5, h6]
  · intro hk
    simp [hasPermission, getState_permissionMap_of_not_mem kind hk]
  · intro hp
    simp [hasPermission, permissionMap, getState, hp]

/-! ### The claims -/

section Claims

variable {F : Type} [OfScientific F] [Add F] [Sub F] [Mul F] [Div F] [LE F]
  [DecidableRel (LE.le : F → F → Prop)] [Float64Ops F]

/-- C1: in every world state reachable by the transactions from a ledger without batches, the
status of every stored batch is the fold of `updateStatus` over the kinds of its events, in
order, starting from the empty status. -/
theorem status_is_fold_of_reachable (jsonUnmarshal : String → Option (JSONMap F))
    (st : WorldState F) (h : Reachable jsonUnmarshal st) : StatusIsFold st := by
  obtain ⟨users, hsteps⟩ := h
  refine StatusIsFold_steps hsteps ?_
  intro batchID b hb
  simp [getState] at hb

/-- C5: a `CreateHerbBatch` call whose batch id already has a stored batch returns the
already-exists error, whatever the other arguments are, and leaves the world state as it was. -/
theorem CreateHerbBatch_existing (clk : Clock) (batchID species farmerID : String)
    (quantity : F) (unit : String) (latitude longitude : F) (address : String)
    (st : WorldState F) (b : HerbBatch F) (h : getState st.batches batchID = some b) :
    (CreateHerbBatch clk batchID species farmerID quantity unit latitude longitude address
      st).err = some (TxError.batchExists batchID) ∧
    (CreateHerbBatch clk batchID species farmerID quantity unit latitude longitude address
      st).state = st := by
  simp [CreateHerbBatch, h]

/-- C6: a successful `AddEvent` leaves the log of its batch equal to the old log followed by
one new event of the given kind; `GenerateQRCode` leaves every log as it was; and along every
sequence of transactions the log a batch had earlier is a prefix of the log it has later. -/
theorem event_log_append_only (jsonUnmarshal : String → Option (JSONMap F)) :
    (∀ (clk : Clock) (batchID eventType actorID description : String) (latitude longitude : F)
        (ipfsHash qualityDataJSON : String) (st : WorldState F),
      (AddEvent jsonUnmarshal clk batchID eventType actorID description latitude longitude
        ipfsHash qualityDataJSON st).err = none →
      ∃ (b b1 : HerbBatch F) (e : HerbEvent F),
        getState st.batches batchID = some b ∧
        getState (AddEvent jsonUnmarshal clk batchID eventType actorID description latitude
          longitude ipfsHash qualityDataJSON st).state.batches batchID = some b1 ∧
        b1.Events = b.Events ++ [e] ∧ e.EventType = eventType) ∧
    (∀ (clk : Clock) (batchID : String) (st : WorldState F) (id : String) (b : HerbBatch F),
      getState st.batches id = some b →
      ∃ b1 : HerbBatch F,
        getState (GenerateQRCode clk batchID st).state.batches id = some b1 ∧
        b1.Events = b.Events) ∧
    (∀ st st1 : WorldState F, Steps jsonUnmarshal st st1 → LogsGrow st st1) := by
  refine ⟨?_, ?_, ?_⟩
  · intro clk batchID eventType actorID description latitude longitude ipfsHash
      qualityDataJSON st herr
    rcases AddEvent_effect jsonUnmarshal clk batchID eventType actorID description latitude
      longitude ipfsHash qualityDataJSON st with ⟨hne, _⟩ | ⟨_, b, b1, hb, happ, hst⟩
    · exact absurd herr hne
    · obtain ⟨e, _, _, hkind, _, _, _, rfl⟩ := happ
      exact ⟨b, _, e, hb, by rw [hst]; exact getState_putState_same _ _ _, rfl, hkind⟩
  · intro clk batchID st id b hb
    rcases GenerateQRCode_effect clk batchID st with ⟨_, hst⟩ | ⟨_, b0, b1, hb0, hfin, hst⟩
    · exact ⟨b, by rw [hst]; exact hb, rfl⟩
    · rw [hst]
      by_cases hid : id = batchID
      · subst hid
        obtain rfl : b0 = b := Option.some.inj (hb0.symm.trans hb)
        obtain ⟨_, rfl⟩ := hfin
        exact ⟨_, getState_putState_same _ _ _, rfl⟩
      · exact ⟨b, (getState_putState_other _ _ _ _ hid).trans hb, rfl⟩
  · intro st st1 hsteps
    induction hsteps with
    | refl => exact fun batchID b hb => ⟨b, hb, List.prefix_refl _⟩
    | tail _ hstep ih => exact LogsGrow_trans ih (LogsGrow_step hstep)

/-- C7: a `CreateHerbBatch`, `AddEvent` or `GenerateQRCode` call that returns an error leaves
the whole world state as it was; and `AddEvent` of kind `processing` on a stored batch by
`farmer001`, whose permissions are `create_batch` and `add_harvest_event`, returns the
permission error (on a batch that `json.Unmarshal` refuses, the error of the decoder) and
leaves the world state as it was. -/
theorem error_leaves_state (jsonUnmarshal : String → Option (JSONMap F)) :
    (∀ (clk : Clock) (batchID species farmerID : String) (quantity : F) (unit : String)
        (latitude longitude : F) (address : String) (st : WorldState F),
      (CreateHerbBatch clk batchID species farmerID quantity unit latitude longitude address
        st).err ≠ none →
      (CreateHerbBatch clk batchID species farmerID quantity unit latitude longitude address
        st).state = st) ∧
    (∀ (clk : Clock) (batchID eventType actorID description : String) (latitude longitude : F)
        (ipfsHash qualityDataJSON : String) (st : WorldState F),
      (AddEvent jsonUnmarshal clk batchID eventType actorID description latitude longitude
        ipfsHash qualityDataJSON st).err ≠ none →
      (AddEvent jsonUnmarshal clk batchID eventType actorID description latitude longitude
        ipfsHash qualityDataJSON st).state = st) ∧
    (∀ (clk : Clock) (batchID : String) (st : WorldState F),
      (GenerateQRCode clk batchID st).err ≠ none → (GenerateQRCode clk batchID st).state = st) ∧
    (∀ (clk : Clock) (batchID description : String) (latitude longitude : F)
        (ipfsHash qualityDataJSON : String) (st : WorldState F) (b : HerbBatch F)
        (farmer : User),
      getState st.batches batchID = some b →
      getState st.users "farmer001" = some farmer →
      farmer.Permissions = ["create_batch", "add_harvest_event"] →
      (batchReadable b = true →
        (AddEvent jsonUnmarshal clk batchID "processing" "farmer001" description latitude
          longitude ipfsHash qualityDataJSON st).err =
            some (TxError.noPermission "farmer001" "processing")) ∧
      (batchReadable b = false →
        (AddEvent jsonUnmarshal clk batchID "processing" "farmer001" description latitude
          longitude ipfsHash qualityDataJSON st).err = some TxError.unreadable) ∧
      (AddEvent jsonUnmarshal clk batchID "processing" "farmer001" description latitude
        longitude ipfsHash qualityDataJSON st).state = st) := by
  refine ⟨?_, ?_, ?_, ?_⟩
  · intro clk batchID species farmerID quantity unit latitude longitude address st herr
    rcases CreateHerbBatch_effect clk batchID species farmerID quantity unit latitude longitude
      address st with ⟨_, hst⟩ | ⟨hok, _⟩
    · exact hst
    · exact absurd hok herr
  · intro clk batchID eventType actorID description latitude longitude ipfsHash
      qualityDataJSON st herr
    rcases AddEvent_effect jsonUnmarshal clk batchID eventType actorID description latitude
      longitude ipfsHash qualityDataJSON st with ⟨_, hst⟩ | ⟨hok, _⟩
    · exact hst
    · exact absurd hok herr
  · intro clk batchID st herr
    rcases GenerateQRCode_effect clk batchID st with ⟨_, hst⟩ | ⟨hok, _⟩
    · exact hst
    · exact absurd hok herr
  · intro clk batchID description latitude longitude ipfsHash qualityDataJSON st b farmer hb
      hu hp
    have hdeny : hasPermission farmer "processing" = false := by
      simp [hasPermission, permissionMap, getState, hp]
    refine ⟨fun hr => ?_, fun hr => ?_, ?_⟩
    · simp [AddEvent, GetHerbBatch, hb, hr, GetUser, hu, hdeny]
    · simp [AddEvent, GetHerbBatch, hb, hr]
    · cases hr : batchReadable b with
      | false => simp [AddEvent, GetHerbBatch, hb, hr]
      | true => simp [AddEvent, GetHerbBatch, hb, hr, GetUser, hu, hdeny]

/-- C2, as amended: after a successful `CreateHerbBatch`, after a successful `AddEvent`, and
in every reachable world state, the verdict on a stored batch is the verdict `checkCompliance`
returns for the last event of its log, while the verdict embedded in that event is empty: not
passed, no rules, no violations. -/
theorem verdict_of_last_event (jsonUnmarshal : String → Option (JSONMap F)) :
    (∀ (clk : Clock) (batchID species farmerID : String) (quantity : F) (unit : String)
        (latitude longitude : F) (address : String) (st : WorldState F),
      (CreateHerbBatch clk batchID species farmerID quantity unit latitude longitude address
        st).err = none →
      ∃ b : HerbBatch F,
        getState (CreateHerbBatch clk batchID species farmerID quantity unit latitude longitude
          address st).state.batches batchID = some b ∧ VerdictOfLastEvent b) ∧
    (∀ (clk : Clock) (batchID eventType actorID description : String) (latitude longitude : F)
        (ipfsHash qualityDataJSON : String) (st : WorldState F),
      (AddEvent jsonUnmarshal clk batchID eventType actorID description latitude longitude
        ipfsHash qualityDataJSON st).err = none →
      ∃ b : HerbBatch F,
        getState (AddEvent jsonUnmarshal clk batchID eventType actorID description latitude
          longitude ipfsHash qualityDataJSON st).state.batches batchID = some b ∧
        VerdictOfLastEvent b) ∧
    (∀ st : WorldState F, Reachable jsonUnmarshal st →
      ∀ (batchID : String) (b : HerbBatch F), getState st.batches batchID = some b →
        VerdictOfLastEvent b) := by
  refine ⟨?_, ?_, ?_⟩
  · intro clk batchID species farmerID quantity unit latitude longitude address st herr
    rcases CreateHerbBatch_effect clk batchID species farmerID quantity unit latitude longitude
      address st with ⟨hne, _⟩ | ⟨_, _, b1, hfresh, hst⟩
    · exact absurd herr hne
    · obtain ⟨_, _, _, e, now, hevents, _, _, _, hpassed, hrules, hviol, hverdict⟩ := hfresh
      exact ⟨b1, by rw [hst]; exact getState_putState_same _ _ _,
        e, now, by rw [hevents]; rfl, hverdict, hpassed, hrules, hviol,
        by rw [hverdict, hviol]; rfl⟩
  · intro clk batchID eventType actorID description latitude longitude ipfsHash
      qualityDataJSON st herr
    rcases AddEvent_effect jsonUnmarshal clk batchID eventType actorID description latitude
      longitude ipfsHash qualityDataJSON st with ⟨hne, _⟩ | ⟨_, b, b1, _, happ, hst⟩
    · exact absurd herr hne
    · obtain ⟨e, now, _, _, hpassed, hrules, hviol, rfl⟩ := happ
      exact ⟨_, by rw [hst]; exact getState_putState_same _ _ _,
        e, now, List.getLast?_concat _, rfl, hpassed, hrules, hviol, hviol.symm⟩
  · intro st hreach
    obtain ⟨users, hsteps⟩ := hreach
    induction hsteps with
    | refl =>
      intro batchID b hb
      simp [getState] at hb
    | tail _ hstep ih => exact VerdictOfLastEvent_step hstep ih

/-- C4, as amended: `AddEvent` fails, leaving the world state as it was, when the actor id
resolves to no user; it does not read the `isActive` flag: on a stored batch that
`json.Unmarshal` reads back, for an actor record that `hasPermission` accepts for the kind, a
quality-data text that is empty or decodes and finite coordinates, it succeeds whether the
record is active or not, and stores the event with that actor. -/
theorem AddEvent_actor_check (jsonUnmarshal : String → Option (JSONMap F)) (clk : Clock)
    (batchID eventType actorID description : String) (latitude longitude : F)
    (ipfsHash qualityDataJSON : String) (st : WorldState F) :
    (getState st.users actorID = none →
      (AddEvent jsonUnmarshal clk batchID eventType actorID description latitude longitude
        ipfsHash qualityDataJSON st).err ≠ none ∧
      (AddEvent jsonUnmarshal clk batchID eventType actorID description latitude longitude
        ipfsHash qualityDataJSON st).state = st) ∧
    (∀ (b : HerbBatch F) (actor : User),
      getState st.batches batchID = some b → batchReadable b = true →
      getState st.users actorID = some actor →
      hasPermission actor eventType = true →
      (qualityDataJSON = "" ∨ jsonUnmarshal qualityDataJSON ≠ none) →
      Float64Ops.isFinite latitude = true → Float64Ops.isFinite longitude = true →
      (AddEvent jsonUnmarshal clk batchID eventType actorID description latitude longitude
        ipfsHash qualityDataJSON st).err = none ∧
      ∃ (b1 : HerbBatch F) (e : HerbEvent F),
        getState (AddEvent jsonUnmarshal clk batchID eventType actorID description latitude
          longitude ipfsHash qualityDataJSON st).state.batches batchID = some b1 ∧
        b1.Events = b.Events ++ [e] ∧ e.EventType = eventType ∧ e.ActorID = actorID ∧
        e.ActorRole = actor.Role) := by
  refine ⟨?_, ?_⟩
  · intro hu
    cases hb : getState st.batches batchID with
    | none => simp [AddEvent, GetHerbBatch, hb]
    | some b =>
      cases hr : batchReadable b with
      | false => simp [AddEvent, GetHerbBatch, hb, hr]
      | true => simp [AddEvent, GetHerbBatch, hb, hr, GetUser, hu]
  · intro b actor hb hr hu hp hq hlat hlon
    by_cases hempty : qualityDataJSON = ""
    · refine ⟨by simp [AddEvent, GetHerbBatch, hb, hr, GetUser, hu, hp, hempty, hlat, hlon],
        ?_⟩
      simp only [AddEvent, GetHerbBatch, hb, hr, GetUser, hu, hp, hempty, hlat, hlon,
        Bool.not_true, Bool.false_eq_true, if_false, if_true, ne_eq, not_true_eq_false,
        Bool.and_self]
      exact ⟨_, _, getState_putState_same _ _ _, rfl, rfl, rfl, rfl⟩
    · have hdec : jsonUnmarshal qualityDataJSON ≠ none := hq.resolve_left hempty
      cases hj : jsonUnmarshal qualityDataJSON with
      | none => exact absurd hj hdec
      | some qualityData =>
        refine ⟨by simp [AddEvent, GetHerbBatch, hb, hr, GetUser, hu, hp, hempty, hj, hlat,
          hlon], ?_⟩
        simp only [AddEvent, GetHerbBatch, hb, hr, GetUser, hu, hp, hempty, hj, hlat, hlon,
          Bool.not_true, Bool.false_eq_true, if_false, if_true, ne_eq, not_false_eq_true,
          Bool.and_self]
        exact ⟨_, _, getState_putState_same _ _ _, rfl, rfl, rfl, rfl⟩

/-- C9, as amended: `CreateHerbBatch` leaves every stored batch as it was and `AddEvent` leaves
the QR flag and the QR digest of every stored batch as they were; a successful `GenerateQRCode`
on a batch, whatever its QR flag was, sets the flag and stores the digest of the payload built
from the batch and from the time of that call; a `GenerateQRCode` that fails, or that is for
another batch id, leaves the stored batch as it was, its digest included; and along every
sequence of transactions a QR flag that is true stays true. -/
theorem qr_digest_frame (jsonUnmarshal : String → Option (JSONMap F)) :
    (∀ (clk : Clock) (batchID species farmerID : String) (quantity : F) (unit : String)
        (latitude longitude : F) (address : String) (st : WorldState F) (id : String)
        (b : HerbBatch F),
      getState st.batches id = some b →
      getState (CreateHerbBatch clk batchID species farmerID quantity unit latitude longitude
        address st).state.batches id = some b) ∧
    (∀ (clk : Clock) (batchID eventType actorID description : String) (latitude longitude : F)
        (ipfsHash qualityDataJSON : String) (st : WorldState F) (id : String) (b : HerbBatch F),
      getState st.batches id = some b →
      ∃ b1 : HerbBatch F,
        getState (AddEvent jsonUnmarshal clk batchID eventType actorID description latitude
          longitude ipfsHash qualityDataJSON st).state.batches id = some b1 ∧
        b1.QRCodeGenerated = b.QRCodeGenerated ∧ b1.QRCodeHash = b.QRCodeHash) ∧
    (∀ (clk : Clock) (batchID : String) (st : WorldState F) (b : HerbBatch F),
      getState st.batches batchID = some b →
      (GenerateQRCode clk batchID st).err = none →
      ∃ b1 : HerbBatch F,
        getState (GenerateQRCode clk batchID st).state.batches batchID = some b1 ∧
        b1.QRCodeGenerated = true ∧
        b1.QRCodeHash = hexEncode (marshalQRData batchID b.Species b.Status
          ("https://traceability.ayurvedic-herbs.com/batch/" ++ batchID) (clk 0).rfc3339)) ∧
    (∀ (clk : Clock) (batchID : String) (st : WorldState F) (id : String) (b : HerbBatch F),
      getState st.batches id = some b →
      ((GenerateQRCode clk batchID st).err ≠ none ∨ id ≠ batchID) →
      getState (GenerateQRCode clk batchID st).state.batches id = some b) ∧
    (∀ st st1 : WorldState F, Steps jsonUnmarshal st st1 →
      ∀ (id : String) (b : HerbBatch F), getState st.batches id = some b →
        b.QRCodeGenerated = true →
        ∃ b1 : HerbBatch F, getState st1.batches id = some b1 ∧ b1.QRCodeGenerated = true) := by
  refine ⟨?_, ?_, ?_, ?_, ?_⟩
  · intro clk batchID species farmerID quantity unit latitude longitude address st id b hb
    rcases CreateHerbBatch_effect clk batchID species farmerID quantity unit latitude longitude
      address st with ⟨_, hst⟩ | ⟨_, hnone, b1, _, hst⟩
    · rw [hst]; exact hb
    · rw [hst]
      by_cases hid : id = batchID
      · subst hid
        rw [hnone] at hb; cases hb
      · exact (getState_putState_other _ _ _ _ hid).trans hb
  · intro clk batchID eventType actorID description latitude longitude ipfsHash
      qualityDataJSON st id b hb
    rcases AddEvent_effect jsonUnmarshal clk batchID eventType actorID description latitude
      longitude ipfsHash qualityDataJSON st with ⟨_, hst⟩ | ⟨_, b0, b1, hb0, happ, hst⟩
    · exact ⟨b, by rw [hst]; exact hb, rfl, rfl⟩
    · rw [hst]
      by_cases hid : id = batchID
      · subst hid
        obtain rfl : b0 = b := Option.some.inj (hb0.symm.trans hb)
        obtain ⟨e, _, _, _, _, _, _, rfl⟩ := happ
        exact ⟨_, getState_putState_same _ _ _, rfl, rfl⟩
      · exact ⟨b, (getState_putState_other _ _ _ _ hid).trans hb, rfl, rfl⟩
  · intro clk batchID st b hb herr
    rcases GenerateQRCode_effect clk batchID st with ⟨hne, _⟩ | ⟨_, b0, b1, hb0, hfin, hst⟩
    · exact absurd herr hne
    · obtain rfl : b0 = b := Option.some.inj (hb0.symm.trans hb)
      obtain ⟨_, rfl⟩ := hfin
      rw [hst]
      exact ⟨_, getState_putState_same _ _ _, rfl, rfl⟩
  · intro clk batchID st id b hb hcase
    rcases GenerateQRCode_effect clk batchID st with ⟨_, hst⟩ | ⟨hok, _, b1, _, _, hst⟩
    · rw [hst]; exact hb
    · rcases hcase with hne | hid
      · exact absurd hok hne
      · rw [hst]
        exact (getState_putState_other _ _ _ _ hid).trans hb
  · intro st st1 hsteps
    induction hsteps with
    | refl => exact fun id b hb hflag => ⟨b, hb, hflag⟩
    | tail _ hstep ih =>
      intro id b hb hflag
      obtain ⟨b1, hb1, hflag1⟩ := ih id b hb hflag
      exact QRFlag_step hstep id b1 hb1 hflag1

end Claims

section ClaimsOnFlags

variable {F : Type}

/-- C8, as amended: for a stored batch, `GenerateQRCode` succeeds exactly when `json.Unmarshal`
reads the batch back and its status is `packaged`; when it succeeds the stored batch has
`QRCodeGenerated = true`; when it fails, as it does on status `processed` and on a batch nested
too deep for the decoder, the stored batch keeps its QR flag and its QR digest. -/
theorem GenerateQRCode_iff_packaged (clk : Clock) (batchID : String) (st : WorldState F)
    (b : HerbBatch F) (h : getState st.batches batchID = some b) :
    ((GenerateQRCode clk batchID st).err = none ↔
      batchReadable b = true ∧ b.Status = "packaged") ∧
    ((GenerateQRCode clk batchID st).err = none →
      ∃ b1 : HerbBatch F, getState (GenerateQRCode clk batchID st).state.batches batchID =
        some b1 ∧ b1.QRCodeGenerated = true) ∧
    ((GenerateQRCode clk batchID st).err ≠ none →
      ∃ b1 : HerbBatch F, getState (GenerateQRCode clk batchID st).state.batches batchID =
        some b1 ∧ b1.QRCodeGenerated = b.QRCodeGenerated ∧ b1.QRCodeHash = b.QRCodeHash) ∧
    (batchReadable b = true → b.Status = "processed" →
      (GenerateQRCode clk batchID st).err = some (TxError.notReady batchID "processed")) ∧
    (batchReadable b = false →
      (GenerateQRCode clk batchID st).err = some TxError.unreadable) := by
  cases hr : batchReadable b with
  | false =>
    have herr : (GenerateQRCode clk batchID st).err = some TxError.unreadable := by
      simp [GenerateQRCode, GetHerbBatch, h, hr]
    have hst : (GenerateQRCode clk batchID st).state = st := by
      simp [GenerateQRCode, GetHerbBatch, h, hr]
    refine ⟨⟨fun hok => ?_, fun hp => ?_⟩, fun hok => ?_, fun _ => ?_, fun hp => ?_,
      fun _ => herr⟩
    · rw [herr] at hok; cases hok
    · exact absurd hp.1 (by simp)
    · rw [herr] at hok; cases hok
    · exact ⟨b, by rw [hst]; exact h, rfl, rfl⟩
    · exact absurd hp (by simp)
  | true =>
    by_cases hs : b.Status = "packaged"
    · have herr : (GenerateQRCode clk batchID st).err = none := by
        simp [GenerateQRCode, GetHerbBatch, h, hr, hs]
      refine ⟨⟨fun _ => ⟨rfl, hs⟩, fun _ => herr⟩, ?_, fun hne => absurd herr hne, ?_,
        fun hf => absurd hf (by simp)⟩
      · intro _
        rcases GenerateQRCode_effect clk batchID st with ⟨hne, _⟩ | ⟨_, b0, b1, _, hfin, hst⟩
        · exact absurd herr hne
        · obtain ⟨_, rfl⟩ := hfin
          exact ⟨_, by rw [hst]; exact getState_putState_same _ _ _, rfl⟩
      · intro _ hp
        rw [hp] at hs
        exact absurd hs (by decide)
    · have herr : (GenerateQRCode clk batchID st).err =
          some (TxError.notReady batchID b.Status) := by
        simp [GenerateQRCode, GetHerbBatch, h, hr, hs]
      have hst : (GenerateQRCode clk batchID st).state = st := by
        simp [GenerateQRCode, GetHerbBatch, h, hr, hs]
      refine ⟨⟨fun hok => ?_, fun hp => absurd hp.2 hs⟩, fun hok => ?_, fun _ => ?_,
        fun _ hp => ?_, fun hf => absurd hf (by simp)⟩
      · rw [herr] at hok; cases hok
      · rw [herr] at hok; cases hok
      · exact ⟨b, by rw [hst]; exact h, rfl, rfl⟩
      · rw [herr, hp]

end ClaimsOnFlags

theorem sampleCreated_reachable :
    Reachable rejectingUnmarshal (sampleCreated : WorldState ℝ) :=
  ⟨_, Steps.tail (Steps.refl _) (Step.createHerbBatch _ _ _ _ _ _ _ _ _ _)⟩

theorem samplePackaged_reachable :
    Reachable rejectingUnmarshal (samplePackaged : WorldState ℝ) := by
  obtain ⟨users, h⟩ := sampleCreated_reachable
  exact ⟨users, Steps.tail h (Step.addEvent _ _ _ _ _ _ _ _ _ _)⟩

theorem sampleCreated_stored :
    getState (sampleCreated : WorldState ℝ).batches "B1" =
      some (batchAt (sampleCreated : WorldState ℝ) "B1") :=
  rfl

theorem samplePackaged_status :
    (batchAt (samplePackaged : WorldState ℝ) "B1").Status = "packaged" ∧
    (batchAt (samplePackaged : WorldState ℝ) "B1").Events.map (fun e => e.EventType) =
      ["harvest", "packaging"] ∧
    getState (samplePackaged : WorldState ℝ).batches "B1" =
      some (batchAt (samplePackaged : WorldState ℝ) "B1") :=
  ⟨rfl, rfl, rfl⟩

/-- Witness of C1: the sample ledger after the harvest and the packaging of `B1` is reachable,
and the status `packaged` of `B1` is the fold over its two events. -/
theorem status_is_fold_of_reachable_witness :
    StatusIsFold (samplePackaged : WorldState ℝ) :=
  status_is_fold_of_reachable rejectingUnmarshal samplePackaged
    ⟨_, Steps.tail (Steps.tail (Steps.refl _) (Step.createHerbBatch _ _ _ _ _ _ _ _ _ _))
      (Step.addEvent _ _ _ _ _ _ _ _ _ _)⟩

/-- Witness of C5: a second `CreateHerbBatch` for `B1`, with another species, farmer and
place, on the sample ledger that already stores `B1`. -/
theorem CreateHerbBatch_existing_witness :
    (CreateHerbBatch (clockAt 1750003600 "2025-06-15T16:06:40Z") "B1" "Tulsi" "packager001"
      (2.5 : ℝ) "g" 19.0760 72.8777 "Mumbai" sampleCreated).err =
        some (TxError.batchExists "B1") ∧
    (CreateHerbBatch (clockAt 1750003600 "2025-06-15T16:06:40Z") "B1" "Tulsi" "packager001"
      (2.5 : ℝ) "g" 19.0760 72.8777 "Mumbai" sampleCreated).state = sampleCreated :=
  CreateHerbBatch_existing _ "B1" _ _ _ _ _ _ _ sampleCreated (batchAt sampleCreated "B1") rfl

/-- Witness of C8 as amended: on the sample ledger `B1` is stored with status `packaged` and
is read back, so `GenerateQRCode` succeeds on it and sets the QR flag. -/
theorem GenerateQRCode_iff_packaged_witness :
    ((GenerateQRCode (clockAt 1750007200 "2025-06-15T17:06:40Z") "B1"
        (samplePackaged : WorldState ℝ)).err = none ↔
      batchReadable (batchAt (samplePackaged : WorldState ℝ) "B1") = true ∧
      (batchAt (samplePackaged : WorldState ℝ) "B1").Status = "packaged") ∧
    batchReadable (batchAt (samplePackaged : WorldState ℝ) "B1") = true ∧
    (batchAt (sampleFinalized : WorldState ℝ) "B1").QRCodeGenerated = true :=
  ⟨(GenerateQRCode_iff_packaged (clockAt 1750007200 "2025-06-15T17:06:40Z") "B1"
      (samplePackaged : WorldState ℝ) (batchAt samplePackaged "B1") rfl).1, rfl, rfl⟩

/-! ### The distance over the real numbers -/

theorem sin_sq_half_angle (y : ℝ) : Real.sin (y / 2) ^ 2 = 1 / 2 - Real.cos y / 2 := by
  rw [Real.sin_sq_eq_half_sub]
  congr 3
  ring

theorem calculateDistance_eq_half (lat1 lon1 lat2 lon2 : ℝ) :
    calculateDistance lat1 lon1 lat2 lon2 = haversineSpec lat1 lon1 lat2 lon2 / 2 := by
  simp only [calculateDistance, haversineSpec, Float64Ops.cos, Float64Ops.asin, Float64Ops.sqrt]
  rw [sin_sq_half_angle, sin_sq_half_angle]
  have hx : (0.5 : ℝ) - 0.5 * Real.cos ((lat2 - lat1) * 3.14159265359 / 180.0) +
      0.5 * Real.cos (lat1 * 3.14159265359 / 180.0) * Real.cos (lat2 * 3.14159265359 / 180.0) *
        (1.0 - Real.cos ((lon2 - lon1) * 3.14159265359 / 180.0)) =
      1 / 2 - Real.cos ((lat2 - lat1) * 3.14159265359 / 180) / 2 +
        Real.cos (lat1 * 3.14159265359 / 180) * Real.cos (lat2 * 3.14159265359 / 180) *
          (1 / 2 - Real.cos ((lon2 - lon1) * 3.14159265359 / 180) / 2) := by
    norm_num
    ring
  rw [hx]
  norm_num
  ring

theorem haversineSpec_quarter : haversineSpec 0 0 0 90 = 10007543.398010945 := by
  have hlt : (0.7853981633975 : ℝ) < Real.pi / 2 := by
    have := Real.pi_gt_three
    norm_num
    linarith
  have hsin : 0 ≤ Real.sin 0.7853981633975 :=
    Real.sin_nonneg_of_nonneg_of_le_pi (by norm_num) (by linarith [Real.pi_pos])
  have harg : ((90 : ℝ) - 0) * 3.14159265359 / 180 / 2 = 0.7853981633975 := by norm_num
  unfold haversineSpec
  rw [harg]
  simp only [sub_self, zero_mul, zero_div, Real.sin_zero, Real.cos_zero]
  have hsq : (0 : ℝ) ^ 2 + 1 * 1 * Real.sin 0.7853981633975 ^ 2 =
      Real.sin 0.7853981633975 ^ 2 := by ring
  rw [hsq, Real.sqrt_sq hsin, Real.arcsin_sin (by linarith [Real.pi_pos]) hlt.le]
  norm_num

theorem checkGeoFencing_centre (address zone : String) :
    checkGeoFencing
      ({ Latitude := 12.9716, Longitude := 77.5946, Address := address, Zone := zone } :
        GeoLocation ℝ) = true := by
  have hd : calculateDistance (12.9716 : ℝ) 77.5946 12.9716 77.5946 = 0 := by
    simp [calculateDistance, Float64Ops.cos, Float64Ops.asin, Float64Ops.sqrt]
    norm_num
  simp [checkGeoFencing, allowedZones, hd]
  left
  norm_num

/-- C10: over the real numbers `calculateDistance` returns half of the distance of the
specification, `R · asin(√…)` in place of `2R · asin(√…)`; from (0, 0) to (0, 90) it returns
5003771.6990054725 where the formula of the specification gives 10007543.398010945. -/
theorem calculateDistance_half_of_haversine :
    (∀ lat1 lon1 lat2 lon2 : ℝ,
      calculateDistance lat1 lon1 lat2 lon2 = haversineSpec lat1 lon1 lat2 lon2 / 2) ∧
    calculateDistance (0 : ℝ) 0 0 90 = 5003771.6990054725 ∧
    haversineSpec 0 0 0 90 = 10007543.398010945 ∧
    calculateDistance (0 : ℝ) 0 0 90 ≠ haversineSpec 0 0 0 90 := by
  have hcode : calculateDistance (0 : ℝ) 0 0 90 = 5003771.6990054725 := by
    rw [calculateDistance_eq_half, haversineSpec_quarter]
    norm_num
  refine ⟨calculateDistance_eq_half, hcode, haversineSpec_quarter, ?_⟩
  rw [hcode, haversineSpec_quarter]
  norm_num

/-! ### The sample run -/

theorem sampleCreated_overall :
    (batchAt (sampleCreated : WorldState ℝ) "B1").ComplianceStatus.Overall = true := by
  have hgeo := checkGeoFencing_centre "Bangalore" ""
  have hseason :
      timeParseRFC3339 "2025-06-15T15:06:40Z" =
        some { year := 2025, month := 6, day := 15, hour := 15, minute := 6, second := 40 } := by
    rfl
  show (checkCompliance _ _).Overall = true
  simp [checkCompliance, checkSeasonalRestrictions, checkQualityStandards,
    checkSpeciesConservation, clockAt, hgeo, hseason]

/-- Counterexample to C2: on the sample ledger, after `CreateHerbBatch` succeeded for `B1` at
the centre of the first zone in June, the verdict on the batch is compliant while the verdict
embedded in its only event is not passed. -/
theorem verdict_differs_from_last_event :
    (CreateHerbBatch (clockAt 1750000000 "2025-06-15T15:06:40Z") "B1" "Ashwagandha"
      "farmer001" (10.0 : ℝ) "kg" 12.9716 77.5946 "Bangalore" sampleGenesis).err = none ∧
    (batchAt (sampleCreated : WorldState ℝ) "B1").ComplianceStatus.Overall = true ∧
    ((batchAt (sampleCreated : WorldState ℝ) "B1").Events.map
      (fun e => e.Compliance.Passed)) = [false] ∧
    ¬ VerdictMatchesLastEvent (sampleCreated : WorldState ℝ) := by
  refine ⟨rfl, sampleCreated_overall, rfl, ?_⟩
  intro hmatch
  have hsome : ((batchAt (sampleCreated : WorldState ℝ) "B1").Events.getLast?).isSome = true :=
    rfl
  have hpassed : (batchAt (sampleCreated : WorldState ℝ) "B1").ComplianceStatus.Overall =
      (Option.get _ hsome).Compliance.Passed :=
    (hmatch "B1" (batchAt sampleCreated "B1") (Option.get _ hsome) rfl
      (Option.some_get hsome).symm).1
  have hfalse : (Option.get _ hsome).Compliance.Passed = false := rfl
  rw [sampleCreated_overall, hfalse] at hpassed
  cases hpassed

/-- Witness of C2 as amended: the verdict stored on `B1` of the sample ledger is the verdict of
`checkCompliance` on its only event, whose embedded verdict is empty. -/
theorem verdict_of_last_event_witness :
    ∃ b : HerbBatch ℝ, getState (sampleCreated : WorldState ℝ).batches "B1" = some b ∧
      VerdictOfLastEvent b :=
  (verdict_of_last_event rejectingUnmarshal).1 (clockAt 1750000000 "2025-06-15T15:06:40Z")
    "B1" "Ashwagandha" "farmer001" (10.0 : ℝ) "kg" 12.9716 77.5946 "Bangalore" sampleGenesis rfl

/-- Counterexample to C4: on the sample ledger the record of `suspended001` is inactive and
holds `add_processing_event`; its `processing` event on `B1` is accepted and stored. -/
theorem inactive_actor_accepted :
    getState (sampleCreated : WorldState ℝ).users "suspended001" = some suspended001 ∧
    suspended001.IsActive = false ∧
    (AddEvent rejectingUnmarshal (clockAt 1750003600 "2025-06-15T16:06:40Z") "B1" "processing"
      "suspended001" "dried" (12.9716 : ℝ) 77.5946 "" "" sampleCreated).err = none ∧
    (batchAt (AddEvent rejectingUnmarshal (clockAt 1750003600 "2025-06-15T16:06:40Z") "B1"
      "processing" "suspended001" "dried" (12.9716 : ℝ) 77.5946 "" "" sampleCreated).state
      "B1").Events.map (fun e => (e.EventType, e.ActorID)) =
        [("harvest", "farmer001"), ("processing", "suspended001")] :=
  ⟨rfl, rfl, rfl, rfl⟩

/-- Witness of C4 as amended: on the sample ledger an actor id without a user record is
refused. -/
theorem AddEvent_actor_check_witness :
    (AddEvent rejectingUnmarshal (clockAt 1750003600 "2025-06-15T16:06:40Z") "B1" "processing"
      "nobody" "dried" (12.9716 : ℝ) 77.5946 "" "" sampleCreated).err ≠ none ∧
    (AddEvent rejectingUnmarshal (clockAt 1750003600 "2025-06-15T16:06:40Z") "B1" "processing"
      "nobody" "dried" (12.9716 : ℝ) 77.5946 "" "" sampleCreated).state = sampleCreated :=
  (AddEvent_actor_check rejectingUnmarshal (clockAt 1750003600 "2025-06-15T16:06:40Z") "B1"
    "processing" "nobody" "dried" (12.9716 : ℝ) 77.5946 "" "" sampleCreated).1 rfl

/-- Witness of C6: the log of `B1` after the harvest is a prefix of its log after the
packaging and the two QR code issues. -/
theorem event_log_append_only_witness :
    LogsGrow (sampleCreated : WorldState ℝ) sampleRefinalized :=
  (event_log_append_only rejectingUnmarshal).2.2 sampleCreated sampleRefinalized
    (Steps.tail (Steps.tail (Steps.tail (Steps.refl _) (Step.addEvent _ _ _ _ _ _ _ _ _ _))
      (Step.generateQRCode _ _ _)) (Step.generateQRCode _ _ _))

/-- Witness of C7: on the sample ledger the `processing` event of `farmer001` on `B1` is
refused for lack of permission and the ledger is as it was. -/
theorem error_leaves_state_witness :
    (AddEvent rejectingUnmarshal (clockAt 1750003600 "2025-06-15T16:06:40Z") "B1" "processing"
      "farmer001" "dried" (12.9716 : ℝ) 77.5946 "" "" sampleCreated).err =
        some (TxError.noPermission "farmer001" "processing") ∧
    (AddEvent rejectingUnmarshal (clockAt 1750003600 "2025-06-15T16:06:40Z") "B1" "processing"
      "farmer001" "dried" (12.9716 : ℝ) 77.5946 "" "" sampleCreated).state = sampleCreated :=
  ⟨((error_leaves_state rejectingUnmarshal).2.2.2 (clockAt 1750003600 "2025-06-15T16:06:40Z")
      "B1" "dried" (12.9716 : ℝ) 77.5946 "" "" sampleCreated (batchAt sampleCreated "B1")
      farmer001 rfl rfl rfl).1 rfl,
    ((error_leaves_state rejectingUnmarshal).2.2.2 (clockAt 1750003600 "2025-06-15T16:06:40Z")
      "B1" "dried" (12.9716 : ℝ) 77.5946 "" "" sampleCreated (batchAt sampleCreated "B1")
      farmer001 rfl rfl rfl).2.2⟩

set_option maxRecDepth 100000 in
/-- Counterexample to C9: on the sample ledger `B1` has its QR flag set; a second
`GenerateQRCode` an hour later succeeds and the digest read afterwards is another one. -/
theorem qr_digest_overwritten :
    (batchAt (sampleFinalized : WorldState ℝ) "B1").QRCodeGenerated = true ∧
    (GenerateQRCode (clockAt 1750010800 "2025-06-15T18:06:40Z") "B1"
      (sampleFinalized : WorldState ℝ)).err = none ∧
    getState (sampleRefinalized : WorldState ℝ).batches "B1" =
      some (batchAt (sampleRefinalized : WorldState ℝ) "B1") ∧
    (batchAt (sampleRefinalized : WorldState ℝ) "B1").QRCodeHash ≠
      (batchAt (sampleFinalized : WorldState ℝ) "B1").QRCodeHash :=
  ⟨rfl, rfl, rfl, by decide⟩

/-- Witness of C9 as amended: on the sample ledger the QR flag of `B1`, set by the first
`GenerateQRCode`, is still set after the second one. -/
theorem qr_digest_frame_witness :
    ∃ b1 : HerbBatch ℝ, getState (sampleRefinalized : WorldState ℝ).batches "B1" = some b1 ∧
      b1.QRCodeGenerated = true :=
  (qr_digest_frame rejectingUnmarshal).2.2.2.2 sampleFinalized sampleRefinalized
    (Steps.tail (Steps.refl _) (Step.generateQRCode _ _ _)) "B1"
    (batchAt sampleFinalized "B1") rfl rfl

/-! ### The claims on the evaluator, the state machine and the frame -/

/-- C16: `updateStatus` returns `harvested`, `processed`, `tested`, `packaged`, `in_transit`,
`retailed` for the kinds `harvest`, `processing`, `quality_test`, `packaging`, `transport`,
`retail`, whatever the current status is, so that a `processing` event on a `retailed` batch
gives `processed`; for every other kind it returns the current status. -/
theorem updateStatus_table (current kind : String) :
    updateStatus current "harvest" = "harvested" ∧
    updateStatus current "processing" = "processed" ∧
    updateStatus current "quality_test" = "tested" ∧
    updateStatus current "packaging" = "packaged" ∧
    updateStatus current "transport" = "in_transit" ∧
    updateStatus current "retail" = "retailed" ∧
    updateStatus "retailed" "processing" = "processed" ∧
    (kind ∉ ["harvest", "processing", "quality_test", "packaging", "transport", "retail"] →
      updateStatus current kind = current) := by
  refine ⟨rfl, rfl, rfl, rfl, rfl, rfl, rfl, ?_⟩
  intro hk
  simp only [List.mem_cons, List.mem_singleton, not_or, List.not_mem_nil, or_false] at hk
  obtain ⟨h1, h2, h3, h4, h5, h6⟩ := hk
  simp [updateStatus, statusFlow, getState, Ne.symm h1, Ne.symm h2, Ne.symm h3, Ne.symm h4,
    Ne.symm h5, Ne.symm h6]

/-- C12: `checkQualityStandards` accepts every event of a kind other than `quality_test`, the
kind `harvest` among them; it accepts an event of kind `quality_test` exactly when its quality
data has a key `purity` whose value is a number of at least 95.0.  So `purity` 95.0 passes, and
`purity` 94.999, an empty map, absent quality data and the string `95` fail. -/
theorem checkQualityStandards_iff {F : Type} [OfScientific F] [LE F]
    [DecidableRel (LE.le : F → F → Prop)] (event : HerbEvent F) :
    (event.EventType = "harvest" → checkQualityStandards event = true) ∧
    (event.EventType ≠ "quality_test" → checkQualityStandards event = true) ∧
    (event.EventType = "quality_test" →
      (checkQualityStandards event = true ↔
        ∃ (fields : List (String × JSONValue F)) (purity : F),
          event.QualityData = some fields ∧
          getState fields "purity" = some (JSONValue.number purity) ∧ (95.0 : F) ≤ purity)) ∧
    checkQualityStandards (sampleEvent "quality_test" "2025-06-15T15:06:40Z"
      (some [("purity", JSONValue.number (95.0 : ℝ))])) = true ∧
    checkQualityStandards (sampleEvent "quality_test" "2025-06-15T15:06:40Z"
      (some [("purity", JSONValue.number (94.999 : ℝ))])) = false ∧
    checkQualityStandards (sampleEvent "quality_test" "2025-06-15T15:06:40Z"
      (some ([] : List (String × JSONValue ℝ)))) = false ∧
    checkQualityStandards (sampleEvent "quality_test" "2025-06-15T15:06:40Z"
      (none : JSONMap ℝ)) = false ∧
    checkQualityStandards (sampleEvent "quality_test" "2025-06-15T15:06:40Z"
      (some [("purity", (JSONValue.string "95" : JSONValue ℝ))])) = false := by
  refine ⟨?_, ?_, ?_, ?_, ?_, ?_, ?_, ?_⟩
  · intro hk
    simp [checkQualityStandards, hk]
  · intro hk
    by_cases hh : event.EventType = "harvest"
    · simp [checkQualityStandards, hh]
    · simp [checkQualityStandards, hh, hk]
  · intro hk
    have hne : ¬ ("quality_test" = "harvest") := by decide
    cases hq : event.QualityData with
    | none => simp [checkQualityStandards, hk, hq]
    | some fields =>
      cases hp : getState fields "purity" with
      | none => simp [checkQualityStandards, hk, hq, hp]
      | some v =>
        cases v with
        | number x => simp [checkQualityStandards, hk, hq, hp]
        | null => simp [checkQualityStandards, hk, hq, hp]
        | bool b => simp [checkQualityStandards, hk, hq, hp]
        | string s => simp [checkQualityStandards, hk, hq, hp]
        | array items => simp [checkQualityStandards, hk, hq, hp]
        | object fields => simp [checkQualityStandards, hk, hq, hp]
  · simp [checkQualityStandards, sampleEvent, getState]
  · simp [checkQualityStandards, sampleEvent, getState]
    norm_num
  · simp [checkQualityStandards, sampleEvent, getState]
  · simp [checkQualityStandards, sampleEvent]
  · simp [checkQualityStandards, sampleEvent, getState]

section ClaimsOnVerdicts

variable {F : Type} [OfScientific F] [Add F] [Sub F] [Mul F] [Div F] [LE F]
  [DecidableRel (LE.le : F → F → Prop)] [Float64Ops F]

/-- C14: the four fields of the verdict `checkCompliance` returns for an event are the results
of `checkGeoFencing`, `checkSeasonalRestrictions`, `checkQualityStandards` and
`checkSpeciesConservation` on that event, and its overall field is their conjunction; hence
the verdict stored on every batch of a reachable world state satisfies the same equation. -/
theorem checkCompliance_overall (jsonUnmarshal : String → Option (JSONMap F)) :
    (∀ (now : Instant) (event : HerbEvent F),
      (checkCompliance now event).GeoFencing = checkGeoFencing event.Location ∧
      (checkCompliance now event).Seasonal = checkSeasonalRestrictions event ∧
      (checkCompliance now event).Quality = checkQualityStandards event ∧
      (checkCompliance now event).Species = checkSpeciesConservation event ∧
      OverallIsConjunction (checkCompliance now event)) ∧
    (∀ st : WorldState F, Reachable jsonUnmarshal st →
      ∀ (batchID : String) (b : HerbBatch F), getState st.batches batchID = some b →
        OverallIsConjunction b.ComplianceStatus) := by
  refine ⟨fun now event => ⟨rfl, rfl, rfl, rfl, rfl⟩, ?_⟩
  intro st hreach batchID b hb
  obtain ⟨e, now, _, hverdict, _⟩ := VerdictOfLastEvent_of_reachable hreach batchID b hb
  rw [hverdict]
  rfl

/-- C20: a successful `AddEvent` leaves the harvest date of its batch as it was, with the batch
id, species, harvest location, farmer id, quantity, unit, creation time, quality metrics,
content-hash map, metadata and the QR flag and digest, and leaves the other batches as they
were; a successful `GenerateQRCode` leaves the same attributes as they were, with the events,
the verdict and the status; and along every sequence of transactions a stored batch keeps
the attributes set at its creation. -/
theorem harvest_attributes_immutable (jsonUnmarshal : String → Option (JSONMap F)) :
    (∀ (clk : Clock) (batchID eventType actorID description : String) (latitude longitude : F)
        (ipfsHash qualityDataJSON : String) (st : WorldState F),
      (AddEvent jsonUnmarshal clk batchID eventType actorID description latitude longitude
        ipfsHash qualityDataJSON st).err = none →
      (∃ b b1 : HerbBatch F, getState st.batches batchID = some b ∧
        getState (AddEvent jsonUnmarshal clk batchID eventType actorID description latitude
          longitude ipfsHash qualityDataJSON st).state.batches batchID = some b1 ∧
        SameOrigin b b1 ∧ b1.QRCodeGenerated = b.QRCodeGenerated ∧
        b1.QRCodeHash = b.QRCodeHash) ∧
      (∀ id : String, id ≠ batchID →
        getState (AddEvent jsonUnmarshal clk batchID eventType actorID description latitude
          longitude ipfsHash qualityDataJSON st).state.batches id = getState st.batches id)) ∧
    (∀ (clk : Clock) (batchID : String) (st : WorldState F),
      (GenerateQRCode clk batchID st).err = none →
      (∃ b b1 : HerbBatch F, getState st.batches batchID = some b ∧
        getState (GenerateQRCode clk batchID st).state.batches batchID = some b1 ∧
        SameOrigin b b1 ∧ b1.Events = b.Events ∧ b1.ComplianceStatus = b.ComplianceStatus ∧
        b1.Status = b.Status) ∧
      (∀ id : String, id ≠ batchID →
        getState (GenerateQRCode clk batchID st).state.batches id = getState st.batches id)) ∧
    (∀ st st1 : WorldState F, Steps jsonUnmarshal st st1 →
      ∀ (batchID : String) (b : HerbBatch F), getState st.batches batchID = some b →
        ∃ b1 : HerbBatch F, getState st1.batches batchID = some b1 ∧ SameOrigin b b1) := by
  refine ⟨?_, ?_, ?_⟩
  · intro clk batchID eventType actorID description latitude longitude ipfsHash
      qualityDataJSON st herr
    rcases AddEvent_effect jsonUnmarshal clk batchID eventType actorID description latitude
      longitude ipfsHash qualityDataJSON st with ⟨hne, _⟩ | ⟨_, b, b1, hb, happ, hst⟩
    · exact absurd herr hne
    · rw [hst]
      obtain ⟨e, _, _, _, _, _, _, rfl⟩ := happ
      exact ⟨⟨b, _, hb, getState_putState_same _ _ _,
        ⟨rfl, rfl, rfl, rfl, rfl, rfl, rfl, rfl, rfl, rfl, rfl⟩, rfl, rfl⟩,
        fun id hid => getState_putState_other _ _ _ _ hid⟩
  · intro clk batchID st herr
    rcases GenerateQRCode_effect clk batchID st with ⟨hne, _⟩ | ⟨_, b, b1, hb, hfin, hst⟩
    · exact absurd herr hne
    · rw [hst]
      obtain ⟨_, rfl⟩ := hfin
      exact ⟨⟨b, _, hb, getState_putState_same _ _ _,
        ⟨rfl, rfl, rfl, rfl, rfl, rfl, rfl, rfl, rfl, rfl, rfl⟩, rfl, rfl, rfl⟩,
        fun id hid => getState_putState_other _ _ _ _ hid⟩
  · intro st st1 hsteps
    induction hsteps with
    | refl =>
      exact fun batchID b hb =>
        ⟨b, hb, rfl, rfl, rfl, rfl, rfl, rfl, rfl, rfl, rfl, rfl, rfl⟩
    | tail _ hstep ih =>
      intro batchID b hb
      obtain ⟨b1, hb1, h1⟩ := ih batchID b hb
      obtain ⟨b2, hb2, h2⟩ := SameOrigin_step hstep batchID b1 hb1
      obtain ⟨a1, a2, a3, a4, a5, a6, a7, a8, a9, a10, a11⟩ := h1
      obtain ⟨c1, c2, c3, c4, c5, c6, c7, c8, c9, c10, c11⟩ := h2
      exact ⟨b2, hb2, c1.trans a1, c2.trans a2, c3.trans a3, c4.trans a4, c5.trans a5,
        c6.trans a6, c7.trans a7, c8.trans a8, c9.trans a9, c10.trans a10, c11.trans a11⟩

end ClaimsOnVerdicts

/-- Witness of C14: the verdict stored on `B1` of the sample ledger after the packaging event
satisfies the equation. -/
theorem checkCompliance_overall_witness :
    OverallIsConjunction (batchAt (samplePackaged : WorldState ℝ) "B1").ComplianceStatus :=
  (checkCompliance_overall rejectingUnmarshal).2 samplePackaged
    ⟨_, Steps.tail (Steps.tail (Steps.refl _) (Step.createHerbBatch _ _ _ _ _ _ _ _ _ _))
      (Step.addEvent _ _ _ _ _ _ _ _ _ _)⟩ "B1" (batchAt samplePackaged "B1")
    samplePackaged_status.2.2

/-- Witness of C20: `B1` of the sample ledger has, after the packaging event and the two QR
code issues, the harvest date and the other attributes it had when it was created. -/
theorem harvest_attributes_immutable_witness :
    ∃ b1 : HerbBatch ℝ, getState (sampleRefinalized : WorldState ℝ).batches "B1" = some b1 ∧
      SameOrigin (batchAt (sampleCreated : WorldState ℝ) "B1") b1 :=
  (harvest_attributes_immutable rejectingUnmarshal).2.2 sampleCreated sampleRefinalized
    (Steps.tail (Steps.tail (Steps.tail (Steps.refl _) (Step.addEvent _ _ _ _ _ _ _ _ _ _))
      (Step.generateQRCode _ _ _)) (Step.generateQRCode _ _ _)) "B1"
    (batchAt sampleCreated "B1") sampleCreated_stored

/-! ### The timestamp parser -/

theorem parseLongYear_some {value rest : List Char} {year : Nat}
    (h : parseLongYear value = some (year, rest)) :
    ∃ y0 y1 y2 y3 : Char, value = y0 :: y1 :: y2 :: y3 :: rest := by
  unfold parseLongYear at h
  split at h
  · split at h
    · simp only [Option.some.injEq, Prod.mk.injEq] at h
      exact ⟨_, _, _, _, by rw [h.2]⟩
    · cases h
  · cases h

theorem skip_some {value rest : List Char} {sep : Char} (h : skip value sep = some rest) :
    value = sep :: rest := by
  unfold skip at h
  split at h
  · split at h
    · simp only [Option.some.injEq] at h
      subst h
      simp_all
    · cases h
  · cases h

theorem getnum_fixed_some {value rest : List Char} {n : Nat}
    (h : getnum value true = some (n, rest)) :
    ∃ c0 c1 : Char, value = c0 :: c1 :: rest ∧ c0.isDigit = true ∧ c1.isDigit = true ∧
      n = digitValue c0 * 10 + digitValue c1 := by
  cases value with
  | nil => simp [getnum] at h
  | cons c0 tail =>
    cases tail with
    | nil => simp [getnum] at h
    | cons c1 tail1 =>
      by_cases h0 : c0.isDigit = true
      · by_cases h1 : c1.isDigit = true
        · simp only [getnum, h0, h1, if_true, Option.some.injEq, Prod.mk.injEq] at h
          exact ⟨c0, c1, by rw [h.2], h0, h1, h.1.symm⟩
        · simp [getnum, h0, h1] at h
      · simp [getnum, h0] at h

theorem timeParseRFC3339_month (value : String) (t : CivilTime) (h : timeParseRFC3339 value = some t) :
    1 ≤ t.month ∧ t.month ≤ 12 ∧
    ∃ (y0 y1 y2 y3 m0 m1 : Char) (rest : List Char),
      value.data = y0 :: y1 :: y2 :: y3 :: '-' :: m0 :: m1 :: '-' :: rest ∧
      m0.isDigit = true ∧ m1.isDigit = true ∧
      t.month = digitValue m0 * 10 + digitValue m1 := by
  unfold timeParseRFC3339 at h
  simp only [bind, Option.bind] at h
  cases hy : parseLongYear value.data with
  | none => simp [hy] at h
  | some yv =>
    obtain ⟨year, v0⟩ := yv
    simp only [hy] at h
    cases hs1 : skip v0 '-' with
    | none => simp [hs1] at h
    | some v1 =>
      simp only [hs1] at h
      cases hm : getnum v1 true with
      | none => simp [hm] at h
      | some mv =>
        obtain ⟨month, v2⟩ := mv
        simp only [hm] at h
        split at h
        · cases h
        · rename_i hrange
          cases hs2 : skip v2 '-' with
          | none => simp [hs2] at h
          | some v3 =>
            simp only [hs2] at h
            have hmonth : t.month = month := by
              cases hd : getnum v3 true with
              | none => simp [hd] at h
              | some dv =>
                simp only [hd] at h
                cases hs3 : skip dv.2 'T' with
                | none => simp [hs3] at h
                | some v4 =>
                  simp only [hs3] at h
                  cases hh : getnum v4 false with
                  | none => simp [hh] at h
                  | some hv =>
                    simp only [hh] at h
                    split at h
                    · cases h
                    · cases hs4 : skip hv.2 ':' with
                      | none => simp [hs4] at h
                      | some v5 =>
                        simp only [hs4] at h
                        cases hmi : getnum v5 true with
                        | none => simp [hmi] at h
                        | some miv =>
                          simp only [hmi] at h
                          split at h
                          · cases h
                          · cases hs5 : skip miv.2 ':' with
                            | none => simp [hs5] at h
                            | some v6 =>
                              simp only [hs5] at h
                              cases hse : getnum v6 true with
                              | none => simp [hse] at h
                              | some sv =>
                                simp only [hse] at h
                                split at h
                                · cases h
                                · cases hz : parseZone (skipFraction sv.2) with
                                  | none => simp [hz] at h
                                  | some v7 =>
                                    simp only [hz] at h
                                    split at h
                                    · cases h
                                    · split at h
                                      · cases h
                                      · simp only [Option.some.injEq] at h
                                        rw [← h]
            obtain ⟨y0, y1, y2, y3, hv0⟩ := parseLongYear_some hy
            have hv1 := skip_some hs1
            obtain ⟨m0, m1, hv2, hm0, hm1, hval⟩ := getnum_fixed_some hm
            have hv3 := skip_some hs2
            simp only [Bool.or_eq_true, decide_eq_true_eq, not_or, not_lt] at hrange
            refine ⟨?_, ?_, y0, y1, y2, y3, m0, m1, v3, ?_, hm0, hm1, ?_⟩
            · rw [hmonth]; omega
            · rw [hmonth]; exact hrange.2
            · rw [hv0, hv1, hv2, hv3]
            · rw [hmonth, hval]

/-- C13: `checkSeasonalRestrictions` accepts an event exactly when its timestamp parses and the
month of the parsed time is from 3 to 11; a timestamp that does not parse is refused; the month
of the parsed time is the one written in the timestamp, so it is the month in the offset of
the timestamp.  So `2025-02-28T23:59:59Z` and `2025-12-01T00:00:00Z` are refused,
`2025-03-01T00:00:00Z` and `2025-11-30T23:59:59Z` are accepted, `2025-03-01T00:00:00+05:30` is
accepted and a text that is no timestamp is refused. -/
theorem checkSeasonalRestrictions_iff {F : Type} (event : HerbEvent F) :
    (checkSeasonalRestrictions event = true ↔
      ∃ t : CivilTime, timeParseRFC3339 event.Timestamp = some t ∧ 3 ≤ t.month ∧
        t.month ≤ 11) ∧
    (timeParseRFC3339 event.Timestamp = none → checkSeasonalRestrictions event = false) ∧
    (∀ t : CivilTime, timeParseRFC3339 event.Timestamp = some t →
      ∃ (y0 y1 y2 y3 m0 m1 : Char) (rest : List Char),
        event.Timestamp.data = y0 :: y1 :: y2 :: y3 :: '-' :: m0 :: m1 :: '-' :: rest ∧
        m0.isDigit = true ∧ m1.isDigit = true ∧
        t.month = digitValue m0 * 10 + digitValue m1) ∧
    checkSeasonalRestrictions
      (sampleEvent "harvest" "2025-02-28T23:59:59Z" none : HerbEvent ℝ) = false ∧
    checkSeasonalRestrictions
      (sampleEvent "harvest" "2025-03-01T00:00:00Z" none : HerbEvent ℝ) = true ∧
    checkSeasonalRestrictions
      (sampleEvent "harvest" "2025-11-30T23:59:59Z" none : HerbEvent ℝ) = true ∧
    checkSeasonalRestrictions
      (sampleEvent "harvest" "2025-12-01T00:00:00Z" none : HerbEvent ℝ) = false ∧
    checkSeasonalRestrictions
      (sampleEvent "harvest" "2025-03-01T00:00:00+05:30" none : HerbEvent ℝ) = true ∧
    checkSeasonalRestrictions
      (sampleEvent "harvest" "1 March 2025" none : HerbEvent ℝ) = false := by
  refine ⟨?_, ?_, ?_, rfl, rfl, rfl, rfl, rfl, rfl⟩
  · cases hp : timeParseRFC3339 event.Timestamp with
    | none => simp [checkSeasonalRestrictions, hp]
    | some t => simp [checkSeasonalRestrictions, hp]
  · intro hp
    simp [checkSeasonalRestrictions, hp]
  · intro t hp
    exact (timeParseRFC3339_month event.Timestamp t hp).2.2

/-! ### What `CreateHerbBatch` stores -/

section ClaimsOnCreation

variable {F : Type} [OfScientific F] [Add F] [Sub F] [Mul F] [Div F] [LE F]
  [DecidableRel (LE.le : F → F → Prop)] [Float64Ops F]

theorem CreateHerbBatch_stored (clk : Clock) (batchID species farmerID : String)
    (quantity : F) (unit : String) (latitude longitude : F) (address : String)
    (st : WorldState F) (id : String) (b1 : HerbBatch F)
    (h : getState (CreateHerbBatch clk batchID species farmerID quantity unit latitude longitude
      address st).state.batches id = some b1) :
    getState st.batches id = some b1 ∨
    (id = batchID ∧ b1.Quantity = quantity ∧ Float64Ops.isFinite quantity = true) := by
  cases hb : getState st.batches batchID with
  | some b => left; simpa [CreateHerbBatch, hb] using h
  | none =>
    cases hu : getState st.users farmerID with
    | none => left; simpa [CreateHerbBatch, hb, GetUser, hu] using h
    | some farmer =>
      by_cases hr : farmer.Role = "farmer"
      · cases hfin : (Float64Ops.isFinite quantity && Float64Ops.isFinite latitude &&
            Float64Ops.isFinite longitude) with
        | false => left; simpa [CreateHerbBatch, hb, GetUser, hu, hr, hfin] using h
        | true =>
          simp only [CreateHerbBatch, hb, GetUser, hu, hr, hfin, ne_eq, not_true_eq_false,
            if_false, Bool.not_true, Bool.false_eq_true] at h
          by_cases hid : id = batchID
          · right
            subst hid
            rw [getState_putState_same] at h
            simp only [Bool.and_eq_true] at hfin
            exact ⟨rfl, by rw [← Option.some.inj h], hfin.1.1⟩
          · left
            rw [getState_putState_other _ _ _ _ hid] at h
            exact h
      · left; simpa [CreateHerbBatch, hb, GetUser, hu, hr] using h

theorem FiniteQuantity_step {jsonUnmarshal : String → Option (JSONMap F)}
    {st st1 : WorldState F} (h : Step jsonUnmarshal st st1)
    (inv : ∀ (batchID : String) (b : HerbBatch F), getState st.batches batchID = some b →
      Float64Ops.isFinite b.Quantity = true) :
    ∀ (batchID : String) (b : HerbBatch F), getState st1.batches batchID = some b →
      Float64Ops.isFinite b.Quantity = true := by
  intro id b1 hb1
  cases h with
  | initLedger clk =>
    rw [(InitLedger_batches clk st).2] at hb1
    exact inv id b1 hb1
  | createHerbBatch clk batchID species farmerID quantity unit latitude longitude address =>
    rcases CreateHerbBatch_stored clk batchID species farmerID quantity unit latitude
      longitude address st id b1 hb1 with hold | ⟨_, hq, hfin⟩
    · exact inv id b1 hold
    · rw [hq]; exact hfin
  | addEvent clk batchID eventType actorID description latitude longitude ipfsHash
      qualityDataJSON =>
    rcases AddEvent_effect jsonUnmarshal clk batchID eventType actorID description latitude
      longitude ipfsHash qualityDataJSON st with ⟨_, hst⟩ | ⟨_, b, b2, hb, happ, hst⟩
    · rw [hst] at hb1; exact inv id b1 hb1
    · rw [hst] at hb1
      by_cases hid : id = batchID
      · subst hid
        rw [getState_putState_same] at hb1
        obtain rfl : b2 = b1 := Option.some.inj hb1
        obtain ⟨e, _, _, _, _, _, _, rfl⟩ := happ
        exact inv id b hb
      · rw [getState_putState_other _ _ _ _ hid] at hb1
        exact inv id b1 hb1
  | generateQRCode clk batchID =>
    rcases GenerateQRCode_effect clk batchID st with ⟨_, hst⟩ | ⟨_, b, b2, hb, hfin, hst⟩
    · rw [hst] at hb1; exact inv id b1 hb1
    · rw [hst] at hb1
      by_cases hid : id = batchID
      · subst hid
        rw [getState_putState_same] at hb1
        obtain rfl : b2 = b1 := Option.some.inj hb1
        obtain ⟨_, rfl⟩ := hfin
        exact inv id b hb
      · rw [getState_putState_other _ _ _ _ hid] at hb1
        exact inv id b1 hb1

/-- C17, as amended: on a batch id without a stored batch, `CreateHerbBatch` fails, leaving
the world state as it was, when the farmer id resolves to no user, when it resolves to a user
whose role is not `farmer`, and when the quantity, the latitude or the longitude is no finite
number; otherwise it stores under that batch id a batch with status `harvested`, one event of
kind `harvest` whose actor id is the farmer id and whose actor role is `farmer`, an empty
content-hash map, empty metadata, zero quality metrics and `QRCodeGenerated = false`. -/
theorem CreateHerbBatch_fresh (clk : Clock) (batchID species farmerID : String)
    (quantity : F) (unit : String) (latitude longitude : F) (address : String)
    (st : WorldState F) (h : getState st.batches batchID = none) :
    (getState st.users farmerID = none →
      (CreateHerbBatch clk batchID species farmerID quantity unit latitude longitude address
        st).err = some (TxError.userMissing farmerID) ∧
      (CreateHerbBatch clk batchID species farmerID quantity unit latitude longitude address
        st).state = st) ∧
    (∀ farmer : User, getState st.users farmerID = some farmer → farmer.Role ≠ "farmer" →
      (CreateHerbBatch clk batchID species farmerID quantity unit latitude longitude address
        st).err = some (TxError.notFarmer farmerID) ∧
      (CreateHerbBatch clk batchID species farmerID quantity unit latitude longitude address
        st).state = st) ∧
    (∀ farmer : User, getState st.users farmerID = some farmer → farmer.Role = "farmer" →
      (Float64Ops.isFinite quantity && Float64Ops.isFinite latitude &&
        Float64Ops.isFinite longitude) = false →
      (CreateHerbBatch clk batchID species farmerID quantity unit latitude longitude address
        st).err = some TxError.unsupportedValue ∧
      (CreateHerbBatch clk batchID species farmerID quantity unit latitude longitude address
        st).state = st) ∧
    (∀ farmer : User, getState st.users farmerID = some farmer → farmer.Role = "farmer" →
      (Float64Ops.isFinite quantity && Float64Ops.isFinite latitude &&
        Float64Ops.isFinite longitude) = true →
      (CreateHerbBatch clk batchID species farmerID quantity unit latitude longitude address
        st).err = none ∧
      ∃ (b : HerbBatch F) (e : HerbEvent F),
        getState (CreateHerbBatch clk batchID species farmerID quantity unit latitude longitude
          address st).state.batches batchID = some b ∧
        b.BatchID = batchID ∧ b.Species = species ∧ b.FarmerID = farmerID ∧
        b.Quantity = quantity ∧ b.Unit = unit ∧
        b.Status = "harvested" ∧ b.Events = [e] ∧ e.EventType = "harvest" ∧
        e.ActorID = farmerID ∧ e.ActorRole = "farmer" ∧
        b.IPFSHashes = [] ∧ b.Metadata = some [] ∧
        b.QualityMetrics = (zeroBatch : HerbBatch F).QualityMetrics ∧
        b.QRCodeGenerated = false) := by
  refine ⟨?_, ?_, ?_, ?_⟩
  · intro hu
    simp [CreateHerbBatch, h, GetUser, hu]
  · intro farmer hu hr
    simp [CreateHerbBatch, h, GetUser, hu, hr]
  · intro farmer hu hr hfin
    simp [CreateHerbBatch, h, GetUser, hu, hr, hfin]
  · intro farmer hu hr hfin
    refine ⟨by simp [CreateHerbBatch, h, GetUser, hu, hr, hfin], ?_⟩
    simp only [CreateHerbBatch, h, GetUser, hu, hr, hfin, ne_eq, not_true_eq_false,
      if_false, Bool.not_true, Bool.false_eq_true]
    rw [getState_putState_same]
    exact ⟨_, _, rfl, rfl, rfl, rfl, rfl, rfl, rfl, rfl, rfl, rfl, rfl, rfl, rfl, rfl, rfl⟩

/-- C18, as amended: `CreateHerbBatch` stores the quantity it is given without a test of its
sign, only a finite one; along every sequence of transactions a stored batch keeps its
quantity; so in every reachable world state the quantity of every stored batch is finite, of
either sign. -/
theorem quantity_as_given (jsonUnmarshal : String → Option (JSONMap F)) :
    (∀ (clk : Clock) (batchID species farmerID : String) (quantity : F) (unit : String)
        (latitude longitude : F) (address : String) (st : WorldState F),
      (CreateHerbBatch clk batchID species farmerID quantity unit latitude longitude address
        st).err = none →
      Float64Ops.isFinite quantity = true ∧
      ∃ b : HerbBatch F,
        getState (CreateHerbBatch clk batchID species farmerID quantity unit latitude longitude
          address st).state.batches batchID = some b ∧ b.Quantity = quantity) ∧
    (∀ st st1 : WorldState F, Steps jsonUnmarshal st st1 →
      ∀ (batchID : String) (b : HerbBatch F), getState st.batches batchID = some b →
        ∃ b1 : HerbBatch F, getState st1.batches batchID = some b1 ∧
          b1.Quantity = b.Quantity) ∧
    (∀ st : WorldState F, Reachable jsonUnmarshal st →
      ∀ (batchID : String) (b : HerbBatch F), getState st.batches batchID = some b →
        Float64Ops.isFinite b.Quantity = true) := by
  refine ⟨?_, ?_, ?_⟩
  · intro clk batchID species farmerID quantity unit latitude longitude address st herr
    rcases CreateHerbBatch_effect clk batchID species farmerID quantity unit latitude longitude
      address st with ⟨hne, _⟩ | ⟨_, hnone, b1, _, hst⟩
    · exact absurd herr hne
    · have hget : getState (CreateHerbBatch clk batchID species farmerID quantity unit latitude
          longitude address st).state.batches batchID = some b1 := by
        rw [hst]; exact getState_putState_same _ _ _
      rcases CreateHerbBatch_stored clk batchID species farmerID quantity unit latitude
        longitude address st batchID b1 hget with hold | ⟨_, hq, hfin⟩
      · rw [hnone] at hold; cases hold
      · exact ⟨hfin, b1, hget, hq⟩
  · intro st st1 hsteps
    induction hsteps with
    | refl => exact fun batchID b hb => ⟨b, hb, rfl⟩
    | tail _ hstep ih =>
      intro batchID b hb
      obtain ⟨b1, hb1, h1⟩ := ih batchID b hb
      obtain ⟨b2, hb2, h2⟩ := SameOrigin_step hstep batchID b1 hb1
      exact ⟨b2, hb2, h2.2.2.2.2.2.1.trans h1⟩
  · intro st hreach
    obtain ⟨users, hsteps⟩ := hreach
    induction hsteps with
    | refl =>
      intro batchID b hb
      simp [getState] at hb
    | tail _ hstep ih => exact FiniteQuantity_step hstep ih

end ClaimsOnCreation

/-- Witness of C17 as amended: on the sample ledger without batches, `farmer001` creates `B1`
with a finite quantity at a finite place. -/
theorem CreateHerbBatch_fresh_witness :
    (CreateHerbBatch (clockAt 1750000000 "2025-06-15T15:06:40Z") "B1" "Ashwagandha"
      "farmer001" (10.0 : ℝ) "kg" 12.9716 77.5946 "Bangalore" sampleGenesis).err = none ∧
    (batchAt (sampleCreated : WorldState ℝ) "B1").Status = "harvested" ∧
    (batchAt (sampleCreated : WorldState ℝ) "B1").Events.map
      (fun e => (e.EventType, e.ActorID, e.ActorRole)) = [("harvest", "farmer001", "farmer")] :=
  ⟨((CreateHerbBatch_fresh (clockAt 1750000000 "2025-06-15T15:06:40Z") "B1" "Ashwagandha"
      "farmer001" (10.0 : ℝ) "kg" 12.9716 77.5946 "Bangalore" sampleGenesis rfl).2.2.2
      farmer001 rfl rfl rfl).1, rfl, rfl⟩

/-- Counterexample to C17: on the sample ledger without batches, `farmer001`, whose role is
`farmer`, creates `B1` with a quantity that is no number; the call returns the error of
`json.Marshal` and stores nothing. -/
theorem CreateHerbBatch_refuses_nan :
    getState (sampleGenesis : WorldState RealOrNaN).batches "B1" = none ∧
    getState (sampleGenesis : WorldState RealOrNaN).users "farmer001" = some farmer001 ∧
    farmer001.Role = "farmer" ∧
    (CreateHerbBatch (clockAt 1750000000 "2025-06-15T15:06:40Z") "B1" "Ashwagandha"
      "farmer001" RealOrNaN.nan "kg" 12.9716 77.5946 "Bangalore" sampleGenesis).err =
        some TxError.unsupportedValue ∧
    getState (CreateHerbBatch (clockAt 1750000000 "2025-06-15T15:06:40Z") "B1" "Ashwagandha"
      "farmer001" RealOrNaN.nan "kg" 12.9716 77.5946 "Bangalore"
      sampleGenesis).state.batches "B1" = none :=
  ⟨rfl, rfl, rfl, rfl, rfl⟩

/-- Counterexample to C18: on the sample ledger `farmer001` creates `B2` with the quantity
-5; the call succeeds and the stored quantity is negative. -/
theorem negative_quantity_stored :
    (CreateHerbBatch (clockAt 1750003600 "2025-06-15T16:06:40Z") "B2" "Tulsi" "farmer001"
      (-5.0 : ℝ) "kg" 12.9716 77.5946 "Bangalore" sampleCreated).err = none ∧
    (batchAt (CreateHerbBatch (clockAt 1750003600 "2025-06-15T16:06:40Z") "B2" "Tulsi"
      "farmer001" (-5.0 : ℝ) "kg" 12.9716 77.5946 "Bangalore" sampleCreated).state
      "B2").Quantity = -5 ∧
    Reachable rejectingUnmarshal
      (CreateHerbBatch (clockAt 1750003600 "2025-06-15T16:06:40Z") "B2" "Tulsi"
        "farmer001" (-5.0 : ℝ) "kg" 12.9716 77.5946 "Bangalore" sampleCreated).state ∧
    ¬ QuantitiesNonNegative
      (CreateHerbBatch (clockAt 1750003600 "2025-06-15T16:06:40Z") "B2" "Tulsi"
        "farmer001" (-5.0 : ℝ) "kg" 12.9716 77.5946 "Bangalore" sampleCreated).state := by
  have hq : (batchAt (CreateHerbBatch (clockAt 1750003600 "2025-06-15T16:06:40Z") "B2" "Tulsi"
      "farmer001" (-5.0 : ℝ) "kg" 12.9716 77.5946 "Bangalore" sampleCreated).state
      "B2").Quantity = -5 := by
    show (-5.0 : ℝ) = -5
    norm_num
  refine ⟨rfl, hq, ?_, ?_⟩
  · obtain ⟨users, h⟩ := sampleCreated_reachable
    exact ⟨users, Steps.tail h (Step.createHerbBatch _ _ _ _ _ _ _ _ _ _)⟩
  · intro hnonneg
    have h0 := hnonneg "B2" (batchAt (CreateHerbBatch
      (clockAt 1750003600 "2025-06-15T16:06:40Z") "B2" "Tulsi" "farmer001" (-5.0 : ℝ) "kg"
      12.9716 77.5946 "Bangalore" sampleCreated).state "B2") rfl
    rw [hq] at h0
    norm_num at h0

/-- Witness of C18 as amended: the quantity 10 given for `B1` of the sample ledger is the one
read after the packaging event and the two QR code issues. -/
theorem quantity_as_given_witness :
    ∃ b1 : HerbBatch ℝ, getState (sampleRefinalized : WorldState ℝ).batches "B1" = some b1 ∧
      b1.Quantity = (batchAt (sampleCreated : WorldState ℝ) "B1").Quantity :=
  (quantity_as_given rejectingUnmarshal).2.1 sampleCreated sampleRefinalized
    (Steps.tail (Steps.tail (Steps.tail (Steps.refl _) (Step.addEvent _ _ _ _ _ _ _ _ _ _))
      (Step.generateQRCode _ _ _)) (Step.generateQRCode _ _ _)) "B1"
    (batchAt sampleCreated "B1") sampleCreated_stored

/-! ### The geo-fence over the real numbers -/

theorem haversineSpec_northOfCentre (m : ℝ) (h0 : 0 ≤ m) (h1 : m ≤ 2000) :
    haversineSpec (northOfCentre m) 77.5946 12.9716 77.5946 = m := by
  have harg : (12.9716 - northOfCentre m) * 3.14159265359 / 180 / 2 = -(m / 12742000) := by
    unfold northOfCentre
    field_simp
    ring
  have hsmall : m / 12742000 ≤ 1 := by
    rw [div_le_one (by norm_num)]
    linarith
  have hnonneg : 0 ≤ m / 12742000 := by positivity
  have hpi := Real.pi_gt_three
  have hsin : 0 ≤ Real.sin (m / 12742000) :=
    Real.sin_nonneg_of_nonneg_of_le_pi hnonneg (by linarith)
  unfold haversineSpec
  rw [harg]
  simp only [sub_self, zero_mul, zero_div, Real.sin_zero, Real.sin_neg]
  have hsq : (-Real.sin (m / 12742000)) ^ 2 +
      Real.cos (northOfCentre m * 3.14159265359 / 180) *
        Real.cos (12.9716 * 3.14159265359 / 180) * (0 : ℝ) ^ 2 =
      Real.sin (m / 12742000) ^ 2 := by ring
  rw [hsq, Real.sqrt_sq hsin, Real.arcsin_sin (by linarith) (by linarith)]
  field_simp
  ring

theorem checkGeoFencing_of_haversine_le (location : GeoLocation ℝ)
    (h : haversineSpec location.Latitude location.Longitude 12.9716 77.5946 ≤ 2000) :
    checkGeoFencing location = true := by
  have hd : calculateDistance location.Latitude location.Longitude (12.9716 : ℝ) 77.5946 ≤
      1000 := by
    rw [calculateDistance_eq_half]
    linarith
  simp only [checkGeoFencing, allowedZones, List.any_cons, List.any_nil, Bool.or_false,
    Bool.or_eq_true, decide_eq_true_eq]
  left
  have h1000 : (1000.0 : ℝ) = 1000 := by norm_num
  rw [h1000]
  exact hd

/-- C11: `checkGeoFencing` accepts every location whose great-circle distance to the centre
(12.9716, 77.5946) is at most 2000 m, those within 1000 m among them; the point on the meridian
of the centre at 1000.01 m from it is accepted, and so is the point of latitude 12.9806, at
1000.7543398010945 m. -/
theorem checkGeoFencing_accepts_beyond_radius :
    (∀ location : GeoLocation ℝ,
      haversineSpec location.Latitude location.Longitude 12.9716 77.5946 ≤ 1000 →
      checkGeoFencing location = true) ∧
    (∀ location : GeoLocation ℝ,
      haversineSpec location.Latitude location.Longitude 12.9716 77.5946 ≤ 2000 →
      checkGeoFencing location = true) ∧
    haversineSpec (northOfCentre 1000.01) 77.5946 12.9716 77.5946 = 1000.01 ∧
    checkGeoFencing
      ({ Latitude := northOfCentre 1000.01, Longitude := 77.5946, Address := "", Zone := "" } :
        GeoLocation ℝ) = true ∧
    haversineSpec 12.9806 77.5946 12.9716 77.5946 = 1000.7543398010945 ∧
    checkGeoFencing
      ({ Latitude := 12.9806, Longitude := 77.5946, Address := "", Zone := "" } :
        GeoLocation ℝ) = true := by
  have h1 := haversineSpec_northOfCentre 1000.01 (by norm_num) (by norm_num)
  have h2 := haversineSpec_northOfCentre 1000.7543398010945 (by norm_num) (by norm_num)
  have hlat : northOfCentre 1000.7543398010945 = 12.9806 := by
    unfold northOfCentre
    norm_num
  rw [hlat] at h2
  refine ⟨fun location h => checkGeoFencing_of_haversine_le location (by linarith),
    checkGeoFencing_of_haversine_le, h1, ?_, h2, ?_⟩
  · apply checkGeoFencing_of_haversine_le
    show haversineSpec (northOfCentre 1000.01) 77.5946 12.9716 77.5946 ≤ 2000
    rw [h1]
    norm_num
  · apply checkGeoFencing_of_haversine_le
    show haversineSpec 12.9806 77.5946 12.9716 77.5946 ≤ 2000
    rw [h2]
    norm_num

/-! ### The range scan -/

theorem getState_mem {α : Type} (tbl : Table α) (key : String) (v : α)
    (h : getState tbl key = some v) : (key, v) ∈ tbl := by
  induction tbl with
  | nil => simp [getState] at h
  | cons p rest ih =>
    obtain ⟨k, w⟩ := p
    by_cases hk : k = key
    · simp only [getState, hk, if_true, Option.some.injEq] at h
      simp [hk, h]
    · simp only [getState, hk, if_false] at h
      exact List.mem_cons_of_mem _ (ih h)

theorem keyLt_append_self (p x : List Char) : keyLt (p ++ x) p = false := by
  induction p with
  | nil => cases x <;> rfl
  | cons c rest ih => simp [keyLt, ih]

theorem keyLt_asymm (a b : List Char) (h : keyLt a b = true) : keyLt b a = false := by
  induction a generalizing b with
  | nil => cases b <;> simp [keyLt] at h ⊢
  | cons c as ih =>
    cases b with
    | nil => simp [keyLt] at h
    | cons d bs =>
      simp only [keyLt] at h ⊢
      by_cases h1 : c.toNat < d.toNat
      · have h2 : ¬ d.toNat < c.toNat := by omega
        simp [h1, h2]
      · by_cases h2 : d.toNat < c.toNat
        · simp [h1, h2] at h
        · simp only [h1, h2, if_false] at h ⊢
          exact ih bs h

theorem keyLe_trans (a b c : List Char) (hab : keyLt b a = false) (hbc : keyLt c b = false) :
    keyLt c a = false := by
  induction a generalizing b c with
  | nil => cases c <;> simp [keyLt]
  | cons x as ih =>
    cases b with
    | nil => simp [keyLt] at hab
    | cons y bs =>
      cases c with
      | nil => simp [keyLt] at hbc
      | cons z cs =>
        simp only [keyLt] at hab hbc ⊢
        by_cases h1 : y.toNat < x.toNat
        · simp [h1] at hab
        · by_cases h2 : x.toNat < y.toNat
          · by_cases h3 : z.toNat < y.toNat
            · simp [h3] at hbc
            · have h4 : ¬ z.toNat < x.toNat := by omega
              have h5 : x.toNat < z.toNat := by omega
              simp [h4, h5]
          · simp only [h1, h2, if_false] at hab
            by_cases h3 : z.toNat < y.toNat
            · simp [h3] at hbc
            · by_cases h4 : y.toNat < z.toNat
              · have h5 : ¬ z.toNat < x.toNat := by omega
                have h6 : x.toNat < z.toNat := by omega
                simp [h5, h6]
              · simp only [h3, h4, if_false] at hbc
                have h5 : ¬ z.toNat < x.toNat := by omega
                have h6 : ¬ x.toNat < z.toNat := by omega
                simp only [h5, h6, if_false]
                exact ih bs cs hab hbc

theorem GetStateByRange_sorted {F : Type} [OfScientific F] (st : WorldState F)
    (startKey endKey : String) :
    (GetStateByRange st startKey endKey).Sorted entryLe := by
  haveI : IsTotal (String × (HerbBatch F ⊕ User)) entryLe :=
    ⟨fun a b => by
      unfold entryLe
      cases h : keyLt b.1.data a.1.data with
      | false => exact Or.inl rfl
      | true => exact Or.inr (keyLt_asymm _ _ h)⟩
  haveI : IsTrans (String × (HerbBatch F ⊕ User)) entryLe :=
    ⟨fun a b c hab hbc => keyLe_trans a.1.data b.1.data c.1.data hab hbc⟩
  exact List.sorted_insertionSort _ _

theorem mem_GetStateByRange {F : Type} [OfScientific F] (st : WorldState F)
    (startKey endKey : String) (entry : String × (HerbBatch F ⊕ User)) :
    entry ∈ GetStateByRange st startKey endKey ↔
      entry ∈ worldEntries st ∧ keyLt entry.1.data startKey.data = false ∧
        keyLt entry.1.data endKey.data = true := by
  simp [GetStateByRange, List.mem_insertionSort, List.mem_filter]

theorem unmarshalAll_ok_mem {F : Type} [OfScientific F]
    (entries : List (String × (HerbBatch F ⊕ User))) (bs : List (HerbBatch F))
    (h : unmarshalAll entries = Except.ok bs) (key : String) (b : HerbBatch F)
    (hmem : (key, (Sum.inl b : HerbBatch F ⊕ User)) ∈ entries) : b ∈ bs := by
  induction entries generalizing bs with
  | nil => cases hmem
  | cons entry rest ih =>
    cases hfirst : unmarshalBatch entry.2 with
    | error e => simp [unmarshalAll, hfirst] at h
    | ok first =>
      cases hrest : unmarshalAll rest with
      | error e => simp [unmarshalAll, hfirst, hrest] at h
      | ok others =>
        simp only [unmarshalAll, hfirst, hrest, Except.ok.injEq] at h
        subst h
        rcases List.mem_cons.mp hmem with heq | htail
        · subst heq
          cases hr : batchReadable b with
          | false => simp [unmarshalBatch, hr] at hfirst
          | true =>
            simp only [unmarshalBatch, hr, if_true, Except.ok.injEq] at hfirst
            subst hfirst
            exact List.mem_cons_self _ _
        · exact List.mem_cons_of_mem _ (ih others hrest htail)

theorem unmarshalAll_ok_of_readable {F : Type} [OfScientific F]
    (entries : List (String × (HerbBatch F ⊕ User)))
    (h : ∀ entry ∈ entries, ∀ b : HerbBatch F, entry.2 = Sum.inl b → batchReadable b = true) :
    ∃ bs : List (HerbBatch F), unmarshalAll entries = Except.ok bs := by
  induction entries with
  | nil => exact ⟨[], rfl⟩
  | cons entry rest ih =>
    obtain ⟨others, hrest⟩ := ih (fun e he => h e (List.mem_cons_of_mem _ he))
    obtain ⟨key, value⟩ := entry
    cases value with
    | inl b =>
      have hr := h (key, Sum.inl b) (List.mem_cons_self _ _) b rfl
      exact ⟨b :: others, by simp [unmarshalAll, unmarshalBatch, hr, hrest]⟩
    | inr u =>
      cases hfirst : (unmarshalBatch (Sum.inr u) : Except TxError (HerbBatch F)) with
      | error e => simp [unmarshalBatch] at hfirst
      | ok first => exact ⟨first :: others, by simp [unmarshalAll, hfirst, hrest]⟩

/-- C19: when `QueryAllBatches` returns a list, it holds the stored batches whose key is before
`batch_zzzzzzzzzz`, and it returns a list when `json.Unmarshal` reads every stored batch back;
the range holds no entry of another key, in the order of the keys, and no user is in the range;
so the batches whose key is not before that end are not returned: on the sample ledger with
the batches `B1`, `अश्वगंधा-001` and `zzzzzzzzzzz` it returns `B1` alone. -/
theorem QueryAllBatches_misses_batches {F : Type} [OfScientific F] (st : WorldState F) :
    (∀ bs : List (HerbBatch F), QueryAllBatches st = Except.ok bs →
      ∀ (batchID : String) (b : HerbBatch F), getState st.batches batchID = some b →
        keyLt (batchKey batchID).data "batch_zzzzzzzzzz".data = true → b ∈ bs) ∧
    ((∀ entry ∈ st.batches, batchReadable entry.2 = true) →
      ∃ bs : List (HerbBatch F), QueryAllBatches st = Except.ok bs) ∧
    (∀ batchID : String, keyLt (batchKey batchID).data "batch_zzzzzzzzzz".data = false →
      batchKey batchID ∉ (GetStateByRange st "batch_" "batch_zzzzzzzzzz").map Prod.fst) ∧
    (∀ userID : String, keyLt (userKey userID).data "batch_zzzzzzzzzz".data = false) ∧
    (GetStateByRange st "batch_" "batch_zzzzzzzzzz").Sorted entryLe ∧
    (sampleThreeBatches : WorldState ℝ).batches.map (fun p => p.1) =
      ["B1", "अश्वगंधा-001", "zzzzzzzzzzz"] ∧
    getState (sampleThreeBatches : WorldState ℝ).batches "अश्वगंधा-001" =
      some (batchAt (sampleThreeBatches : WorldState ℝ) "अश्वगंधा-001") ∧
    getState (sampleThreeBatches : WorldState ℝ).batches "zzzzzzzzzzz" =
      some (batchAt (sampleThreeBatches : WorldState ℝ) "zzzzzzzzzzz") ∧
    QueryAllBatches (sampleThreeBatches : WorldState ℝ) =
      Except.ok [batchAt (sampleThreeBatches : WorldState ℝ) "B1"] := by
  refine ⟨?_, ?_, ?_, ?_, GetStateByRange_sorted st _ _, rfl, rfl, rfl, rfl⟩
  · intro bs hok batchID b hb hend
    have hmem : (batchKey batchID, (Sum.inl b : HerbBatch F ⊕ User)) ∈
        GetStateByRange st "batch_" "batch_zzzzzzzzzz" := by
      rw [mem_GetStateByRange]
      refine ⟨?_, ?_, hend⟩
      · exact List.mem_append_left _
          (List.mem_map.mpr ⟨(batchID, b), getState_mem _ _ _ hb, rfl⟩)
      · show keyLt ("batch_" ++ batchID).data "batch_".data = false
        rw [String.data_append]
        exact keyLt_append_self _ _
    exact unmarshalAll_ok_mem _ bs hok _ b hmem
  · intro hread
    refine unmarshalAll_ok_of_readable _ ?_
    intro entry hentry b hval
    have hworld := ((mem_GetStateByRange st _ _ entry).mp hentry).1
    rcases List.mem_append.mp hworld with hbatch | huser
    · obtain ⟨p, hp, hpe⟩ := List.mem_map.mp hbatch
      rw [← hpe] at hval
      obtain rfl : p.2 = b := Sum.inl.inj hval
      exact hread p hp
    · obtain ⟨p, _, hpe⟩ := List.mem_map.mp huser
      rw [← hpe] at hval
      cases hval
  · intro batchID hend hmem
    obtain ⟨entry, hentry, hkey⟩ := List.mem_map.mp hmem
    have h := ((mem_GetStateByRange st _ _ entry).mp hentry).2.2
    rw [hkey, hend] at h
    cases h
  · intro userID
    show keyLt ("user_" ++ userID).data "batch_zzzzzzzzzz".data = false
    rw [String.data_append]
    rfl

/-! ### Writes and compliance -/

theorem le_arcsin_of_nonneg (x : ℝ) (h0 : 0 ≤ x) (h1 : x ≤ 1) : x ≤ Real.arcsin x := by
  have hsin : Real.sin (Real.arcsin x) = x := Real.sin_arcsin (by linarith) h1
  have hnonneg : 0 ≤ Real.arcsin x := Real.arcsin_nonneg.mpr h0
  calc x = Real.sin (Real.arcsin x) := hsin.symm
    _ ≤ Real.arcsin x := Real.sin_le hnonneg

theorem calculateDistance_origin_gt (latc lonc : ℝ)
    (hlo : 0.2 ≤ latc * 3.14159265359 / 180) (hhi : latc * 3.14159265359 / 180 ≤ 1) :
    1000 < calculateDistance 0 0 latc lonc := by
  have hpi3 := Real.pi_gt_three
  have hpi4 := Real.pi_le_four
  have e1 : (latc - 0) * 3.14159265359 / (180.0 : ℝ) = latc * 3.14159265359 / 180 := by
    norm_num
  have e2 : (0 : ℝ) * 3.14159265359 / 180.0 = 0 := by norm_num
  have e3 : latc * 3.14159265359 / (180.0 : ℝ) = latc * 3.14159265359 / 180 := by norm_num
  simp only [calculateDistance, Float64Ops.cos, Float64Ops.asin, Float64Ops.sqrt]
  rw [e1, e2, e3, Real.cos_zero]
  generalize latc * 3.14159265359 / 180 = x at hlo hhi
  generalize (lonc - 0) * 3.14159265359 / (180.0 : ℝ) = y
  have habs : |x| ≤ Real.pi := by
    rw [abs_of_nonneg (by linarith)]
    linarith
  have hc := Real.cos_le_one_sub_mul_cos_sq habs
  have hpisq : Real.pi ^ 2 ≤ 16 := by nlinarith
  have hpipos : 0 < Real.pi ^ 2 := by positivity
  have hfrac : 1 / 8 ≤ 2 / Real.pi ^ 2 := by
    rw [le_div_iff₀ hpipos]
    linarith
  have hxsq : (0.04 : ℝ) ≤ x ^ 2 := by nlinarith
  have hcos : Real.cos x ≤ 1 - 0.005 := by
    have : 1 / 8 * x ^ 2 ≤ 2 / Real.pi ^ 2 * x ^ 2 :=
      mul_le_mul_of_nonneg_right hfrac (by positivity)
    linarith
  have hcx : 0 ≤ Real.cos x :=
    Real.cos_nonneg_of_neg_pi_div_two_le_of_le (by linarith) (by linarith)
  have hcy : 0 ≤ 1.0 - Real.cos y := by
    have := Real.cos_le_one y
    norm_num
    linarith
  have hprod : 0 ≤ 0.5 * 1 * Real.cos x * (1.0 - Real.cos y) :=
    mul_nonneg (mul_nonneg (by norm_num) hcx) hcy
  have ha : (0.05 : ℝ) ^ 2 ≤
      0.5 - 0.5 * Real.cos x + 0.5 * 1 * Real.cos x * (1.0 - Real.cos y) := by
    have h5 : (0.5 : ℝ) - 0.5 * Real.cos x ≥ 0.0025 := by linarith
    have h6 : (0.05 : ℝ) ^ 2 = 0.0025 := by norm_num
    linarith
  have hs : (0.05 : ℝ) ≤
      Real.sqrt (0.5 - 0.5 * Real.cos x + 0.5 * 1 * Real.cos x * (1.0 - Real.cos y)) :=
    Real.le_sqrt_of_sq_le ha
  have harc : (0.05 : ℝ) ≤ Real.arcsin
      (Real.sqrt (0.5 - 0.5 * Real.cos x + 0.5 * 1 * Real.cos x * (1.0 - Real.cos y))) :=
    le_trans (le_arcsin_of_nonneg 0.05 (by norm_num) (by norm_num))
      (Real.monotone_arcsin hs)
  have h63 : (6371000.0 : ℝ) = 6371000 := by norm_num
  rw [h63]
  linarith

theorem checkGeoFencing_origin (address zone : String) :
    checkGeoFencing
      ({ Latitude := 0, Longitude := 0, Address := address, Zone := zone } :
        GeoLocation ℝ) = false := by
  have h1 := calculateDistance_origin_gt 12.9716 77.5946 (by norm_num) (by norm_num)
  have h2 := calculateDistance_origin_gt 19.0760 72.8777 (by norm_num) (by norm_num)
  have h3 := calculateDistance_origin_gt 28.7041 77.1025 (by norm_num) (by norm_num)
  have h1000 : (1000.0 : ℝ) = 1000 := by norm_num
  simp only [checkGeoFencing, allowedZones, List.any_cons, List.any_nil, Bool.or_false,
    Bool.or_eq_false_iff, decide_eq_false_iff_not, not_le, h1000]
  exact ⟨h1, h2, h3⟩

section ClaimsOnWrites

variable {F : Type} [OfScientific F] [Add F] [Sub F] [Mul F] [Div F] [LE F]
  [DecidableRel (LE.le : F → F → Prop)] [Float64Ops F]

theorem AddEvent_ok_conditions (jsonUnmarshal : String → Option (JSONMap F)) (clk : Clock)
    (batchID eventType actorID description : String) (latitude longitude : F)
    (ipfsHash qualityDataJSON : String) (st : WorldState F)
    (herr : (AddEvent jsonUnmarshal clk batchID eventType actorID description latitude
      longitude ipfsHash qualityDataJSON st).err = none) :
    (∃ b : HerbBatch F, getState st.batches batchID = some b ∧ batchReadable b = true) ∧
    (∃ actor : User, getState st.users actorID = some actor ∧
      hasPermission actor eventType = true) ∧
    (qualityDataJSON = "" ∨ jsonUnmarshal qualityDataJSON ≠ none) ∧
    Float64Ops.isFinite latitude = true ∧ Float64Ops.isFinite longitude = true := by
  cases hb : getState st.batches batchID with
  | none => simp [AddEvent, GetHerbBatch, hb] at herr
  | some b =>
    cases hr : batchReadable b with
    | false => simp [AddEvent, GetHerbBatch, hb, hr] at herr
    | true =>
      cases hu : getState st.users actorID with
      | none => simp [AddEvent, GetHerbBatch, hb, hr, GetUser, hu] at herr
      | some actor =>
        cases hp : hasPermission actor eventType with
        | false => simp [AddEvent, GetHerbBatch, hb, hr, GetUser, hu, hp] at herr
        | true =>
          cases hlat : Float64Ops.isFinite latitude with
          | false =>
            by_cases hempty : qualityDataJSON = ""
            · simp [AddEvent, GetHerbBatch, hb, hr, GetUser, hu, hp, hempty, hlat] at herr
            · cases hj : jsonUnmarshal qualityDataJSON with
              | none =>
                simp [AddEvent, GetHerbBatch, hb, hr, GetUser, hu, hp, hempty, hj] at herr
              | some qualityData =>
                simp [AddEvent, GetHerbBatch, hb, hr, GetUser, hu, hp, hempty, hj, hlat] at herr
          | true =>
            cases hlon : Float64Ops.isFinite longitude with
            | false =>
              by_cases hempty : qualityDataJSON = ""
              · simp [AddEvent, GetHerbBatch, hb, hr, GetUser, hu, hp, hempty, hlat,
                  hlon] at herr
              · cases hj : jsonUnmarshal qualityDataJSON with
                | none =>
                  simp [AddEvent, GetHerbBatch, hb, hr, GetUser, hu, hp, hempty, hj] at herr
                | some qualityData =>
                  simp [AddEvent, GetHerbBatch, hb, hr, GetUser, hu, hp, hempty, hj, hlat,
                    hlon] at herr
            | true =>
              refine ⟨⟨b, rfl, hr⟩, ⟨actor, rfl, hp⟩, ?_, rfl, rfl⟩
              by_cases hempty : qualityDataJSON = ""
              · exact Or.inl hempty
              · cases hj : jsonUnmarshal qualityDataJSON with
                | none =>
                  simp [AddEvent, GetHerbBatch, hb, hr, GetUser, hu, hp, hempty, hj] at herr
                | some qualityData => exact Or.inr (by simp)

/-- C15, as amended: `AddEvent` succeeds exactly when the batch exists and `json.Unmarshal`
reads it back, the actor exists, `hasPermission` grants the kind, the quality-data text is
empty or `json.Unmarshal` decodes it into a map, and the latitude and the longitude are finite;
the verdict does not enter, and on success the verdict of `checkCompliance` on the new event
is stored whatever it is.  The decoder accepts the texts that are a JSON object or `null`
within its limits: the well-formed object with the number `1e999`, which is out of the range of
`float64`, is refused.  Over the real numbers `CreateHerbBatch` at (0, 0) by a farmer, on a
batch id without a stored batch, succeeds and stores a verdict with geo = false and
overall = false. -/
theorem compliance_never_blocks (jsonUnmarshal : String → Option (JSONMap F)) (clk : Clock)
    (batchID eventType actorID description : String) (latitude longitude : F)
    (ipfsHash qualityDataJSON : String) (st : WorldState F) :
    ((AddEvent jsonUnmarshal clk batchID eventType actorID description latitude longitude
        ipfsHash qualityDataJSON st).err = none ↔
      (∃ b : HerbBatch F, getState st.batches batchID = some b ∧ batchReadable b = true) ∧
      (∃ actor : User, getState st.users actorID = some actor ∧
        hasPermission actor eventType = true) ∧
      (qualityDataJSON = "" ∨ jsonUnmarshal qualityDataJSON ≠ none) ∧
      Float64Ops.isFinite latitude = true ∧ Float64Ops.isFinite longitude = true) ∧
    ((AddEvent jsonUnmarshal clk batchID eventType actorID description latitude longitude
        ipfsHash qualityDataJSON st).err = none →
      ∃ (b1 : HerbBatch F) (e : HerbEvent F) (now : Instant),
        getState (AddEvent jsonUnmarshal clk batchID eventType actorID description latitude
          longitude ipfsHash qualityDataJSON st).state.batches batchID = some b1 ∧
        b1.Events.getLast? = some e ∧ e.EventType = eventType ∧
        b1.ComplianceStatus = checkCompliance now e) ∧
    (∀ s : String, (jsonUnmarshalMap s : Option (JSONMap ℝ)) ≠ none ↔
      ((∃ fields, jsonParse decodeNumber s = some (JSONValue.object fields : JSONValue ℝ)) ∨
        jsonParse decodeNumber s = some (JSONValue.null : JSONValue ℝ))) ∧
    (jsonValid "\x7b\"purity\": 1e999\x7d" = true ∧
      (jsonUnmarshalMap "\x7b\"purity\": 1e999\x7d" : Option (JSONMap ℝ)).isNone = true) ∧
    (∀ (species farmerID : String) (quantity : ℝ) (unit address : String)
        (ledger : WorldState ℝ) (farmer : User),
      getState ledger.batches batchID = none →
      getState ledger.users farmerID = some farmer → farmer.Role = "farmer" →
      (CreateHerbBatch clk batchID species farmerID quantity unit 0 0 address ledger).err =
        none ∧
      ∃ b : HerbBatch ℝ,
        getState (CreateHerbBatch clk batchID species farmerID quantity unit 0 0 address
          ledger).state.batches batchID = some b ∧
        b.ComplianceStatus.GeoFencing = false ∧ b.ComplianceStatus.Overall = false) := by
  refine ⟨⟨?_, ?_⟩, ?_, ?_, ⟨rfl, by decide!⟩, ?_⟩
  · exact AddEvent_ok_conditions jsonUnmarshal clk batchID eventType actorID description
      latitude longitude ipfsHash qualityDataJSON st
  · rintro ⟨⟨b, hb, hr⟩, ⟨actor, hu, hp⟩, hq, hlat, hlon⟩
    by_cases hempty : qualityDataJSON = ""
    · simp [AddEvent, GetHerbBatch, hb, hr, GetUser, hu, hp, hempty, hlat, hlon]
    · have hdec : jsonUnmarshal qualityDataJSON ≠ none := hq.resolve_left hempty
      cases hj : jsonUnmarshal qualityDataJSON with
      | none => exact absurd hj hdec
      | some qualityData =>
        simp [AddEvent, GetHerbBatch, hb, hr, GetUser, hu, hp, hempty, hj, hlat, hlon]
  · intro herr
    rcases AddEvent_effect jsonUnmarshal clk batchID eventType actorID description latitude
      longitude ipfsHash qualityDataJSON st with ⟨hne, _⟩ | ⟨_, b, b1, _, happ, hst⟩
    · exact absurd herr hne
    · obtain ⟨e, now, _, hkind, _, _, _, rfl⟩ := happ
      rw [hst]
      exact ⟨_, e, now, getState_putState_same _ _ _, List.getLast?_concat _, hkind, rfl⟩
  · intro s
    unfold jsonUnmarshalMap
    cases hparse : (jsonParse decodeNumber s : Option (JSONValue ℝ)) with
    | none => simp
    | some v => cases v <;> simp
  · intro species farmerID quantity unit address ledger farmer hfresh hu hr
    have hgeo := checkGeoFencing_origin address ""
    have hfin : (Float64Ops.isFinite quantity && Float64Ops.isFinite (0 : ℝ) &&
        Float64Ops.isFinite (0 : ℝ)) = true := rfl
    refine ⟨by simp [CreateHerbBatch, hfresh, GetUser, hu, hr, hfin], ?_⟩
    simp only [CreateHerbBatch, hfresh, GetUser, hu, hr, hfin, ne_eq, not_true_eq_false,
      if_false, Bool.not_true, Bool.false_eq_true]
    rw [getState_putState_same]
    refine ⟨_, rfl, ?_, ?_⟩
    · exact hgeo
    · show (checkCompliance _ _).Overall = false
      simp only [checkCompliance, hgeo, Bool.false_and]

end ClaimsOnWrites

/-- Counterexample to C15: on the sample ledger `B1` is stored and `packager001` holds the
packaging permission; the text `[]` is well-formed JSON and `AddEvent` with it as quality data
returns the error of `json.Unmarshal`; with empty quality data and a latitude that is no number
`AddEvent` returns the error of `json.Marshal`. -/
theorem wellformed_quality_data_refused :
    jsonValid "[]" = true ∧
    getState (sampleCreated : WorldState ℝ).batches "B1" =
      some (batchAt (sampleCreated : WorldState ℝ) "B1") ∧
    getState (sampleCreated : WorldState ℝ).users "packager001" = some packager001 ∧
    hasPermission packager001 "packaging" = true ∧
    (AddEvent jsonUnmarshalMap (clockAt 1750003600 "2025-06-15T16:06:40Z") "B1" "packaging"
      "packager001" "packed in jars" (12.9716 : ℝ) 77.5946 "" "[]" sampleCreated).err =
        some (TxError.badQualityData "[]") ∧
    getState (sampleCreated : WorldState RealOrNaN).batches "B1" =
      some (batchAt (sampleCreated : WorldState RealOrNaN) "B1") ∧
    (AddEvent rejectingUnmarshal (clockAt 1750003600 "2025-06-15T16:06:40Z") "B1" "packaging"
      "packager001" "packed in jars" RealOrNaN.nan 77.5946 "" "" sampleCreated).err =
        some TxError.unsupportedValue :=
  ⟨rfl, rfl, rfl, rfl, rfl, rfl, rfl⟩

/-- Witness of C15 as amended: on the sample ledger a `packaging` event at (0, 0) dated
15 January 2025, with the quality data of a JSON object, is accepted and appended although
its verdict is not compliant. -/
theorem compliance_never_blocks_witness :
    (AddEvent jsonUnmarshalMap (clockAt 1736935200 "2025-01-15T10:00:00Z") "B1" "packaging"
      "packager001" "packed in jars" (0 : ℝ) 0 "" "\x7b\"purity\": 97.5\x7d"
      sampleCreated).err = none ∧
    (batchAt (AddEvent jsonUnmarshalMap (clockAt 1736935200 "2025-01-15T10:00:00Z") "B1"
      "packaging" "packager001" "packed in jars" (0 : ℝ) 0 "" "\x7b\"purity\": 97.5\x7d"
      sampleCreated).state "B1").ComplianceStatus.Overall = false ∧
    (batchAt (AddEvent jsonUnmarshalMap (clockAt 1736935200 "2025-01-15T10:00:00Z") "B1"
      "packaging" "packager001" "packed in jars" (0 : ℝ) 0 "" "\x7b\"purity\": 97.5\x7d"
      sampleCreated).state "B1").Events.map (fun e => e.EventType) =
        ["harvest", "packaging"] := by
  have hdecoded : (jsonUnmarshalMap "\x7b\"purity\": 97.5\x7d" : Option (JSONMap ℝ)) =
      some (some [("purity", JSONValue.number 97.5)]) := rfl
  refine ⟨((compliance_never_blocks jsonUnmarshalMap
    (clockAt 1736935200 "2025-01-15T10:00:00Z") "B1" "packaging" "packager001"
    "packed in jars" (0 : ℝ) 0 "" "\x7b\"purity\": 97.5\x7d" sampleCreated).1).mpr
    ⟨⟨_, sampleCreated_stored, rfl⟩, ⟨packager001, rfl, rfl⟩,
      Or.inr (by rw [hdecoded]; exact Option.some_ne_none _), rfl, rfl⟩,
    ?_, rfl⟩
  show (checkCompliance _ _).Overall = false
  simp only [checkCompliance]
  have hs : ∀ e : HerbEvent ℝ, e.Timestamp = "2025-01-15T10:00:00Z" →
      checkSeasonalRestrictions e = false := by
    intro e he
    simp only [checkSeasonalRestrictions, he]
    rfl
  rw [hs _ rfl]
  simp

/-! ### The ledger that starts empty -/

theorem seedUsers_no_late_stage (clk : Clock) (u : User) (hu : u ∈ seedUsers clk) :
    ∀ p ∈ lateStagePermissions, p ∉ u.Permissions := by
  simp only [seedUsers, List.mem_cons, List.mem_singleton, List.not_mem_nil, or_false] at hu
  rcases hu with rfl | rfl | rfl | rfl <;> simp [lateStagePermissions]

theorem hasPermission_early (u : User) (h : ∀ p ∈ lateStagePermissions, p ∉ u.Permissions)
    (kind : String) (hp : hasPermission u kind = true) :
    kind = "harvest" ∨ kind = "processing" ∨ kind = "quality_test" := by
  have h1 : "add_packaging_event" ∉ u.Permissions := h _ (by simp [lateStagePermissions])
  have h2 : "add_transport_event" ∉ u.Permissions := h _ (by simp [lateStagePermissions])
  have h3 : "add_retail_event" ∉ u.Permissions := h _ (by simp [lateStagePermissions])
  by_cases hk : kind ∈ tableKinds
  · simp only [tableKinds, List.mem_cons, List.mem_singleton, List.not_mem_nil,
      or_false] at hk
    rcases hk with rfl | rfl | rfl | rfl | rfl | rfl
    · exact Or.inl rfl
    · exact Or.inr (Or.inl rfl)
    · exact Or.inr (Or.inr rfl)
    · simp [hasPermission, permissionMap, getState, h1] at hp
    · simp [hasPermission, permissionMap, getState, h2] at hp
    · simp [hasPermission, permissionMap, getState, h3] at hp
  · simp [hasPermission, getState_permissionMap_of_not_mem kind hk] at hp

theorem getState_foldl_putUser {F : Type} (users : List User) (st : WorldState F)
    (userID : String) (u : User)
    (h : getState (users.foldl
      (fun s user => { s with users := putState s.users user.UserID user }) st).users userID =
        some u) :
    getState st.users userID = some u ∨ u ∈ users := by
  induction users generalizing st with
  | nil => exact Or.inl h
  | cons v rest ih =>
    rcases ih _ h with hprev | hmem
    · by_cases hid : userID = v.UserID
      · subst hid
        rw [getState_putState_same] at hprev
        exact Or.inr (by rw [← Option.some.inj hprev]; exact List.mem_cons_self _ _)
      · rw [getState_putState_other _ _ _ _ hid] at hprev
        exact Or.inl hprev
    · exact Or.inr (List.mem_cons_of_mem _ hmem)

section FromEmptyLemmas

variable {F : Type} [OfScientific F] [Add F] [Sub F] [Mul F] [Div F] [LE F]
  [DecidableRel (LE.le : F → F → Prop)] [Float64Ops F]

theorem AddEvent_ok_actor (jsonUnmarshal : String → Option (JSONMap F)) (clk : Clock)
    (batchID eventType actorID description : String) (latitude longitude : F)
    (ipfsHash qualityDataJSON : String) (st : WorldState F)
    (herr : (AddEvent jsonUnmarshal clk batchID eventType actorID description latitude
      longitude ipfsHash qualityDataJSON st).err = none) :
    ∃ actor : User, getState st.users actorID = some actor ∧
      hasPermission actor eventType = true := by
  exact (AddEvent_ok_conditions jsonUnmarshal clk batchID eventType actorID description
    latitude longitude ipfsHash qualityDataJSON st herr).2.1

theorem Step_users {jsonUnmarshal : String → Option (JSONMap F)} {st st1 : WorldState F}
    (h : Step jsonUnmarshal st st1) (userID : String) (u : User)
    (hu : getState st1.users userID = some u) :
    getState st.users userID = some u ∨ ∃ clk : Clock, u ∈ seedUsers clk := by
  cases h with
  | initLedger clk =>
    rcases getState_foldl_putUser (seedUsers clk) st userID u hu with hold | hmem
    · exact Or.inl hold
    · exact Or.inr ⟨clk, hmem⟩
  | createHerbBatch clk batchID species farmerID quantity unit latitude longitude address =>
    rcases CreateHerbBatch_effect clk batchID species farmerID quantity unit latitude
      longitude address st with ⟨_, hst⟩ | ⟨_, _, b1, _, hst⟩
    · rw [hst] at hu; exact Or.inl hu
    · rw [hst] at hu; exact Or.inl hu
  | addEvent clk batchID eventType actorID description latitude longitude ipfsHash
      qualityDataJSON =>
    rcases AddEvent_effect jsonUnmarshal clk batchID eventType actorID description latitude
      longitude ipfsHash qualityDataJSON st with ⟨_, hst⟩ | ⟨_, b, b1, _, _, hst⟩
    · rw [hst] at hu; exact Or.inl hu
    · rw [hst] at hu; exact Or.inl hu
  | generateQRCode clk batchID =>
    rcases GenerateQRCode_effect clk batchID st with ⟨_, hst⟩ | ⟨_, b, b1, _, _, hst⟩
    · rw [hst] at hu; exact Or.inl hu
    · rw [hst] at hu; exact Or.inl hu

theorem NoLateStagePermission_step {jsonUnmarshal : String → Option (JSONMap F)}
    {st st1 : WorldState F} (h : Step jsonUnmarshal st st1)
    (inv : NoLateStagePermission st) : NoLateStagePermission st1 := by
  intro userID u hu
  rcases Step_users h userID u hu with hold | ⟨clk, hmem⟩
  · exact inv userID u hold
  · exact seedUsers_no_late_stage clk u hmem

theorem EarlyStagesOnly_step {jsonUnmarshal : String → Option (JSONMap F)}
    {st st1 : WorldState F} (h : Step jsonUnmarshal st st1)
    (husers : NoLateStagePermission st) (inv : EarlyStagesOnly st) : EarlyStagesOnly st1 := by
  intro id b1 hb1
  cases h with
  | initLedger clk =>
    rw [(InitLedger_batches clk st).2] at hb1
    exact inv id b1 hb1
  | createHerbBatch clk batchID species farmerID quantity unit latitude longitude address =>
    rcases CreateHerbBatch_effect clk batchID species farmerID quantity unit latitude
      longitude address st with ⟨_, hst⟩ | ⟨_, _, b2, hfresh, hst⟩
    · rw [hst] at hb1; exact inv id b1 hb1
    · rw [hst] at hb1
      by_cases hid : id = batchID
      · subst hid
        rw [getState_putState_same] at hb1
        obtain rfl : b2 = b1 := Option.some.inj hb1
        exact ⟨Or.inl hfresh.1, hfresh.2.1⟩
      · rw [getState_putState_other _ _ _ _ hid] at hb1
        exact inv id b1 hb1
  | addEvent clk batchID eventType actorID description latitude longitude ipfsHash
      qualityDataJSON =>
    rcases AddEvent_effect jsonUnmarshal clk batchID eventType actorID description latitude
      longitude ipfsHash qualityDataJSON st with ⟨_, hst⟩ | ⟨hok, b, b2, hb, happ, hst⟩
    · rw [hst] at hb1; exact inv id b1 hb1
    · rw [hst] at hb1
      by_cases hid : id = batchID
      · subst hid
        rw [getState_putState_same] at hb1
        obtain rfl : b2 = b1 := Option.some.inj hb1
        obtain ⟨actor, hactor, hperm⟩ := AddEvent_ok_actor jsonUnmarshal clk id eventType
          actorID description latitude longitude ipfsHash qualityDataJSON st hok
        have hkind := hasPermission_early actor (husers actorID actor hactor) eventType hperm
        obtain ⟨e, _, _, _, _, _, _, rfl⟩ := happ
        refine ⟨?_, (inv id b hb).2⟩
        rcases hkind with rfl | rfl | rfl
        · exact Or.inl rfl
        · exact Or.inr (Or.inl rfl)
        · exact Or.inr (Or.inr rfl)
      · rw [getState_putState_other _ _ _ _ hid] at hb1
        exact inv id b1 hb1
  | generateQRCode clk batchID =>
    rcases GenerateQRCode_effect clk batchID st with ⟨_, hst⟩ | ⟨_, b, b2, hb, hfin, hst⟩
    · rw [hst] at hb1; exact inv id b1 hb1
    · have hstatus := (inv batchID b hb).1
      rw [hfin.1] at hstatus
      rcases hstatus with h1 | h1 | h1 <;> exact absurd h1 (by decide)

omit [OfScientific F] [Add F] [Sub F] [Mul F] [Div F] [LE F]
  [DecidableRel (LE.le : F → F → Prop)] [Float64Ops F] in
theorem GenerateQRCode_fails_of_early (clk : Clock) (batchID : String) (st : WorldState F)
    (inv : EarlyStagesOnly st) : (GenerateQRCode clk batchID st).err ≠ none := by
  rcases GenerateQRCode_effect clk batchID st with ⟨hne, _⟩ | ⟨_, b, b2, hb, hfin, _⟩
  · exact hne
  · have hstatus := (inv batchID b hb).1
    rw [hfin.1] at hstatus
    rcases hstatus with h1 | h1 | h1 <;> exact absurd h1 (by decide)

/-- C21: in every world state that `InitLedger`, `CreateHerbBatch`, `AddEvent` and
`GenerateQRCode` lead to from the empty ledger, no user holds `add_packaging_event`,
`add_transport_event` or `add_retail_event`, every batch has one of the statuses `harvested`,
`processed`, `tested` and `QRCodeGenerated = false`, and every `GenerateQRCode` call returns an
error. -/
theorem never_packaged_from_empty (jsonUnmarshal : String → Option (JSONMap F))
    (st : WorldState F) (h : Steps jsonUnmarshal emptyLedger st) : NeverPackaged st := by
  have hinv : NoLateStagePermission st ∧ EarlyStagesOnly st := by
    induction h with
    | refl =>
      refine ⟨?_, ?_⟩
      · intro userID u hu
        simp [emptyLedger, getState] at hu
      · intro batchID b hb
        simp [emptyLedger, getState] at hb
    | tail _ hstep ih =>
      exact ⟨NoLateStagePermission_step hstep ih.1, EarlyStagesOnly_step hstep ih.1 ih.2⟩
  exact ⟨hinv.1, hinv.2, fun clk batchID => GenerateQRCode_fails_of_early clk batchID st hinv.2⟩

end FromEmptyLemmas

theorem ledgerProcessed_status :
    getState (ledgerProcessed : WorldState ℝ).users "processor001" =
      some ((seedUsers (clockAt 1748764800 "2025-06-01T08:00:00Z")).getD 1 farmer001) ∧
    getState (ledgerProcessed : WorldState ℝ).batches "B1" =
      some (batchAt (ledgerProcessed : WorldState ℝ) "B1") ∧
    (batchAt (ledgerProcessed : WorldState ℝ) "B1").Status = "processed" ∧
    (batchAt (ledgerProcessed : WorldState ℝ) "B1").Events.map
      (fun e => (e.EventType, e.ActorID)) =
        [("harvest", "farmer001"), ("processing", "processor001")] ∧
    (GenerateQRCode (clockAt 1750007200 "2025-06-15T17:06:40Z") "B1"
      (ledgerProcessed : WorldState ℝ)).err = some (TxError.notReady "B1" "processed") ∧
    (AddEvent rejectingUnmarshal (clockAt 1750007200 "2025-06-15T17:06:40Z") "B1" "packaging"
      "processor001" "packed in jars" (12.9716 : ℝ) 77.5946 "" "" ledgerProcessed).err =
        some (TxError.noPermission "processor001" "packaging") :=
  ⟨rfl, rfl, rfl, rfl, rfl, rfl⟩

/-- Witness of C21: the ledger that `InitLedger`, the harvest of `B1` by `farmer001` and its
processing by `processor001` lead to from the empty ledger. -/
theorem never_packaged_from_empty_witness :
    NeverPackaged (ledgerProcessed : WorldState ℝ) :=
  never_packaged_from_empty rejectingUnmarshal ledgerProcessed
    (Steps.tail (Steps.tail (Steps.tail (Steps.refl _) (Step.initLedger _ _))
      (Step.createHerbBatch _ _ _ _ _ _ _ _ _ _)) (Step.addEvent _ _ _ _ _ _ _ _ _ _))


/-! ### A batch that is stored and not read back -/

theorem jsonDepth_nestedObject {F : Type} (n : Nat) :
    jsonDepth (nestedObject n : JSONValue F) = n + 1 := by
  induction n with
  | zero => simp [nestedObject, jsonDepth, fieldsDepth]
  | succ n ih => simp [nestedObject, jsonDepth, fieldsDepth, ih]

theorem skipSpace_nestedObjectText (n : Nat) (rest : List Char) :
    skipSpace (nestedObjectText n ++ rest) = nestedObjectText n ++ rest := by
  cases n <;> simp [nestedObjectText, skipSpace, List.dropWhile, isJSONSpace, openBrace]

theorem parseMembers_single {F : Type}
    (parseValue : List Char → Option (JSONValue F × List Char)) (fuel : Nat)
    (text rest : List Char) (v : JSONValue F)
    (h : parseValue (skipSpace text) = some (v, closeBrace :: rest)) :
    parseMembers parseValue (fuel + 1) (quoteChar :: 'a' :: quoteChar :: ':' :: text) =
      some ([("a", v)], rest) := by
  have hunits : parseStringUnits ('a' :: quoteChar :: ':' :: text) =
      some ([StringUnit.char 'a'], ':' :: text) := by
    unfold parseStringUnits
    simp only [quoteChar, backslashChar]
    unfold parseStringUnits
    simp [quoteChar]
  have hkey : String.mk (decodeUnits [StringUnit.char 'a']) = "a" := rfl
  have hcolon : skipSpace (':' :: text) = ':' :: text := rfl
  have hclose : skipSpace (closeBrace :: rest) = closeBrace :: rest := rfl
  have hcomma : ¬ closeBrace = ',' := by decide
  simp only [parseMembers, hunits, hcolon, h, hclose, hkey, hcomma, if_true, if_false]

theorem parseValue_nestedObjectText {F : Type} (number : NumberLiteral → Option F) (n : Nat) :
    ∀ (depth : Nat) (rest : List Char), n < depth →
      parseValue number depth (nestedObjectText n ++ rest) = some (nestedObject n, rest) := by
  induction n with
  | zero =>
    intro depth rest hlt
    have hne : depth ≠ 0 := by omega
    obtain ⟨d, rfl⟩ := Nat.exists_eq_succ_of_ne_zero hne
    rfl
  | succ n ih =>
    intro depth rest hlt
    have hne : depth ≠ 0 := by omega
    obtain ⟨d, rfl⟩ := Nat.exists_eq_succ_of_ne_zero hne
    have hih : parseValue number d (skipSpace (nestedObjectText n ++ closeBrace :: rest)) =
        some (nestedObject n, closeBrace :: rest) := by
      rw [skipSpace_nestedObjectText]
      exact ih d (closeBrace :: rest) (by omega)
    have hmembers := parseMembers_single (parseValue number d)
      ('a' :: quoteChar :: ':' :: (nestedObjectText n ++ closeBrace :: rest)).length
      (nestedObjectText n ++ closeBrace :: rest) rest (nestedObject n) hih
    have hbracket : ¬ openBrace = '[' := by decide
    have hquote : skipSpace (quoteChar :: 'a' :: quoteChar :: ':' ::
        (nestedObjectText n ++ closeBrace :: rest)) =
      quoteChar :: 'a' :: quoteChar :: ':' :: (nestedObjectText n ++ closeBrace :: rest) := rfl
    have hnot : ¬ quoteChar = closeBrace := by decide
    have htext : nestedObjectText (n + 1) ++ rest =
        openBrace :: quoteChar :: 'a' :: quoteChar :: ':' ::
          (nestedObjectText n ++ closeBrace :: rest) := by
      simp [nestedObjectText]
    rw [htext]
    simp only [parseValue, hbracket, if_false, if_true, hquote, hnot, List.length_cons,
      nestedObject]
    simp only [List.length_cons] at hmembers
    rw [hmembers]

theorem jsonUnmarshalMap_nestedObjectText (n : Nat) (hn : n + 1 < 10000) :
    (jsonUnmarshalMap (String.mk (nestedObjectText (n + 1))) : Option (JSONMap ℝ)) =
      some (some [("a", nestedObject n)]) := by
  have h := parseValue_nestedObjectText (decodeNumber : NumberLiteral → Option ℝ) (n + 1) 10000
    [] hn
  rw [List.append_nil] at h
  have hs := skipSpace_nestedObjectText (n + 1) []
  rw [List.append_nil] at hs
  have hempty : skipSpace [] = [] := rfl
  simp only [jsonUnmarshalMap, jsonParse, hs, h, hempty, List.isEmpty_nil, if_true, nestedObject]

theorem nestedObjectText_ne_nil (n : Nat) : nestedObjectText n ≠ [] := by
  cases n <;> simp [nestedObjectText]

theorem deepQualityData_ne_empty : deepQualityData ≠ "" := by
  intro h
  exact nestedObjectText_ne_nil 9997 (congrArg String.data h)

section DeepLemmas

variable {F : Type} [OfScientific F] [Add F] [Sub F] [Mul F] [Div F] [LE F]
  [DecidableRel (LE.le : F → F → Prop)] [Float64Ops F]

theorem AddEvent_stored (jsonUnmarshal : String → Option (JSONMap F)) (clk : Clock)
    (batchID eventType actorID description : String) (latitude longitude : F)
    (ipfsHash qualityDataJSON : String) (st : WorldState F) (b : HerbBatch F) (actor : User)
    (qualityData : JSONMap F)
    (hb : getState st.batches batchID = some b) (hr : batchReadable b = true)
    (hu : getState st.users actorID = some actor) (hp : hasPermission actor eventType = true)
    (hne : qualityDataJSON ≠ "") (hq : jsonUnmarshal qualityDataJSON = some qualityData)
    (hlat : Float64Ops.isFinite latitude = true)
    (hlon : Float64Ops.isFinite longitude = true) :
    (AddEvent jsonUnmarshal clk batchID eventType actorID description latitude longitude
      ipfsHash qualityDataJSON st).err = none ∧
    ∃ (b1 : HerbBatch F) (e : HerbEvent F),
      getState (AddEvent jsonUnmarshal clk batchID eventType actorID description latitude
        longitude ipfsHash qualityDataJSON st).state.batches batchID = some b1 ∧
      b1.Events = b.Events ++ [e] ∧ e.QualityData = qualityData ∧
      b1.Status = updateStatus b.Status eventType := by
  refine ⟨by simp [AddEvent, GetHerbBatch, hb, hr, GetUser, hu, hp, hne, hq, hlat, hlon], ?_⟩
  simp only [AddEvent, GetHerbBatch, hb, hr, GetUser, hu, hp, hne, hq, hlat, hlon,
    Bool.not_true, Bool.false_eq_true, if_false, if_true, ne_eq, not_false_eq_true,
    Bool.and_self]
  exact ⟨_, _, getState_putState_same _ _ _, rfl, rfl, rfl⟩

end DeepLemmas

theorem GenerateQRCode_unreadable {F : Type} (clk : Clock) (batchID : String)
    (st : WorldState F) (b : HerbBatch F) (hb : getState st.batches batchID = some b)
    (hr : batchReadable b = false) :
    (GenerateQRCode clk batchID st).err = some TxError.unreadable := by
  simp [GenerateQRCode, GetHerbBatch, hb, hr]

theorem batchReadable_deep {F : Type} (b : HerbBatch F) (events : List (HerbEvent F))
    (e : HerbEvent F) (n : Nat) (hevents : b.Events = events ++ [e])
    (hquality : e.QualityData = some [("a", nestedObject n)]) (hn : 9996 ≤ n) :
    batchReadable b = false := by
  have hq : decide (mapDepth e.QualityData + 3 ≤ maxNestingDepth) = false := by
    rw [hquality]
    simp only [mapDepth, fieldsDepth, jsonDepth_nestedObject, maxNestingDepth,
      decide_eq_false_iff_not]
    omega
  simp [batchReadable, hevents, hq]

theorem jsonUnmarshalMap_deepQualityData :
    (jsonUnmarshalMap deepQualityData : Option (JSONMap ℝ)) =
      some (some [("a", nestedObject 9996)]) :=
  jsonUnmarshalMap_nestedObjectText 9996 (by decide)

theorem deepEvent_stored :
    (AddEvent jsonUnmarshalMap (clockAt 1750003600 "2025-06-15T16:06:40Z") "B1" "packaging"
      "packager001" "packed in jars" (12.9716 : ℝ) 77.5946 "" deepQualityData
      sampleCreated).err = none ∧
    ∃ (b1 : HerbBatch ℝ) (e : HerbEvent ℝ),
      getState (AddEvent jsonUnmarshalMap (clockAt 1750003600 "2025-06-15T16:06:40Z") "B1"
        "packaging" "packager001" "packed in jars" (12.9716 : ℝ) 77.5946 "" deepQualityData
        sampleCreated).state.batches "B1" = some b1 ∧
      b1.Events = (batchAt (sampleCreated : WorldState ℝ) "B1").Events ++ [e] ∧
      e.QualityData = some [("a", nestedObject 9996)] ∧
      b1.Status = updateStatus (batchAt (sampleCreated : WorldState ℝ) "B1").Status
        "packaging" :=
  AddEvent_stored jsonUnmarshalMap (clockAt 1750003600 "2025-06-15T16:06:40Z") "B1"
    "packaging" "packager001" "packed in jars" (12.9716 : ℝ) 77.5946 "" deepQualityData
    sampleCreated (batchAt sampleCreated "B1") packager001 (some [("a", nestedObject 9996)])
    sampleCreated_stored rfl rfl rfl deepQualityData_ne_empty
    jsonUnmarshalMap_deepQualityData rfl rfl

/-- Counterexample to C8: on the sample ledger `packager001` adds to `B1` a `packaging` event
whose quality data is the text of 9998 objects inside one another; `json.Unmarshal` decodes
it, the event is stored and the status of `B1` is `packaged`; the text of the stored batch
nests 10001 deep, `json.Unmarshal` refuses it, and `GenerateQRCode` on `B1` returns that
error although the status is `packaged`. -/
theorem packaged_batch_unreadable :
    (jsonUnmarshalMap deepQualityData : Option (JSONMap ℝ)) =
      some (some [("a", nestedObject 9996)]) ∧
    (AddEvent jsonUnmarshalMap (clockAt 1750003600 "2025-06-15T16:06:40Z") "B1" "packaging"
      "packager001" "packed in jars" (12.9716 : ℝ) 77.5946 "" deepQualityData
      sampleCreated).err = none ∧
    (∃ b : HerbBatch ℝ,
      getState (AddEvent jsonUnmarshalMap (clockAt 1750003600 "2025-06-15T16:06:40Z") "B1"
        "packaging" "packager001" "packed in jars" (12.9716 : ℝ) 77.5946 "" deepQualityData
        sampleCreated).state.batches "B1" = some b ∧
      b.Status = "packaged" ∧ batchReadable b = false) ∧
    (GenerateQRCode (clockAt 1750007200 "2025-06-15T17:06:40Z") "B1"
      (AddEvent jsonUnmarshalMap (clockAt 1750003600 "2025-06-15T16:06:40Z") "B1"
        "packaging" "packager001" "packed in jars" (12.9716 : ℝ) 77.5946 "" deepQualityData
        sampleCreated).state).err = some TxError.unreadable := by
  obtain ⟨herr, b1, e, hb1, hevents, hquality, hstatus⟩ := deepEvent_stored
  have hread : batchReadable b1 = false :=
    batchReadable_deep b1 _ e 9996 hevents hquality (le_refl _)
  exact ⟨jsonUnmarshalMap_deepQualityData, herr, ⟨b1, hb1, hstatus.trans rfl, hread⟩,
    GenerateQRCode_unreadable _ _ _ b1 hb1 hread⟩

end HerbTraceability
